import Mathlib

/-!
# TM4C-USBSerialMIDI: serial-MIDI receive engine, transmit byte ring, USB bridge

A shallow embedding of `midi_uart/midi_uart.c`, `midi_uart/midi_uart.h`,
`midi_uart7.c`, `usb_midi/usb_midi.c` and the button handling of `main.c`.
Bytes and machine words are natural numbers; every store to a `uint8_t` object
is reduced modulo 256 where the C value could exceed a byte.  The UART receive
buffer is a list of bytes: `MAP_UARTCharsAvail` is "the list is non-empty" and
`MAP_UARTCharGet` removes its first element.
-/

namespace MidiUart

/-! ## Constants -/

/-- Size of the message transmit FIFO, in bytes (`midi_uart.h`, line 26). -/
def MIDI_TX_FIFO_SIZE : Nat := 64

/-- Modelled from the spec: `midi.h` is not among the sources; start of
exclusive is the status byte 0xF0 (spec §4.1 and glossary). -/
def MIDI_MSG_SOX : Nat := 0xF0

/-- Modelled from the spec: `midi.h` is not among the sources; end of exclusive
is the byte 0xF7 (spec §4.1 and glossary). -/
def MIDI_MSG_EOX : Nat := 0xF7

/-- Modelled from the spec: `midi.h` is not among the sources; note-off status
(high nibble 0x8) of the fixed MIDI status table. -/
def MIDI_MSG_NOTEOFF : Nat := 0x80

/-- Modelled from the spec: `midi.h` is not among the sources; note-on status
(high nibble 0x9). -/
def MIDI_MSG_NOTEON : Nat := 0x90

/-- Modelled from the spec: `midi.h` is not among the sources; polyphonic key
pressure status (high nibble 0xA). -/
def MIDI_MSG_POLYPRESSURE : Nat := 0xA0

/-- Modelled from the spec: `midi.h` is not among the sources; control-change
status (high nibble 0xB). -/
def MIDI_MSG_CTRLCHANGE : Nat := 0xB0

/-- Modelled from the spec: `midi.h` is not among the sources; program-change
status (high nibble 0xC). -/
def MIDI_MSG_PROGCHANGE : Nat := 0xC0

/-- Modelled from the spec: `midi.h` is not among the sources; channel-pressure
status (high nibble 0xD). -/
def MIDI_MSG_CHANNELPRESSURE : Nat := 0xD0

/-- Modelled from the spec: `midi.h` is not among the sources; pitch-bend
status (high nibble 0xE). -/
def MIDI_MSG_PITCHBEND : Nat := 0xE0

/-- Modelled from the spec: `midi.h` is not among the sources; MIDI time code
quarter frame, system common 0xF1. -/
def MIDI_MSG_MTCQF : Nat := 0xF1

/-- Modelled from the spec: `midi.h` is not among the sources; song position
pointer, system common 0xF2. -/
def MIDI_MSG_SPP : Nat := 0xF2

/-- Modelled from the spec: `midi.h` is not among the sources; song select,
system common 0xF3. -/
def MIDI_MSG_SS : Nat := 0xF3

/-- Modelled from the spec: `midi.h` is not among the sources; undefined system
common 0xF4. -/
def MIDI_MSG_F4 : Nat := 0xF4

/-- Modelled from the spec: `midi.h` is not among the sources; undefined system
common 0xF5. -/
def MIDI_MSG_F5 : Nat := 0xF5

/-- Modelled from the spec: `midi.h` is not among the sources; tune request,
system common 0xF6. -/
def MIDI_MSG_TUNEREQ : Nat := 0xF6

/-- Modelled from the spec: `usb_midi.h` is not among the sources; code index
number of a two-byte system common message (USB-MIDI 1.0, CIN 0x2). -/
def USB_MIDI_CIN_SYSCOM2 : Nat := 0x2

/-- Modelled from the spec: `usb_midi.h` is not among the sources; code index
number of a three-byte system common message (CIN 0x3). -/
def USB_MIDI_CIN_SYSCOM3 : Nat := 0x3

/-- Modelled from the spec: `usb_midi.h` is not among the sources; SysEx starts
or continues, 0x04 in the comment of `midi_uart.c` lines 205-206. -/
def USB_MIDI_CIN_SYSEXSTART : Nat := 0x4

/-- Modelled from the spec: `usb_midi.h` is not among the sources; single-byte
system common, or SysEx ends with one byte (0x5, `midi_uart.c` line 196). -/
def USB_MIDI_CIN_SYSEND1 : Nat := 0x5

/-- Modelled from the spec: `usb_midi.h` is not among the sources; SysEx ends
with two bytes (0x06, `midi_uart.c` line 199). -/
def USB_MIDI_CIN_SYSEND2 : Nat := 0x6

/-- Modelled from the spec: `usb_midi.h` is not among the sources; SysEx ends
with three bytes (0x07, `midi_uart.c` line 202). -/
def USB_MIDI_CIN_SYSEND3 : Nat := 0x7

/-- Modelled from the spec: `usb_midi.h` is not among the sources; note-off
code index number (CIN 0x8). -/
def USB_MIDI_CIN_NOTEOFF : Nat := 0x8

/-- Modelled from the spec: `usb_midi.h` is not among the sources; note-on
code index number (CIN 0x9). -/
def USB_MIDI_CIN_NOTEON : Nat := 0x9

/-- Modelled from the spec: `usb_midi.h` is not among the sources; poly key
pressure code index number (CIN 0xA). -/
def USB_MIDI_CIN_POLYKEYPRESS : Nat := 0xA

/-- Modelled from the spec: `usb_midi.h` is not among the sources;
control-change code index number (CIN 0xB). -/
def USB_MIDI_CIN_CTRLCHANGE : Nat := 0xB

/-- Modelled from the spec: `usb_midi.h` is not among the sources;
program-change code index number (CIN 0xC). -/
def USB_MIDI_CIN_PROGCHANGE : Nat := 0xC

/-- Modelled from the spec: `usb_midi.h` is not among the sources;
channel-pressure code index number (CIN 0xD). -/
def USB_MIDI_CIN_CHANPRESSURE : Nat := 0xD

/-- Modelled from the spec: `usb_midi.h` is not among the sources; pitch-bend
code index number (CIN 0xE). -/
def USB_MIDI_CIN_PITCHBEND : Nat := 0xE

/-- Modelled from the spec: `usb_midi.h` is not among the sources; single byte
code index number (CIN 0xF). -/
def USB_MIDI_CIN_SINGLEBYTE : Nat := 0xF

/-- Modelled from the spec: the macro of `usb_midi.h` is not among the sources;
spec §6 gives byte0 = `(cable:4)<<4 | code_index_number:4`, two four-bit
fields.  The result is stored in the `uint8_t` field `header`, hence the
reduction modulo 256. -/
def USB_MIDI_HEADER (cn cin : Nat) : Nat := (((cn % 16) <<< 4) ||| (cin % 16)) % 256

/-! ## Data model -/

/-- States of the receiver state machine (`midi_uart.h`, lines 33-39). -/
inductive MIDIUART_rxstate_t where
  | MU_IDLE
  | MU_DATABYTE2
  | MU_DATABYTE3
  | MU_SYSEX1
  | MU_SYSEX2
deriving DecidableEq

open MIDIUART_rxstate_t

/-- Modelled from the spec: the type declaration of `usb_midi.h` is not among
the sources; spec §3 gives the four one-byte fields header, byte1, byte2,
byte3, and the code reads and writes exactly these. -/
structure USBMIDI_Message_t where
  header : Nat
  byte1 : Nat
  byte2 : Nat
  byte3 : Nat
deriving DecidableEq

/-- The port structure (`midi_uart.h`, lines 47-65).  `txmsgfifo` is the
64-byte transmit ring. -/
structure midiport_t where
  uartbase : Nat
  uartint : Nat
  cablenum : Nat
  cin : Nat
  bytecnt : Nat
  bytesinpacket : Nat
  rxstate : MIDIUART_rxstate_t
  txmsgfifo : List Nat
  txfifohead : Nat
  txfifotail : Nat
  txidle : Nat
deriving DecidableEq

/-- The stores of `MIDIUART_Init` into the port structure (`midi_uart.c`, lines
66-76).  The transmit buffer is not touched by the initializer. -/
def MIDIUART_Init (port : midiport_t) (uartbase intnum cablenum : Nat) : midiport_t :=
  { port with
    uartbase := uartbase % 2 ^ 32
    uartint := intnum % 2 ^ 32
    cablenum := cablenum % 256
    cin := 0
    bytecnt := 0
    bytesinpacket := 0
    rxstate := MU_IDLE
    txfifohead := 0
    txfifotail := 0
    txidle := 1 }

/-- The statically allocated, zero-initialised port `mpuart7`
(`midi_uart7.c`, line 33). -/
def mpuart7_static : midiport_t :=
  { uartbase := 0, uartint := 0, cablenum := 0, cin := 0, bytecnt := 0, bytesinpacket := 0,
    rxstate := MU_IDLE, txmsgfifo := List.replicate MIDI_TX_FIFO_SIZE 0,
    txfifohead := 0, txfifotail := 0, txidle := 0 }

/-! ## Receive state machine -/

/-- The `switch (newbyte & 0xF0)` of `MIDIUART_readMessage` (`midi_uart.c`,
lines 334-395): code index number and data byte count of a new status byte.
The last branch is the `default: not possible`, which assigns nothing. -/
def readMessage_statusSwitch (port : midiport_t) (newbyte : Nat) : midiport_t :=
  let hi := newbyte &&& 0xF0
  if hi = MIDI_MSG_NOTEOFF then
    { port with cin := USB_MIDI_CIN_NOTEOFF, bytesinpacket := 2 }
  else if hi = MIDI_MSG_NOTEON then
    { port with cin := USB_MIDI_CIN_NOTEON, bytesinpacket := 2 }
  else if hi = MIDI_MSG_POLYPRESSURE then
    { port with cin := USB_MIDI_CIN_POLYKEYPRESS, bytesinpacket := 2 }
  else if hi = MIDI_MSG_CTRLCHANGE then
    { port with cin := USB_MIDI_CIN_CTRLCHANGE, bytesinpacket := 2 }
  else if hi = MIDI_MSG_PROGCHANGE then
    { port with cin := USB_MIDI_CIN_PROGCHANGE, bytesinpacket := 1 }
  else if hi = MIDI_MSG_CHANNELPRESSURE then
    { port with cin := USB_MIDI_CIN_CHANPRESSURE, bytesinpacket := 1 }
  else if hi = MIDI_MSG_PITCHBEND then
    { port with cin := USB_MIDI_CIN_PITCHBEND, bytesinpacket := 2 }
  else if hi = MIDI_MSG_SOX then
    if newbyte = MIDI_MSG_MTCQF ∨ newbyte = MIDI_MSG_SS then
      { port with cin := USB_MIDI_CIN_SYSCOM2, bytesinpacket := 1 }
    else if newbyte = MIDI_MSG_SPP then
      { port with cin := USB_MIDI_CIN_SYSCOM3, bytesinpacket := 2 }
    else if newbyte = MIDI_MSG_F4 ∨ newbyte = MIDI_MSG_F5 ∨ newbyte = MIDI_MSG_TUNEREQ then
      { port with cin := USB_MIDI_CIN_SYSEND1, bytesinpacket := 0 }
    else
      { port with cin := USB_MIDI_CIN_SINGLEBYTE, bytesinpacket := 0 }
  else
    port

/-- One iteration of the body of the `while` loop of `MIDIUART_readMessage`
after `newbyte` has been fetched (`midi_uart.c`, lines 292-489): the
`switch (port->rxstate)`.  Returns the port, the message buffer and the local
`done` as the iteration leaves them (`done` is false on entry to the body). -/
def readMessage_body (port : midiport_t) (msg : USBMIDI_Message_t) (newbyte : Nat) :
    midiport_t × USBMIDI_Message_t × Bool :=
  match port.rxstate with
  | MU_IDLE =>
    let msg := { msg with byte2 := 0x00, byte3 := 0x00 }
    if newbyte = MIDI_MSG_SOX then
      ({ port with rxstate := MU_SYSEX1 }, { msg with byte1 := MIDI_MSG_SOX }, false)
    else if newbyte < 0x80 then
      let msg := { msg with byte2 := newbyte }
      if port.bytesinpacket = 2 then
        ({ port with rxstate := MU_DATABYTE3 }, msg, false)
      else
        ({ port with rxstate := MU_IDLE }, msg, true)
    else
      let port := readMessage_statusSwitch port newbyte
      let pd : midiport_t × Bool :=
        if 0 = port.bytesinpacket then
          ({ port with rxstate := MU_IDLE }, true)
        else
          ({ port with bytecnt := port.bytesinpacket, rxstate := MU_DATABYTE2 }, false)
      let msg := { msg with byte1 := newbyte }
      let msg := { msg with header := USB_MIDI_HEADER pd.1.cablenum pd.1.cin }
      (pd.1, msg, pd.2)
  | MU_DATABYTE2 =>
    let msg := { msg with byte2 := newbyte }
    let port := { port with bytecnt := (port.bytecnt + 255) % 256 }
    if port.bytecnt ≠ 0 then
      ({ port with rxstate := MU_DATABYTE3 }, msg, false)
    else
      ({ port with rxstate := MU_IDLE }, msg, true)
  | MU_DATABYTE3 =>
    let msg := { msg with byte3 := newbyte }
    ({ port with rxstate := MU_IDLE }, msg, true)
  | MU_SYSEX1 =>
    let msg := { msg with byte2 := newbyte }
    if msg.byte2 = MIDI_MSG_EOX then
      ({ port with rxstate := MU_IDLE },
        { msg with header := USB_MIDI_HEADER port.cablenum USB_MIDI_CIN_SYSEND2 }, true)
    else
      ({ port with rxstate := MU_SYSEX2 }, msg, false)
  | MU_SYSEX2 =>
    let msg := { msg with byte3 := newbyte }
    if msg.byte3 = MIDI_MSG_EOX then
      ({ port with rxstate := MU_IDLE },
        { msg with header := USB_MIDI_HEADER port.cablenum USB_MIDI_CIN_SYSEND3 }, true)
    else
      ({ port with rxstate := MU_SYSEX1 },
        { msg with header := USB_MIDI_HEADER port.cablenum USB_MIDI_CIN_SYSEXSTART }, true)

/-- What a call of `MIDIUART_readMessage` leaves behind: the return value, the
port, the caller's message buffer and the bytes still in the UART receive
buffer. -/
structure readResult where
  done : Bool
  port : midiport_t
  msg : USBMIDI_Message_t
  rx : List Nat
deriving DecidableEq

/-- The loop `while (!done && MAP_UARTCharsAvail(port->uartbase))` of
`MIDIUART_readMessage` (`midi_uart.c`, lines 286-490), entered with the current
value of `done`.  `MAP_UARTCharGet` takes the first available byte; the
assignment to the `uint8_t newbyte` keeps its low eight bits. -/
def readMessage_loop (done : Bool) (port : midiport_t) (msg : USBMIDI_Message_t) :
    List Nat → readResult
  | [] => { done := done, port := port, msg := msg, rx := [] }
  | b :: rest =>
    if done then
      { done := done, port := port, msg := msg, rx := b :: rest }
    else
      let newbyte := b % 256
      let r := readMessage_body port msg newbyte
      readMessage_loop r.2.2 r.1 r.2.1 rest

/-- `MIDIUART_readMessage` (`midi_uart.c`, lines 274-494): `done` starts false,
the loop runs, `done` is returned.  `rx` is the content of the UART receive
buffer at the call. -/
def MIDIUART_readMessage (port : midiport_t) (msg : USBMIDI_Message_t) (rx : List Nat) :
    readResult :=
  readMessage_loop false port msg rx

/-! ## Polling harness and packet expansion -/

/-- What repeated polling leaves behind: the packets returned by the calls that
returned true, in order, then the port, the message buffer and the unread
bytes after the first call that returned false. -/
structure pollResult where
  packets : List USBMIDI_Message_t
  port : midiport_t
  msg : USBMIDI_Message_t
  rx : List Nat
deriving DecidableEq

/-- The caller of the claims: call `MIDIUART_readMessage` on the same port and
the same message buffer until it returns false, collecting the packet after
every call that returned true (as `MIDI_Rx_Task` does once per round of the
main loop, with its `static` buffer).  `fuel` bounds the number of calls. -/
def pollFuel : Nat → midiport_t → USBMIDI_Message_t → List Nat → Option pollResult
  | 0, _, _, _ => none
  | fuel + 1, port, msg, rx =>
    let r := MIDIUART_readMessage port msg rx
    if r.done then
      (pollFuel fuel r.port r.msg r.rx).map
        (fun q => { q with packets := r.msg :: q.packets })
    else
      some { packets := [], port := r.port, msg := r.msg, rx := r.rx }

/-- Polling until false with one call more than there are bytes, which always
suffices (`pollFuel_eq_rxTrace`). -/
def pollUntilFalse (port : midiport_t) (msg : USBMIDI_Message_t) (rx : List Nat) :
    Option pollResult :=
  pollFuel (rx.length + 1) port msg rx

/-- Chunked feeding: each chunk is appended to what is left in the receive
buffer, then the port is polled until false. -/
def feedChunks (port : midiport_t) (msg : USBMIDI_Message_t) (rx : List Nat) :
    List (List Nat) → Option pollResult
  | [] => some { packets := [], port := port, msg := msg, rx := rx }
  | c :: cs =>
    match pollUntilFalse port msg (rx ++ c) with
    | none => none
    | some q =>
      (feedChunks q.port q.msg q.rx cs).map
        (fun q2 => { q2 with packets := q.packets ++ q2.packets })

/-- The byte-by-byte run of the state machine over a whole stream: the packets
completed on the way (the buffer content at every byte whose iteration set
`done`), and the final port and buffer. -/
def rxTrace (port : midiport_t) (msg : USBMIDI_Message_t) : List Nat → pollResult
  | [] => { packets := [], port := port, msg := msg, rx := [] }
  | b :: rest =>
    let r := readMessage_body port msg (b % 256)
    let q := rxTrace r.1 r.2.1 rest
    if r.2.2 then { q with packets := r.2.1 :: q.packets } else q

/-- Port and message buffer after the loop body has run on every byte of a
list, whatever `done` was on the way. -/
def rxAfter (port : midiport_t) (msg : USBMIDI_Message_t) :
    List Nat → midiport_t × USBMIDI_Message_t
  | [] => (port, msg)
  | b :: rest =>
    let r := readMessage_body port msg (b % 256)
    rxAfter r.1 r.2.1 rest

/-- Whether byte `b`, arriving after the bytes `pre` have been processed from
`(port, msg)`, completes a packet (its iteration sets `done`). -/
def completesAt (port : midiport_t) (msg : USBMIDI_Message_t) (pre : List Nat) (b : Nat) : Bool :=
  (readMessage_body (rxAfter port msg pre).1 (rxAfter port msg pre).2 (b % 256)).2.2

/-- The code index number of a packet: the low four bits of its header
(spec §6). -/
def cinOf (m : USBMIDI_Message_t) : Nat := m.header % 16

/-- Following the spec's words: number of MIDI bytes a USB-MIDI 1.0 event
packet carries, by code index number.  The reserved numbers 0x0 and 0x1 carry
none here. -/
def cinLength (cin : Nat) : Nat :=
  if cin = 0x2 then 2
  else if cin = 0x3 then 3
  else if cin = 0x4 then 3
  else if cin = 0x5 then 1
  else if cin = 0x6 then 2
  else if cin = 0x7 then 3
  else if cin = 0x8 ∨ cin = 0x9 ∨ cin = 0xA ∨ cin = 0xB then 3
  else if cin = 0xC ∨ cin = 0xD then 2
  else if cin = 0xE then 3
  else if cin = 0xF then 1
  else 0

/-- Following the spec's words: a packet expanded to its 1, 2 or 3 MIDI
bytes. -/
def packetBytes (m : USBMIDI_Message_t) : List Nat :=
  [m.byte1, m.byte2, m.byte3].take (cinLength (cinOf m))

/-- Following the spec's words: the serial byte stream a list of packets stands
for. -/
def expandPackets (ps : List USBMIDI_Message_t) : List Nat :=
  (ps.map packetBytes).flatten

/-! ## Transmit byte ring -/

/-- The hardware the transmit path touches: the bytes written to the UART
transmit register (oldest first), the UART transmit interrupt flag, the enable
bit of the UART interrupt line at the interrupt controller, the global
interrupt mask, and whether a software trigger has been issued. -/
structure txhw_t where
  txdata : List Nat
  txint : Bool
  uartIntEnabled : Bool
  masterDisabled : Bool
  swtrig : Bool
deriving DecidableEq

/-- State of a running `MIDIUART_writeMessage`: port, hardware, the bytes from
the `msg` pointer onwards, and the remaining count `msize`. -/
structure writeState where
  port : midiport_t
  hw : txhw_t
  msg : List Nat
  msize : Nat
deriving DecidableEq

/-- One iteration of the `while (msize > 0)` loop of `MIDIUART_writeMessage`
(`midi_uart.c`, lines 137-169).  `MAP_IntMasterDisable` returns whether
interrupts were already disabled. -/
def writeMessage_iter (s : writeState) : writeState :=
  let thishead := s.port.txfifohead
  let thistail := s.port.txfifotail
  if (thishead + 1) % MIDI_TX_FIFO_SIZE ≠ thistail then
    let port : midiport_t := { s.port with
      txmsgfifo := s.port.txmsgfifo.set s.port.txfifohead (s.msg.headD 0 % 256) }
    let msg := s.msg.tail
    let bIntStatus := s.hw.masterDisabled
    let hw : txhw_t := { s.hw with masterDisabled := true }
    let port : midiport_t := { port with txfifohead := (port.txfifohead + 1) % 256 }
    let port : midiport_t :=
      if MIDI_TX_FIFO_SIZE = port.txfifohead then { port with txfifohead := 0 } else port
    let msize := (s.msize + 255) % 256
    let hw : txhw_t := if !bIntStatus then { hw with masterDisabled := false } else hw
    let hw : txhw_t := if port.txidle ≠ 0 then { hw with swtrig := true } else hw
    { port := port, hw := hw, msg := msg, msize := msize }
  else
    s

/-- `MIDIUART_writeMessage` with no interrupt served while it runs
(`midi_uart.c`, lines 129-171): the loop `while (msize > 0)`, bounded by
`fuel` iterations; `none` when the caller is still spinning. -/
def MIDIUART_writeMessage_fuel : Nat → writeState → Option writeState
  | 0, s => if s.msize > 0 then none else some s
  | fuel + 1, s =>
    if s.msize > 0 then MIDIUART_writeMessage_fuel fuel (writeMessage_iter s) else some s

/-- `MIDIUART7_IntHandler` (`midi_uart7.c`, lines 57-99) on the port `mpuart7`
and the transmit hardware. -/
def MIDIUART7_IntHandler (port : midiport_t) (hw : txhw_t) : midiport_t × txhw_t :=
  let hw : txhw_t := { hw with txint := false }
  let hw : txhw_t := { hw with uartIntEnabled := false }
  let r : midiport_t × txhw_t :=
    if port.txfifohead = port.txfifotail then
      ({ port with txidle := 1 }, hw)
    else
      let bIntStatus := hw.masterDisabled
      let hw : txhw_t := { hw with masterDisabled := true }
      let port : midiport_t := { port with txidle := 0 }
      let hw : txhw_t :=
        { hw with txdata := hw.txdata ++ [port.txmsgfifo.getD port.txfifotail 0] }
      let port : midiport_t := { port with txfifotail := (port.txfifotail + 1) % 256 }
      let port : midiport_t :=
        if MIDI_TX_FIFO_SIZE = port.txfifotail then { port with txfifotail := 0 } else port
      let hw : txhw_t := if !bIntStatus then { hw with masterDisabled := false } else hw
      (port, hw)
  (r.1, { r.2 with uartIntEnabled := true })

/-! ## Definitions used to state the properties -/

/-- Following the spec's words: the MIDI status table, code index number and
number of data bytes of a status byte other than 0xF0.  High nibble 0x8, 0x9,
0xA, 0xB, 0xE: their code index number with 2 data bytes; 0xC, 0xD: theirs with
1; 0xF1 and 0xF3: SYSCOM2 with 1; 0xF2: SYSCOM3 with 2; 0xF4, 0xF5, 0xF6:
SYSEND1 with 0; every other byte: SINGLEBYTE with 0. -/
def statusTable (b : Nat) : Nat × Nat :=
  if b / 16 = 0x8 then (USB_MIDI_CIN_NOTEOFF, 2)
  else if b / 16 = 0x9 then (USB_MIDI_CIN_NOTEON, 2)
  else if b / 16 = 0xA then (USB_MIDI_CIN_POLYKEYPRESS, 2)
  else if b / 16 = 0xB then (USB_MIDI_CIN_CTRLCHANGE, 2)
  else if b / 16 = 0xE then (USB_MIDI_CIN_PITCHBEND, 2)
  else if b / 16 = 0xC then (USB_MIDI_CIN_PROGCHANGE, 1)
  else if b / 16 = 0xD then (USB_MIDI_CIN_CHANPRESSURE, 1)
  else if b = 0xF1 ∨ b = 0xF3 then (USB_MIDI_CIN_SYSCOM2, 1)
  else if b = 0xF2 then (USB_MIDI_CIN_SYSCOM3, 2)
  else if b = 0xF4 ∨ b = 0xF5 ∨ b = 0xF6 then (USB_MIDI_CIN_SYSEND1, 0)
  else (USB_MIDI_CIN_SINGLEBYTE, 0)

/-- Following the spec's words: a complete MIDI message with an explicit status
byte that fits one packet: a status byte other than 0xF0 followed by the 0, 1
or 2 data bytes (below 0x80) of the status table, or the SysEx message
F0 d F7 with one data byte. -/
def isShortMessage (m : List Nat) : Bool :=
  match m with
  | [s] => decide (0x80 ≤ s ∧ s < 256 ∧ s ≠ 0xF0 ∧ (statusTable s).2 = 0)
  | [s, d1] =>
    decide (0x80 ≤ s ∧ s < 256 ∧ s ≠ 0xF0 ∧ (statusTable s).2 = 1 ∧ d1 < 0x80)
  | [s, d1, d2] =>
    decide ((s = 0xF0 ∧ d1 < 0x80 ∧ d2 = 0xF7) ∨
      (0x80 ≤ s ∧ s < 256 ∧ s ≠ 0xF0 ∧ (statusTable s).2 = 2 ∧ d1 < 0x80 ∧ d2 < 0x80))
  | _ => false

/-- The transmit side after `k` bytes of `msg0` have been queued from the state
left by `MIDIUART_Init` with no interrupt served: head at `k`, tail at 0, the
first `k` slots of the ring hold the bytes, nothing has been transmitted. -/
def ringInv (msg0 : List Nat) (msize0 : Nat) (hw0 : txhw_t) (k : Nat) (s : writeState) : Prop :=
  s.port.txfifohead = k ∧ s.port.txfifotail = 0 ∧ s.port.txidle = 1 ∧
  s.msize = msize0 - k ∧ s.msg = msg0.drop k ∧ s.port.txmsgfifo.length = 64 ∧
  (∀ i, i < k → s.port.txmsgfifo[i]? = some (msg0.getD i 0 % 256)) ∧
  s.hw.txdata = hw0.txdata ∧ s.hw.masterDisabled = hw0.masterDisabled

/-! ## Rings: queued elements between the read and the write index -/

/-- Number of elements queued in a ring of `n` slots with write index `head`
and read index `tail`. -/
def ringCount (n head tail : Nat) : Nat := (head + n - tail) % n

/-- The `count` elements of a ring read from index `t` on, wrapping at the end
of the buffer. -/
def ringFrom {α : Type} (d : α) (buf : List α) : Nat → Nat → List α
  | _, 0 => []
  | t, c + 1 => buf.getD t d :: ringFrom d buf ((t + 1) % buf.length) c

/-- The elements queued in a ring, oldest first: from `tail` up to `head`. -/
def ringContents {α : Type} (d : α) (buf : List α) (head tail : Nat) : List α :=
  ringFrom d buf tail (ringCount buf.length head tail)

/-- The bytes queued in the transmit ring of a port, oldest first: from
`txfifotail` up to `txfifohead`. -/
def txRing (port : midiport_t) : List Nat :=
  ringContents 0 port.txmsgfifo port.txfifohead port.txfifotail

/-! ## Interleavings of the producer and the interrupt handler -/

/-- The two kinds of step of the transmit side: one iteration of the loop of
`MIDIUART_writeMessage` offering the byte `b`, and one run of
`MIDIUART7_IntHandler`. -/
inductive txEvent where
  | enqueue (b : Nat)
  | isr

/-- One step of the transmit side on the port and the hardware.  The enqueue
step is `writeMessage_iter` with `b` as the next message byte. -/
def txStep (s : midiport_t × txhw_t) : txEvent → midiport_t × txhw_t
  | txEvent.enqueue b =>
    let r := writeMessage_iter { port := s.1, hw := s.2, msg := [b], msize := 1 }
    (r.port, r.hw)
  | txEvent.isr => MIDIUART7_IntHandler s.1 s.2

/-- A sequence of steps, in order. -/
def txRun (s : midiport_t × txhw_t) (evs : List txEvent) : midiport_t × txhw_t :=
  evs.foldl txStep s

/-- The bytes enqueued along a sequence of steps: the byte of every enqueue
step whose iteration consumed it (the remaining count dropped from 1 to 0),
as stored in the `uint8_t` ring. -/
def txEnqueued : midiport_t × txhw_t → List txEvent → List Nat
  | _, [] => []
  | s, txEvent.enqueue b :: evs =>
    (if (writeMessage_iter { port := s.1, hw := s.2, msg := [b], msize := 1 }).msize = 0
      then [b % 256] else []) ++ txEnqueued (txStep s (txEvent.enqueue b)) evs
  | s, txEvent.isr :: evs => txEnqueued (txStep s txEvent.isr) evs

/-- `n` runs of `MIDIUART7_IntHandler`, one after the other. -/
def MIDIUART7_IntHandler_runs : Nat → midiport_t × txhw_t → midiport_t × txhw_t
  | 0, s => s
  | n + 1, s => MIDIUART7_IntHandler_runs n (MIDIUART7_IntHandler s.1 s.2)

/-! ## USB-MIDI bridge (`usb_midi/usb_midi.c`) -/

/-- Modelled from the spec: `em_usb.h` is not among the sources; maximum packet
size of the full-speed bulk endpoints, 64 bytes, a multiple of the packet size
4 as spec §6 requires.  `OutEpBuf` and `InEpBuf` have
`USB_FS_BULK_EP_MAXSIZE / sizeof(USBMIDI_Message_t)` elements
(`usb_midi.c`, lines 21 and 29). -/
def USB_FS_BULK_EP_MAXSIZE : Nat := 64

/-- Modelled from the spec: `em_usb.h` is not among the sources; the status
code the transport reports on success (spec §7). -/
def USB_STATUS_OK : Int := 0

/-- Modelled from the spec: `usb_midi_fifo.h` is not among the sources; the
packet ring of spec §3, "same circular-buffer discipline as ByteRing but
element type is MidiPacket": a buffer with a write index `head` and a read
index `tail`.  Its capacity is the length of `fifo`. -/
structure USBMIDIFIFO_t where
  fifo : List USBMIDI_Message_t
  head : Nat
  tail : Nat
deriving DecidableEq

/-- Modelled from the spec: `usb_midi_fifo.c` is not among the sources; an
initialised ring is empty, head and tail at 0. -/
def USBMIDIFIFO_Init (f : USBMIDIFIFO_t) : USBMIDIFIFO_t :=
  { f with head := 0, tail := 0 }

/-- Modelled from the spec: `usb_midi_fifo.c` is not among the sources; the
packet is written at `head` and `head` advances, wrapping at the capacity.
Spec §4.3: "the original does not guard" the full ring, so there is no test
for room here. -/
def USBMIDIFIFO_Push (f : USBMIDIFIFO_t) (msg : USBMIDI_Message_t) : USBMIDIFIFO_t :=
  { f with fifo := f.fifo.set f.head msg, head := (f.head + 1) % f.fifo.length }

/-- Modelled from the spec: `usb_midi_fifo.c` is not among the sources; on an
empty ring (`head == tail`) nothing is returned, otherwise the packet at `tail`
is returned and `tail` advances, wrapping at the capacity. -/
def USBMIDIFIFO_Pop (f : USBMIDIFIFO_t) : Option (USBMIDIFIFO_t × USBMIDI_Message_t) :=
  if f.head = f.tail then none
  else some ({ f with tail := (f.tail + 1) % f.fifo.length }, f.fifo.getD f.tail ⟨0, 0, 0, 0⟩)

/-- The packets queued in a packet ring, oldest first. -/
def fifoContents (f : USBMIDIFIFO_t) : List USBMIDI_Message_t :=
  ringContents ⟨0, 0, 0, 0⟩ f.fifo f.head f.tail

/-- Both indices of a packet ring are inside its buffer. -/
def fifoWf (f : USBMIDIFIFO_t) : Prop := f.head < f.fifo.length ∧ f.tail < f.fifo.length

/-- The completion callbacks handed to the USB device stack. -/
inductive usbCallback where
  | TxXferCompleteCb
  | RxXferCompleteCb
deriving DecidableEq

/-- One call of `USBD_Write` on the IN endpoint: the buffer handed over (the
array `InEpBuf` as it is at the call), the length in bytes and the completion
callback. -/
structure usbXfer where
  buffer : List USBMIDI_Message_t
  len : Nat
  callback : usbCallback
deriving DecidableEq

/-- Modelled from the spec: the USB device stack (`em_usb.h`) is not among the
sources; what the bridge observes of it is whether a transfer is in flight on
the IN endpoint (`USBD_EpIsBusy(MS_EP_DATA_IN)`, spec §4.3) and the calls of
`USBD_Write` made so far, oldest first. -/
structure usbd_t where
  inBusy : Bool
  writes : List usbXfer
deriving DecidableEq

/-- Modelled from the spec: `USBD_Write` of the device stack starts a transfer
of `len` bytes from `buffer` and registers the completion callback; the
endpoint is busy until the transfer completes. -/
def USBD_Write (u : usbd_t) (buffer : List USBMIDI_Message_t) (len : Nat) (cb : usbCallback) :
    usbd_t :=
  { inBusy := true, writes := u.writes ++ [{ buffer := buffer, len := len, callback := cb }] }

/-- Modelled from the spec: the device stack marks the IN endpoint idle when a
transfer has completed, before it calls the completion callback. -/
def USBD_InXferDone (u : usbd_t) : usbd_t := { u with inBusy := false }

/-- The file-level state of `usb_midi.c` (lines 21-39): the two endpoint
buffers, the two packet rings, and the device stack. -/
structure usbmidi_t where
  OutEpBuf : List USBMIDI_Message_t
  InEpBuf : List USBMIDI_Message_t
  rxmsgfifo : USBMIDIFIFO_t
  txmsgfifo : USBMIDIFIFO_t
  usbd : usbd_t
deriving DecidableEq

/-- `USBMIDI_Init` (`usb_midi.c`, lines 45-49). -/
def USBMIDI_Init (st : usbmidi_t) : usbmidi_t :=
  { st with rxmsgfifo := USBMIDIFIFO_Init st.rxmsgfifo, txmsgfifo := USBMIDIFIFO_Init st.txmsgfifo }

/-- `USBMIDI_RxFifoPop` (`usb_midi.c`, lines 56-59): the return value, the
state and the caller's `msg`, which is written only when a packet was
popped. -/
def USBMIDI_RxFifoPop (st : usbmidi_t) (msg : USBMIDI_Message_t) :
    Bool × usbmidi_t × USBMIDI_Message_t :=
  match USBMIDIFIFO_Pop st.rxmsgfifo with
  | none => (false, st, msg)
  | some r => (true, { st with rxmsgfifo := r.1 }, r.2)

/-- The loop `while (xferred) { mep = *epb++; Push; xferred -= sizeof(mep); }`
of `USBMIDI_RxXferCompleteCb` (`usb_midi.c`, lines 75-80), bounded by `fuel`
iterations.  `epb` is the index into `OutEpBuf`; the subtraction is that of a
`uint32_t`; a read past the end of the array is outside the model and yields
the zero packet. -/
def RxXfer_loop : Nat → USBMIDIFIFO_t → List USBMIDI_Message_t → Nat → Nat → Option USBMIDIFIFO_t
  | fuel, f, buf, epb, xferred =>
    if xferred = 0 then some f
    else
      match fuel with
      | 0 => none
      | fuel + 1 =>
        let mep := buf.getD epb ⟨0, 0, 0, 0⟩
        RxXfer_loop fuel (USBMIDIFIFO_Push f mep) buf (epb + 1)
          ((xferred + 2 ^ 32 - 4) % 2 ^ 32)

/-- `USBMIDI_RxXferCompleteCb` (`usb_midi.c`, lines 67-84): the state after the
call and the return value; `none` when the loop has not ended within `fuel`
iterations. -/
def USBMIDI_RxXferCompleteCb (fuel : Nat) (st : usbmidi_t) (status : Int)
    (xferred _remaining : Nat) : Option (usbmidi_t × Int) :=
  if status = USB_STATUS_OK then
    match RxXfer_loop fuel st.rxmsgfifo st.OutEpBuf 0 (xferred % 2 ^ 32) with
    | none => none
    | some f => some ({ st with rxmsgfifo := f }, USB_STATUS_OK)
  else
    some (st, USB_STATUS_OK)

/-- What the copy loop of `USBMIDI_TxXferCompleteCb` leaves behind: the ring,
the array `InEpBuf`, the index `epb` reached (the number of stores made) and
`bytecnt`. -/
structure txLoopResult where
  fifo : USBMIDIFIFO_t
  InEpBuf : List USBMIDI_Message_t
  epb : Nat
  bytecnt : Nat
deriving DecidableEq

/-- How the copy loop of `USBMIDI_TxXferCompleteCb` ends: it is `done`; or the
store `*epb++ = mep` is reached with `epb` past the end of the array `InEpBuf`
(`overrun`, with the index and the packet of that store), a write into
whatever object lies behind the array, after which the behaviour of the C
program is undefined; or it is still `running` after the iterations
allowed. -/
inductive txLoopOutcome where
  | done (r : txLoopResult)
  | overrun (epb : Nat) (mep : USBMIDI_Message_t)
  | running
deriving DecidableEq

/-- The loop `while (USBMIDIFIFO_Pop(&txmsgfifo, &mep)) { *epb++ = mep;
bytecnt += sizeof(mep); }` of `USBMIDI_TxXferCompleteCb` (`usb_midi.c`, lines
105-109), bounded by `fuel` calls of `USBMIDIFIFO_Pop`.  The loop tests no
bound on `epb`: a store inside the array updates it, a store at an index past
its end ends the run with `overrun`. -/
def TxXfer_loop : Nat → USBMIDIFIFO_t → List USBMIDI_Message_t → Nat → Nat → txLoopOutcome
  | 0, _, _, _, _ => txLoopOutcome.running
  | fuel + 1, f, buf, epb, bytecnt =>
    match USBMIDIFIFO_Pop f with
    | none => txLoopOutcome.done { fifo := f, InEpBuf := buf, epb := epb, bytecnt := bytecnt }
    | some r =>
      if epb < buf.length then
        TxXfer_loop fuel r.1 (buf.set epb r.2) (epb + 1) ((bytecnt + 4) % 2 ^ 32)
      else
        txLoopOutcome.overrun epb r.2

/-- `USBMIDI_TxXferCompleteCb` (`usb_midi.c`, lines 94-118): the state after
the call and the return value.  The result is `none` when the call has no
defined result: the loop has stored past the end of `InEpBuf`, or it has not
ended within `fuel` calls of `USBMIDIFIFO_Pop`. -/
def USBMIDI_TxXferCompleteCb (fuel : Nat) (st : usbmidi_t) (status : Int)
    (_xferred _remaining : Nat) : Option (usbmidi_t × Int) :=
  if status = USB_STATUS_OK then
    match TxXfer_loop fuel st.txmsgfifo st.InEpBuf 0 0 with
    | txLoopOutcome.done r =>
      let st : usbmidi_t := { st with txmsgfifo := r.fifo, InEpBuf := r.InEpBuf }
      let st : usbmidi_t :=
        if r.bytecnt ≠ 0 then
          { st with usbd := USBD_Write st.usbd st.InEpBuf r.bytecnt usbCallback.TxXferCompleteCb }
        else st
      some (st, USB_STATUS_OK)
    | txLoopOutcome.overrun _ _ => none
    | txLoopOutcome.running => none
  else
    some (st, USB_STATUS_OK)

/-- `USBMIDI_Write` (`usb_midi.c`, lines 137-143); `none` as for
`USBMIDI_TxXferCompleteCb`. -/
def USBMIDI_Write (fuel : Nat) (st : usbmidi_t) (msg : USBMIDI_Message_t) : Option usbmidi_t :=
  let st : usbmidi_t := { st with txmsgfifo := USBMIDIFIFO_Push st.txmsgfifo msg }
  if !st.usbd.inBusy then
    (USBMIDI_TxXferCompleteCb fuel st USB_STATUS_OK 0 0).map (fun r => r.1)
  else
    some st

/-- A buffer after the packets of a list have been stored at consecutive
indices from `i` on. -/
def storeList (buf : List USBMIDI_Message_t) : Nat → List USBMIDI_Message_t → List USBMIDI_Message_t
  | _, [] => buf
  | i, m :: ms => storeList (buf.set i m) (i + 1) ms

/-! ## Sequences of bridge calls -/

/-- The calls that drive the bridge: `USBMIDI_Write(p)`; the completion of the
IN transfer in flight, on which the stack calls `USBMIDI_TxXferCompleteCb`
with `USB_STATUS_OK`; the completion of an OUT transfer that has put `buf` in
`OutEpBuf` and carried `4 * k` bytes, on which the stack calls
`USBMIDI_RxXferCompleteCb` with `USB_STATUS_OK`; and `USBMIDI_RxFifoPop`. -/
inductive usbEvent where
  | write (p : USBMIDI_Message_t)
  | txComplete
  | rxComplete (buf : List USBMIDI_Message_t) (k : Nat)
  | rxPop

/-- One call: the state after it and the packet `USBMIDI_RxFifoPop` returned,
if any.  The loops get as many iterations as they can need. -/
def usbStep (st : usbmidi_t) : usbEvent → Option (usbmidi_t × List USBMIDI_Message_t)
  | usbEvent.write p =>
    (USBMIDI_Write (st.txmsgfifo.fifo.length + 1) st p).map (fun s => (s, []))
  | usbEvent.txComplete =>
    (USBMIDI_TxXferCompleteCb (st.txmsgfifo.fifo.length + 1)
      { st with usbd := USBD_InXferDone st.usbd } USB_STATUS_OK 0 0).map (fun r => (r.1, []))
  | usbEvent.rxComplete buf k =>
    (USBMIDI_RxXferCompleteCb k { st with OutEpBuf := buf } USB_STATUS_OK (4 * k) 0).map
      (fun r => (r.1, []))
  | usbEvent.rxPop =>
    let r := USBMIDI_RxFifoPop st ⟨0, 0, 0, 0⟩
    some (r.2.1, if r.1 then [r.2.2] else [])

/-- A sequence of calls, in order: the final state and the packets returned by
the `USBMIDI_RxFifoPop` calls, in order. -/
def usbRun : usbmidi_t → List usbEvent → Option (usbmidi_t × List USBMIDI_Message_t)
  | st, [] => some (st, [])
  | st, ev :: evs =>
    match usbStep st ev with
    | none => none
    | some r => (usbRun r.1 evs).map (fun q => (q.1, r.2 ++ q.2))

/-- A call stays inside the rings and the endpoint buffers: a push finds room
in its ring, the packets a drain copies fit `InEpBuf`, and a received
transfer is not longer than `OutEpBuf`. -/
def usbEventOk (st : usbmidi_t) : usbEvent → Bool
  | usbEvent.write _ =>
    decide ((st.txmsgfifo.head + 1) % st.txmsgfifo.fifo.length ≠ st.txmsgfifo.tail ∧
      (st.usbd.inBusy = false → (fifoContents st.txmsgfifo).length + 1 ≤ st.InEpBuf.length))
  | usbEvent.txComplete => decide ((fifoContents st.txmsgfifo).length ≤ st.InEpBuf.length)
  | usbEvent.rxComplete buf k =>
    decide (buf.length = USB_FS_BULK_EP_MAXSIZE / 4 ∧ k ≤ USB_FS_BULK_EP_MAXSIZE / 4 ∧
      (fifoContents st.rxmsgfifo).length + k < st.rxmsgfifo.fifo.length)
  | usbEvent.rxPop => true

/-- Every call of a sequence stays inside the rings and the endpoint
buffers. -/
def usbRunOk : usbmidi_t → List usbEvent → Bool
  | _, [] => true
  | st, ev :: evs =>
    usbEventOk st ev &&
    match usbStep st ev with
    | none => false
    | some r => usbRunOk r.1 evs

/-- The packets written with `USBMIDI_Write` along a sequence of calls. -/
def writtenPackets : List usbEvent → List USBMIDI_Message_t
  | [] => []
  | usbEvent.write p :: evs => p :: writtenPackets evs
  | _ :: evs => writtenPackets evs

/-- The packets `USBMIDI_RxXferCompleteCb` was given along a sequence of
calls: the first `k` packets of each received buffer. -/
def pushedPackets : List usbEvent → List USBMIDI_Message_t
  | [] => []
  | usbEvent.rxComplete buf k :: evs => buf.take k ++ pushedPackets evs
  | _ :: evs => pushedPackets evs

/-- The packets handed to `USBD_Write` so far: of every call, the `len / 4`
packets at the start of its buffer. -/
def handedPackets (u : usbd_t) : List USBMIDI_Message_t :=
  (u.writes.map (fun x => x.buffer.take (x.len / 4))).flatten

/-- Both rings have their indices inside their buffers, and the transmit ring
fits a 32-bit address space. -/
def usbWf (st : usbmidi_t) : Prop :=
  fifoWf st.txmsgfifo ∧ fifoWf st.rxmsgfifo ∧ st.txmsgfifo.fifo.length < 2 ^ 30

/-! ## The receive loop with its two driver calls -/

/-- `MAP_UARTCharsAvail`: whether the receive buffer holds a byte. -/
def UARTCharsAvail (rx : List Nat) : Bool := !rx.isEmpty

/-- `MAP_UARTCharGet`, the blocking read: the first byte of the receive buffer
and the bytes behind it.  On an empty buffer the call waits for a byte, which
is `none` here. -/
def UARTCharGet : List Nat → Option (Nat × List Nat)
  | [] => none
  | b :: rest => some (b, rest)

/-- How a call of `MIDIUART_readMessage` ends: it returns, having run the
loop body `iterations` times; it is stuck in `MAP_UARTCharGet` on an empty
buffer; or it is still in the loop after the iterations allowed. -/
inductive readOutcome where
  | returned (r : readResult) (iterations : Nat)
  | blocked
  | running
deriving DecidableEq

/-- The loop of `MIDIUART_readMessage` (`midi_uart.c`, lines 286-490) with the
calls of `MAP_UARTCharsAvail` and `MAP_UARTCharGet` written out, bounded by
`fuel` iterations; `n` counts the iterations made so far. -/
def readMessage_counted : Nat → Bool → midiport_t → USBMIDI_Message_t → List Nat → Nat →
    readOutcome
  | fuel, done, port, msg, rx, n =>
    if !done && UARTCharsAvail rx then
      match fuel with
      | 0 => readOutcome.running
      | fuel + 1 =>
        match UARTCharGet rx with
        | none => readOutcome.blocked
        | some (b, rest) =>
          let newbyte := b % 256
          let r := readMessage_body port msg newbyte
          readMessage_counted fuel r.2.2 r.1 r.2.1 rest (n + 1)
    else
      readOutcome.returned { done := done, port := port, msg := msg, rx := rx } n

/-! ## Receive counters -/

/-- The receive counters are consistent: `bytesinpacket` is 0, 1 or 2, and
while the state machine waits for the first data byte `bytecnt` is 1 or 2 and
equals `bytesinpacket`. -/
def rxCountersInv (p : midiport_t) : Prop :=
  p.bytesinpacket ≤ 2 ∧
  (p.rxstate = MU_DATABYTE2 → (p.bytecnt = 1 ∨ p.bytecnt = 2) ∧ p.bytecnt = p.bytesinpacket)

/-! ## The kick-start hand-off, statement by statement -/

/-- The statements of `MIDIUART_writeMessage` (`midi_uart.c`, lines 135-170):
the statement the producer executes next. -/
inductive writePc where
  | loopTest
  | readHead
  | readTail
  | roomTest
  | storeByte
  | masterDisable
  | bumpHead
  | wrapHead
  | decMsize
  | masterEnable
  | idleTest
  | trigger
  | returned
deriving DecidableEq

/-- The transmit side with a producer inside `MIDIUART_writeMessage`: the port,
the hardware, the number of bytes handed to the UART whose transmission has
not ended, and the producer's program point and locals. -/
structure kickState where
  port : midiport_t
  hw : txhw_t
  inflight : Nat
  pc : writePc
  thishead : Nat
  thistail : Nat
  bIntStatus : Bool
  msg : List Nat
  msize : Nat
deriving DecidableEq

/-- One statement of `MIDIUART_writeMessage` (`midi_uart.c`): line 135
(`loopTest`), 137, 138, 141 (`roomTest`), 145, 148, 149, 150-153
(`wrapHead`), 155, 157-158, 161 (`idleTest`) and 165 (`trigger`). -/
def writeMessage_stmt (s : kickState) : kickState :=
  match s.pc with
  | writePc.loopTest =>
    if s.msize > 0 then { s with pc := writePc.readHead } else { s with pc := writePc.returned }
  | writePc.readHead => { s with thishead := s.port.txfifohead, pc := writePc.readTail }
  | writePc.readTail => { s with thistail := s.port.txfifotail, pc := writePc.roomTest }
  | writePc.roomTest =>
    if (s.thishead + 1) % MIDI_TX_FIFO_SIZE ≠ s.thistail then { s with pc := writePc.storeByte }
    else { s with pc := writePc.loopTest }
  | writePc.storeByte =>
    { s with
      port := { s.port with
                txmsgfifo := s.port.txmsgfifo.set s.port.txfifohead (s.msg.headD 0 % 256) }
      msg := s.msg.tail
      pc := writePc.masterDisable }
  | writePc.masterDisable =>
    { s with
      bIntStatus := s.hw.masterDisabled
      hw := { s.hw with masterDisabled := true }
      pc := writePc.bumpHead }
  | writePc.bumpHead =>
    { s with
      port := { s.port with txfifohead := (s.port.txfifohead + 1) % 256 }
      pc := writePc.wrapHead }
  | writePc.wrapHead =>
    { s with
      port := if MIDI_TX_FIFO_SIZE = s.port.txfifohead then { s.port with txfifohead := 0 }
              else s.port
      pc := writePc.decMsize }
  | writePc.decMsize => { s with msize := (s.msize + 255) % 256, pc := writePc.masterEnable }
  | writePc.masterEnable =>
    { s with
      hw := if !s.bIntStatus then { s.hw with masterDisabled := false } else s.hw
      pc := writePc.idleTest }
  | writePc.idleTest =>
    if s.port.txidle ≠ 0 then { s with pc := writePc.trigger }
    else { s with pc := writePc.loopTest }
  | writePc.trigger => { s with hw := { s.hw with swtrig := true }, pc := writePc.loopTest }
  | writePc.returned => s

/-- An interrupt of the UART vector is pending: the software trigger or the
transmit interrupt flag. -/
def interruptPending (hw : txhw_t) : Bool := hw.swtrig || hw.txint

/-- The handler can be entered: an interrupt is pending, interrupts are not
masked and the UART interrupt line is enabled. -/
def handlerCanRun (hw : txhw_t) : Bool :=
  interruptPending hw && !hw.masterDisabled && hw.uartIntEnabled

/-- The steps of the hand-off: the producer executes its next statement; the
interrupt handler runs as a whole; the UART ends the transmission of a byte
(`early` lets the transmit flag rise although another byte is still in
flight); `MIDIUART_writeMessage` is called again. -/
inductive kickEvent where
  | producer
  | isr
  | txDone (early : Bool)
  | call (msg : List Nat) (msize : Nat)

/-- One step.  The handler runs only when it can be entered; entering it
consumes the software trigger, and a byte it writes to the transmit register
is in flight.  The transmit flag rises when the last byte in flight has been
sent (`UART_TXINT_MODE_EOT`).  A step that is not possible leaves the state
as it is. -/
def kickStep (s : kickState) : kickEvent → kickState
  | kickEvent.producer => writeMessage_stmt s
  | kickEvent.isr =>
    if handlerCanRun s.hw then
      let r := MIDIUART7_IntHandler s.port { s.hw with swtrig := false }
      { s with port := r.1, hw := r.2,
               inflight := s.inflight + (r.2.txdata.length - s.hw.txdata.length) }
    else s
  | kickEvent.txDone early =>
    if 0 < s.inflight then
      { s with inflight := s.inflight - 1,
               hw := if s.inflight = 1 ∨ early = true then { s.hw with txint := true }
                     else s.hw }
    else s
  | kickEvent.call msg msize =>
    if s.pc = writePc.returned then
      { s with pc := writePc.loopTest, msg := msg, msize := msize % 256 }
    else s

/-- A sequence of steps, in order. -/
def kickRun (s : kickState) (evs : List kickEvent) : kickState := evs.foldl kickStep s

/-- The state left by `MIDIUART_Init` with a call
`MIDIUART_writeMessage(port, msg, msize)` about to start and nothing in
flight. -/
def kickInit (port0 : midiport_t) (uartbase intnum cablenum : Nat) (hw : txhw_t)
    (msg : List Nat) (msize : Nat) : kickState :=
  { port := MIDIUART_Init port0 uartbase intnum cablenum, hw := hw, inflight := 0,
    pc := writePc.loopTest, thishead := 0, thistail := 0, bIntStatus := false,
    msg := msg, msize := msize % 256 }

/-- The producer has finished the kick-start check of every byte it has put
in the ring: it is not between the increment of `txfifohead` (line 149) and
the end of the `if (port->txidle)` statement (lines 161-167). -/
def kickChecked (pc : writePc) : Bool :=
  match pc with
  | writePc.wrapHead => false
  | writePc.decMsize => false
  | writePc.masterEnable => false
  | writePc.idleTest => false
  | writePc.trigger => false
  | _ => true

/-- A wake-up has been lost: the ring holds a byte, the transmitter is marked
idle and no interrupt is pending. -/
def wakeupLost (s : kickState) : Prop :=
  s.port.txfifohead ≠ s.port.txfifotail ∧ s.port.txidle ≠ 0 ∧ interruptPending s.hw = false

/-- The invariant of the hand-off: a lost wake-up can only be seen while the
producer is between the increment of `txfifohead` and the end of its
kick-start check, and then the ring holds only the byte just queued; a
transmitter marked busy has a byte in flight or its transmit flag raised; and
the indices are inside the buffer, `txfifohead` being 64 only between the
increment and the wrap. -/
def kickInv (s : kickState) : Prop :=
  (wakeupLost s → kickChecked s.pc = false ∧
    (s.port.txfifohead = s.port.txfifotail + 1 ∨
      (s.port.txfifohead = 0 ∧ s.port.txfifotail = 63))) ∧
  (s.port.txidle = 0 → 0 < s.inflight ∨ s.hw.txint = true) ∧
  s.port.txfifotail < 64 ∧
  (s.port.txfifohead < 64 ∨ (s.pc = writePc.wrapHead ∧ s.port.txfifohead = 64))

/-! ## Counter of the USB receive copy loop -/

/-- The update `xferred -= sizeof(mep)` of the `uint32_t` counter of the loop
of `USBMIDI_RxXferCompleteCb` (`usb_midi.c`, line 79). -/
def rxCounterStep (x : Nat) : Nat := (x + 2 ^ 32 - 4) % 2 ^ 32

/-! ## Button handling of the main loop (`main.c`) -/

/-- An idle transmitter: nothing written yet, no interrupt flag, the UART
interrupt line enabled, interrupts not masked, no software trigger. -/
def exampleHw : txhw_t :=
  { txdata := [], txint := false, uartIntEnabled := true, masterDisabled := false,
    swtrig := false }

/-- A note-on packet on cable 1 for note `n`. -/
def examplePacket (n : Nat) : USBMIDI_Message_t :=
  { header := 0x19, byte1 := 0x90, byte2 := n, byte3 := 0x40 }

/-- A bridge state with rings of 8 slots, two packets queued for transmission,
16-packet endpoint buffers and an idle IN endpoint. -/
def exampleUsb : usbmidi_t :=
  { OutEpBuf := List.replicate 16 (examplePacket 9),
    InEpBuf := List.replicate 16 ⟨0, 0, 0, 0⟩,
    rxmsgfifo := { fifo := List.replicate 8 ⟨0, 0, 0, 0⟩, head := 5, tail := 5 },
    txmsgfifo := { fifo := List.replicate 8 (examplePacket 7), head := 3, tail := 1 },
    usbd := { inBusy := false, writes := [] } }

/-- The same bridge state with nothing queued and a transfer in flight on the
IN endpoint. -/
def exampleUsbBusy : usbmidi_t :=
  { exampleUsb with
    txmsgfifo := { fifo := List.replicate 8 ⟨0, 0, 0, 0⟩, head := 2, tail := 2 },
    usbd := { inBusy := true, writes := [] } }

/-- A bridge state with rings of 32 slots, twice the 16 packets of an endpoint
buffer, nothing written yet and an idle IN endpoint. -/
def exampleUsbWide : usbmidi_t :=
  { OutEpBuf := List.replicate (USB_FS_BULK_EP_MAXSIZE / 4) ⟨0, 0, 0, 0⟩,
    InEpBuf := List.replicate (USB_FS_BULK_EP_MAXSIZE / 4) ⟨0, 0, 0, 0⟩,
    rxmsgfifo := { fifo := List.replicate 32 ⟨0, 0, 0, 0⟩, head := 0, tail := 0 },
    txmsgfifo := { fifo := List.replicate 32 ⟨0, 0, 0, 0⟩, head := 0, tail := 0 },
    usbd := { inBusy := false, writes := [] } }

/-- The packets `examplePacket 0` to `examplePacket (k - 1)`. -/
def exampleBurst (k : Nat) : List USBMIDI_Message_t := (List.range k).map examplePacket

/-- The bridge after `USBMIDI_Init` on rings of 32 slots and one
`USBMIDI_Write` of `examplePacket 100`: the packet is in `InEpBuf`, handed to
`USBD_Write`, and the transfer is in flight. -/
def exampleUsbInFlight : usbmidi_t :=
  { exampleUsbWide with
    InEpBuf := (List.replicate (USB_FS_BULK_EP_MAXSIZE / 4) ⟨0, 0, 0, 0⟩).set 0 (examplePacket 100),
    txmsgfifo := { fifo := (List.replicate 32 ⟨0, 0, 0, 0⟩).set 0 (examplePacket 100),
                   head := 1, tail := 1 },
    usbd := { inBusy := true,
              writes := [{ buffer := (List.replicate (USB_FS_BULK_EP_MAXSIZE / 4)
                                       ⟨0, 0, 0, 0⟩).set 0 (examplePacket 100),
                           len := 4, callback := usbCallback.TxXferCompleteCb }] } }

/-- The bridge when that transfer completes after 17 more packets have been
written: they are queued in the transmit ring of 32 slots, and the device
stack is about to call `USBMIDI_TxXferCompleteCb`. -/
def exampleUsbSeventeen : usbmidi_t :=
  { exampleUsbInFlight with
    txmsgfifo := (exampleBurst 17).foldl USBMIDIFIFO_Push exampleUsbInFlight.txmsgfifo,
    usbd := USBD_InXferDone exampleUsbInFlight.usbd }

/-- A transmit ring of 32 slots holding 16 packets, with the IN endpoint
idle. -/
def exampleUsbSixteen : usbmidi_t :=
  { exampleUsbWide with
    txmsgfifo := { fifo := (List.range 32).map examplePacket, head := 16, tail := 0 } }

/-- A transmit ring of 8 slots that is full: it holds the 7 packets
`examplePacket 0` to `examplePacket 6`, with a transfer in flight on the IN
endpoint. -/
def exampleUsbFull : usbmidi_t :=
  { exampleUsb with
    txmsgfifo := { fifo := (List.range 8).map examplePacket, head := 7, tail := 0 },
    usbd := { inBusy := true, writes := [] } }

/-- A call `MIDIUART_writeMessage(&mpuart7, msg, 3)` with the note-on 90 3C 40
about to start on the freshly initialised port. -/
def exampleWrite : writeState :=
  { port := MIDIUART_Init mpuart7_static 0x40013000 76 1, hw := exampleHw,
    msg := [0x90, 0x3C, 0x40], msize := 3 }

/-- The producer runs the twelve statements of its first iteration, trigger
included, and the handler then runs once. -/
def exampleKickEvents : List kickEvent :=
  List.replicate 12 kickEvent.producer ++ [kickEvent.isr]

/-! ## Basic facts about the receive loop -/

theorem header_mod16_aux : ∀ a : Fin 16, ∀ c : Fin 16,
    (((a.val <<< 4) ||| c.val) % 256) % 16 = c.val := by decide

theorem cinOf_header (cn cin : Nat) (h : cin < 16) (b1 b2 b3 : Nat) :
    cinOf { header := USB_MIDI_HEADER cn cin, byte1 := b1, byte2 := b2, byte3 := b3 } = cin := by
  have := header_mod16_aux ⟨cn % 16, Nat.mod_lt _ (by decide)⟩ ⟨cin, h⟩
  simpa [cinOf, USB_MIDI_HEADER, Nat.mod_eq_of_lt h] using this

theorem readMessage_loop_true (port : midiport_t) (msg : USBMIDI_Message_t) (rx : List Nat) :
    readMessage_loop true port msg rx = { done := true, port := port, msg := msg, rx := rx } := by
  cases rx <;> simp [readMessage_loop]

theorem readMessage_nil (port : midiport_t) (msg : USBMIDI_Message_t) :
    MIDIUART_readMessage port msg [] = { done := false, port := port, msg := msg, rx := [] } := by
  simp [MIDIUART_readMessage, readMessage_loop]

theorem readMessage_cons (port : midiport_t) (msg : USBMIDI_Message_t) (b : Nat) (rest : List Nat) :
    MIDIUART_readMessage port msg (b :: rest) =
      if (readMessage_body port msg (b % 256)).2.2 then
        { done := true, port := (readMessage_body port msg (b % 256)).1,
          msg := (readMessage_body port msg (b % 256)).2.1, rx := rest }
      else
        MIDIUART_readMessage (readMessage_body port msg (b % 256)).1
          (readMessage_body port msg (b % 256)).2.1 rest := by
  unfold MIDIUART_readMessage
  rw [readMessage_loop]
  simp only [Bool.false_eq_true, if_false]
  cases h : (readMessage_body port msg (b % 256)).2.2
  · simp
  · simp [readMessage_loop_true]

theorem rxTrace_rx (rx : List Nat) : ∀ (port : midiport_t) (msg : USBMIDI_Message_t),
    (rxTrace port msg rx).rx = [] := by
  induction rx with
  | nil => intro port msg; rfl
  | cons b rest ih =>
    intro port msg
    simp only [rxTrace]
    split <;> simp [ih]

theorem pollFuel_eq_rxTrace (rx : List Nat) : ∀ (fuel : Nat) (port : midiport_t)
    (msg : USBMIDI_Message_t), rx.length < fuel →
    pollFuel fuel port msg rx = some (rxTrace port msg rx) := by
  induction rx with
  | nil =>
    intro fuel port msg h
    obtain ⟨n, rfl⟩ : ∃ n, fuel = n + 1 := ⟨fuel - 1, by simp at h; omega⟩
    simp [pollFuel, readMessage_nil, rxTrace]
  | cons b rest ih =>
    intro fuel port msg h
    obtain ⟨n, rfl⟩ : ∃ n, fuel = n + 1 := ⟨fuel - 1, by omega⟩
    have hn : rest.length < n := by simpa using h
    cases hd : (readMessage_body port msg (b % 256)).2.2
    · have h1 : MIDIUART_readMessage port msg (b :: rest) =
          MIDIUART_readMessage (readMessage_body port msg (b % 256)).1
            (readMessage_body port msg (b % 256)).2.1 rest := by
        rw [readMessage_cons]; simp [hd]
      have h2 := ih (n + 1) (readMessage_body port msg (b % 256)).1
        (readMessage_body port msg (b % 256)).2.1 (by omega)
      rw [pollFuel] at h2 ⊢
      rw [h1, h2]
      simp [rxTrace, hd]
    · rw [pollFuel, readMessage_cons]
      simp only [hd, if_true]
      rw [ih n _ _ hn]
      simp [rxTrace, hd]

theorem pollUntilFalse_eq (port : midiport_t) (msg : USBMIDI_Message_t) (rx : List Nat) :
    pollUntilFalse port msg rx = some (rxTrace port msg rx) :=
  pollFuel_eq_rxTrace rx _ port msg (Nat.lt_succ_self _)

theorem rxTrace_append (a : List Nat) : ∀ (port : midiport_t) (msg : USBMIDI_Message_t)
    (b : List Nat),
    rxTrace port msg (a ++ b) =
      { rxTrace (rxTrace port msg a).port (rxTrace port msg a).msg b with
        packets := (rxTrace port msg a).packets ++
          (rxTrace (rxTrace port msg a).port (rxTrace port msg a).msg b).packets } := by
  induction a with
  | nil => intro port msg b; simp [rxTrace]
  | cons x xs ih =>
    intro port msg b
    cases hd : (readMessage_body port msg (x % 256)).2.2 <;>
      simp [rxTrace, hd, ih]

theorem feedChunks_eq (chunks : List (List Nat)) :
    ∀ (port : midiport_t) (msg : USBMIDI_Message_t),
    feedChunks port msg [] chunks = some (rxTrace port msg chunks.flatten) := by
  induction chunks with
  | nil => intro port msg; simp [feedChunks, rxTrace]
  | cons c cs ih =>
    intro port msg
    simp only [feedChunks, List.nil_append, pollUntilFalse_eq, List.flatten_cons]
    rw [rxTrace_rx, ih, rxTrace_append]
    simp

/-- Claim C2: for every port state, message buffer, byte stream and cutting of
the stream into chunks, appending the chunks one at a time and polling until
false after each yields the same packets, in the same order, and the same
final port and buffer as polling with the whole stream available at once. -/
theorem chunk_boundary_invariance (port : midiport_t) (msg : USBMIDI_Message_t)
    (chunks : List (List Nat)) :
    ∃ q, pollUntilFalse port msg chunks.flatten = some q ∧
      feedChunks port msg [] chunks = some q :=
  ⟨rxTrace port msg chunks.flatten, pollUntilFalse_eq port msg chunks.flatten,
    feedChunks_eq chunks port msg⟩

theorem statusSwitch_eq_table (port : midiport_t) (b : Nat) (h1 : 0x80 ≤ b) (h2 : b < 256) :
    readMessage_statusSwitch port b =
      { port with cin := (statusTable b).1, bytesinpacket := (statusTable b).2 } := by
  interval_cases b <;> rfl

/-- The USB-MIDI length of the code index number of a status byte is one more
than its number of data bytes. -/
theorem statusTable_length (s : Nat) (h1 : 0x80 ≤ s) (h2 : s < 256) :
    (statusTable s).1 < 16 ∧
    (s ≠ 0xF0 → cinLength (statusTable s).1 = (statusTable s).2 + 1) := by
  interval_cases s <;> decide

/-- One short message received in `MU_IDLE` gives packets that expand to the
message, and leaves the state machine in `MU_IDLE`. -/
theorem rxTrace_short_message (m : List Nat) (hm : isShortMessage m = true) (port : midiport_t)
    (msg : USBMIDI_Message_t) (hidle : port.rxstate = MU_IDLE) :
    (rxTrace port msg m).port.rxstate = MU_IDLE ∧
    expandPackets (rxTrace port msg m).packets = m := by
  match m, hm with
  | [s], hm =>
    simp only [isShortMessage, decide_eq_true_eq] at hm
    obtain ⟨h1, h2, h3, h4⟩ := hm
    obtain ⟨t1, t2⟩ := statusTable_length s h1 h2
    have es : s % 256 = s := Nat.mod_eq_of_lt h2
    have hs : ¬ s < 128 := by omega
    have t3 := t2 h3
    rw [h4] at t3
    simp [rxTrace, readMessage_body, hidle, statusSwitch_eq_table _ s h1 h2, es, MIDI_MSG_SOX,
      h3, hs, h4, expandPackets, packetBytes, cinOf_header _ _ t1, t3]
  | [s, d1], hm =>
    simp only [isShortMessage, decide_eq_true_eq] at hm
    obtain ⟨h1, h2, h3, h4, h5⟩ := hm
    obtain ⟨t1, t2⟩ := statusTable_length s h1 h2
    have es : s % 256 = s := Nat.mod_eq_of_lt h2
    have ed : d1 % 256 = d1 := Nat.mod_eq_of_lt (by omega)
    have hs : ¬ s < 128 := by omega
    have t3 := t2 h3
    rw [h4] at t3
    simp [rxTrace, readMessage_body, hidle, statusSwitch_eq_table _ s h1 h2, es, ed,
      MIDI_MSG_SOX, h3, hs, h4, expandPackets, packetBytes, cinOf_header _ _ t1, t3]
  | [s, d1, d2], hm =>
    simp only [isShortMessage, decide_eq_true_eq] at hm
    rcases hm with ⟨rfl, h5, rfl⟩ | ⟨h1, h2, h3, h4, h5, h6⟩
    · have ed : d1 % 256 = d1 := Nat.mod_eq_of_lt (by omega)
      have hd : d1 ≠ 247 := by omega
      simp [rxTrace, readMessage_body, hidle, ed, hd, MIDI_MSG_SOX, MIDI_MSG_EOX,
        expandPackets, packetBytes, cinOf_header, USB_MIDI_CIN_SYSEND3, cinLength]
    · obtain ⟨t1, t2⟩ := statusTable_length s h1 h2
      have es : s % 256 = s := Nat.mod_eq_of_lt h2
      have ed : d1 % 256 = d1 := Nat.mod_eq_of_lt (by omega)
      have ed2 : d2 % 256 = d2 := Nat.mod_eq_of_lt (by omega)
      have hs : ¬ s < 128 := by omega
      have t3 := t2 h3
      rw [h4] at t3
      simp [rxTrace, readMessage_body, hidle, statusSwitch_eq_table _ s h1 h2, es, ed, ed2,
        MIDI_MSG_SOX, h3, hs, h4, expandPackets, packetBytes, cinOf_header _ _ t1, t3]

/-- Round trip for short messages: a stream of complete messages that each fit
one packet, received from `MU_IDLE`, comes back as packets that expand to
exactly the stream. -/
theorem short_messages_round_trip (ms : List (List Nat)) :
    ∀ (port : midiport_t) (msg : USBMIDI_Message_t), port.rxstate = MU_IDLE →
    (∀ m, m ∈ ms → isShortMessage m = true) →
    (rxTrace port msg ms.flatten).port.rxstate = MU_IDLE ∧
    expandPackets (rxTrace port msg ms.flatten).packets = ms.flatten := by
  induction ms with
  | nil => intro port msg hidle _; simp [rxTrace, hidle, expandPackets]
  | cons m rest ih =>
    intro port msg hidle hall
    obtain ⟨a1, a2⟩ := rxTrace_short_message m (hall m (List.mem_cons_self _ _)) port msg hidle
    obtain ⟨b1, b2⟩ := ih (rxTrace port msg m).port (rxTrace port msg m).msg a1
      (fun x hx => hall x (List.mem_cons_of_mem _ hx))
    rw [List.flatten_cons, rxTrace_append]
    refine ⟨b1, ?_⟩
    simp only [expandPackets, List.map_append, List.flatten_append] at a2 b2 ⊢
    rw [a2, b2]

/-- Claim C1, evaluated on the code: from the state left by `MIDIUART_Init`,
whatever the cable number and the prior content of the message buffer, the
complete SysEx message F0 01 02 F7 comes back as the two packets
(SYSEXSTART, F0, 01, 02) and (SYSEND2, F0, F7, 02), which expand to the five
bytes F0 01 02 F0 F7: the start byte F0 is duplicated, so the expansion is not
the input stream. -/
theorem sysex_round_trip_duplicates_sox (port0 : midiport_t) (msg0 : USBMIDI_Message_t)
    (uartbase intnum cablenum : Nat) :
    (pollUntilFalse (MIDIUART_Init port0 uartbase intnum cablenum) msg0
        [0xF0, 0x01, 0x02, 0xF7]).map (fun q => q.packets) =
      some [{ header := USB_MIDI_HEADER (cablenum % 256) USB_MIDI_CIN_SYSEXSTART,
              byte1 := 0xF0, byte2 := 0x01, byte3 := 0x02 },
            { header := USB_MIDI_HEADER (cablenum % 256) USB_MIDI_CIN_SYSEND2,
              byte1 := 0xF0, byte2 := 0xF7, byte3 := 0x02 }] ∧
    expandPackets
        [{ header := USB_MIDI_HEADER (cablenum % 256) USB_MIDI_CIN_SYSEXSTART,
           byte1 := 0xF0, byte2 := 0x01, byte3 := 0x02 },
         { header := USB_MIDI_HEADER (cablenum % 256) USB_MIDI_CIN_SYSEND2,
           byte1 := 0xF0, byte2 := 0xF7, byte3 := 0x02 }] = [0xF0, 0x01, 0x02, 0xF0, 0xF7] ∧
    ([0xF0, 0x01, 0x02, 0xF0, 0xF7] : List Nat) ≠ [0xF0, 0x01, 0x02, 0xF7] := by
  refine ⟨rfl, ?_, by decide⟩
  simp [expandPackets, packetBytes, cinOf_header, USB_MIDI_CIN_SYSEXSTART,
    USB_MIDI_CIN_SYSEND2, cinLength]

/-- Claim C3 fails as stated: polling the stream F0 01 02 03 04 05 F7 from the
initial state does not yield exactly two packets. -/
theorem sysex_split_not_two_packets :
    ¬ ∃ q p1 p2, pollUntilFalse (MIDIUART_Init mpuart7_static 0 0 1) ⟨0, 0, 0, 0⟩
        [0xF0, 0x01, 0x02, 0x03, 0x04, 0x05, 0xF7] = some q ∧ q.packets = [p1, p2] := by
  rintro ⟨q, p1, p2, h1, h2⟩
  have h3 : (pollUntilFalse (MIDIUART_Init mpuart7_static 0 0 1) ⟨0, 0, 0, 0⟩
        [0xF0, 0x01, 0x02, 0x03, 0x04, 0x05, 0xF7]).map (fun q => q.packets.length) = some 3 := by
    decide
  rw [h1] at h3
  simp [h2] at h3

/-- Claim C3 as amended: the first packet of a SysEx message with at least two
data bytes is returned by the first call, has the start/continue code index
number and carries the three message bytes F0, d1, d2, the bytes behind them
staying in the receive buffer; and the stream F0 01 02 03 04 05 F7 yields
exactly three packets, the first of them (SYSEXSTART, F0, 01, 02). -/
theorem sysex_first_packet_three_bytes (port0 : midiport_t) (msg0 : USBMIDI_Message_t)
    (uartbase intnum cablenum : Nat)
    (d1 d2 : Nat) (rest : List Nat) (h1 : d1 < 0x80) (h2 : d2 < 0x80) :
    MIDIUART_readMessage (MIDIUART_Init port0 uartbase intnum cablenum) msg0
        (0xF0 :: d1 :: d2 :: rest) =
      { done := true,
        port := { MIDIUART_Init port0 uartbase intnum cablenum with rxstate := MU_SYSEX1 },
        msg := { header := USB_MIDI_HEADER (cablenum % 256) USB_MIDI_CIN_SYSEXSTART,
                 byte1 := 0xF0, byte2 := d1, byte3 := d2 },
        rx := rest } ∧
    (pollUntilFalse (MIDIUART_Init port0 uartbase intnum cablenum) msg0
        [0xF0, 0x01, 0x02, 0x03, 0x04, 0x05, 0xF7]).map
          (fun q => (q.packets.length, q.packets.head?)) =
      some (3, some { header := USB_MIDI_HEADER (cablenum % 256) USB_MIDI_CIN_SYSEXSTART,
                      byte1 := 0xF0, byte2 := 0x01, byte3 := 0x02 }) := by
  refine ⟨?_, rfl⟩
  have e1 : d1 % 256 = d1 := Nat.mod_eq_of_lt (by omega)
  have e2 : d2 % 256 = d2 := Nat.mod_eq_of_lt (by omega)
  have n1 : d1 ≠ 247 := by omega
  have n2 : d2 ≠ 247 := by omega
  simp [readMessage_cons, readMessage_body, MIDIUART_Init, MIDI_MSG_SOX, MIDI_MSG_EOX, e1, e2,
    n1, n2]

/-- Claim C4: for a channel-voice status `S` with two data bytes and data bytes
below 0x80, polling `[S, d1, d2, d3, d4]` from the initial state with one
message buffer yields exactly the two packets (h, S, d1, d2) and
(h, S, d3, d4), where the common header h has the code index number S / 16. -/
theorem running_status_two_packets (port0 : midiport_t) (msg0 : USBMIDI_Message_t)
    (uartbase intnum cablenum : Nat)
    (S d1 d2 d3 d4 : Nat)
    (hS : (0x80 ≤ S ∧ S ≤ 0xBF) ∨ (0xE0 ≤ S ∧ S ≤ 0xEF))
    (h1 : d1 < 0x80) (h2 : d2 < 0x80) (h3 : d3 < 0x80) (h4 : d4 < 0x80) :
    (pollUntilFalse (MIDIUART_Init port0 uartbase intnum cablenum) msg0
        [S, d1, d2, d3, d4]).map (fun q => q.packets) =
      some [{ header := USB_MIDI_HEADER (cablenum % 256) (S / 16),
              byte1 := S, byte2 := d1, byte3 := d2 },
            { header := USB_MIDI_HEADER (cablenum % 256) (S / 16),
              byte1 := S, byte2 := d3, byte3 := d4 }] := by
  have e1 : d1 % 256 = d1 := Nat.mod_eq_of_lt (by omega)
  have e2 : d2 % 256 = d2 := Nat.mod_eq_of_lt (by omega)
  have e3 : d3 % 256 = d3 := Nat.mod_eq_of_lt (by omega)
  have e4 : d4 % 256 = d4 := Nat.mod_eq_of_lt (by omega)
  have eS : S % 256 = S := Nat.mod_eq_of_lt (by omega)
  have hS1 : 0x80 ≤ S := by omega
  have hS2 : S < 256 := by omega
  have hS3 : S ≠ 0xF0 := by omega
  have hS4 : ¬ S < 0x80 := by omega
  have ht : statusTable S = (S / 16, 2) := by
    rcases hS with ⟨a, b⟩ | ⟨a, b⟩ <;> interval_cases S <;> rfl
  have n1 : d1 ≠ 240 := by omega
  have n3 : d3 ≠ 240 := by omega
  rw [pollUntilFalse_eq]
  simp [rxTrace, readMessage_body, statusSwitch_eq_table _ S hS1 hS2, ht, MIDIUART_Init,
    MIDI_MSG_SOX, e1, e2, e3, e4, eS, hS3, hS4, h1, h3, n1, n3]

/-- Claim C5: a status byte `B` other than 0xF0 received in `MU_IDLE` sets
byte1 to `B` and the code index number and data byte count of the MIDI status
table; with no data byte the packet (header, B, 0, 0) is returned at once and
the state stays `MU_IDLE`, otherwise nothing is returned and the state becomes
`MU_DATABYTE2` with `bytecnt` equal to `bytesinpacket`. -/
theorem status_classification_table (port : midiport_t) (msg : USBMIDI_Message_t) (B : Nat)
    (hidle : port.rxstate = MU_IDLE) (h1 : 0x80 ≤ B) (h2 : B < 256) (hne : B ≠ 0xF0) :
    MIDIUART_readMessage port msg [B] =
      if (statusTable B).2 = 0 then
        { done := true,
          port := { port with cin := (statusTable B).1, bytesinpacket := (statusTable B).2,
                              rxstate := MU_IDLE },
          msg := { header := USB_MIDI_HEADER port.cablenum (statusTable B).1,
                   byte1 := B, byte2 := 0, byte3 := 0 },
          rx := [] }
      else
        { done := false,
          port := { port with cin := (statusTable B).1, bytesinpacket := (statusTable B).2,
                              bytecnt := (statusTable B).2, rxstate := MU_DATABYTE2 },
          msg := { header := USB_MIDI_HEADER port.cablenum (statusTable B).1,
                   byte1 := B, byte2 := 0, byte3 := 0 },
          rx := [] } := by
  have eB : B % 256 = B := Nat.mod_eq_of_lt h2
  have hB : ¬ B < 0x80 := by omega
  rw [readMessage_cons, eB]
  by_cases hz : (statusTable B).2 = 0
  · have hz2 : 0 = (statusTable B).2 := hz.symm
    simp [readMessage_body, hidle, statusSwitch_eq_table _ B h1 h2, MIDI_MSG_SOX, hne, hB, hz]
  · have hz2 : ¬ 0 = (statusTable B).2 := fun h => hz h.symm
    simp [readMessage_body, hidle, statusSwitch_eq_table _ B h1 h2, MIDI_MSG_SOX, hne, hB, hz,
      hz2, readMessage_nil]

/-- Claim C6 fails as stated: with two real-time bytes available, the call
returns true after the first one and the second is still unread. -/
theorem readMessage_leaves_bytes_unread :
    (MIDIUART_readMessage (MIDIUART_Init mpuart7_static 0 0 1) ⟨0, 0, 0, 0⟩
        [0xF8, 0xF8]).done = true ∧
    (MIDIUART_readMessage (MIDIUART_Init mpuart7_static 0 0 1) ⟨0, 0, 0, 0⟩
        [0xF8, 0xF8]).rx = [0xF8] := by
  decide

theorem rxAfter_append (a : List Nat) :
    ∀ (port : midiport_t) (msg : USBMIDI_Message_t) (b : List Nat),
    rxAfter port msg (a ++ b) = rxAfter (rxAfter port msg a).1 (rxAfter port msg a).2 b := by
  induction a with
  | nil => intro port msg b; rfl
  | cons x xs ih => intro port msg b; simp [rxAfter, ih]

theorem completesAt_cons (port : midiport_t) (msg : USBMIDI_Message_t) (x : Nat) (pre : List Nat)
    (b : Nat) :
    completesAt port msg (x :: pre) b =
      completesAt (readMessage_body port msg (x % 256)).1
        (readMessage_body port msg (x % 256)).2.1 pre b := rfl

/-- Every call either stops at the first byte whose iteration sets `done`, or
runs through the whole buffer without any byte setting it. -/
theorem readMessage_shape (rx : List Nat) : ∀ (port : midiport_t) (msg : USBMIDI_Message_t),
    ((MIDIUART_readMessage port msg rx).done = true ∧
      ∃ pre b post, rx = pre ++ b :: post ∧
        (∀ pre2 b2 post2, pre = pre2 ++ b2 :: post2 → completesAt port msg pre2 b2 = false) ∧
        completesAt port msg pre b = true ∧
        (MIDIUART_readMessage port msg rx).rx = post ∧
        (MIDIUART_readMessage port msg rx).port = (rxAfter port msg (pre ++ [b])).1 ∧
        (MIDIUART_readMessage port msg rx).msg = (rxAfter port msg (pre ++ [b])).2) ∨
    ((MIDIUART_readMessage port msg rx).done = false ∧
      (∀ pre2 b2 post2, rx = pre2 ++ b2 :: post2 → completesAt port msg pre2 b2 = false) ∧
      (MIDIUART_readMessage port msg rx).rx = [] ∧
      (MIDIUART_readMessage port msg rx).port = (rxAfter port msg rx).1 ∧
      (MIDIUART_readMessage port msg rx).msg = (rxAfter port msg rx).2) := by
  induction rx with
  | nil =>
    intro port msg
    right
    refine ⟨by simp [readMessage_nil], ?_, by simp [readMessage_nil],
      by simp [readMessage_nil, rxAfter], by simp [readMessage_nil, rxAfter]⟩
    intro pre2 b2 post2 h
    simp at h
  | cons x rest ih =>
    intro port msg
    cases hd : (readMessage_body port msg (x % 256)).2.2
    · have e : MIDIUART_readMessage port msg (x :: rest) =
          MIDIUART_readMessage (readMessage_body port msg (x % 256)).1
            (readMessage_body port msg (x % 256)).2.1 rest := by
        rw [readMessage_cons]; simp [hd]
      rw [e]
      rcases ih (readMessage_body port msg (x % 256)).1 (readMessage_body port msg (x % 256)).2.1
        with ⟨h1, pre, b, post, hrx, hno, hc, h2, h3, h4⟩ | ⟨h1, hno, h2, h3, h4⟩
      · left
        refine ⟨h1, x :: pre, b, post, by simp [hrx], ?_, by rw [completesAt_cons]; exact hc, h2,
          by simpa [rxAfter] using h3, by simpa [rxAfter] using h4⟩
        intro pre2 b2 post2 h
        cases pre2 with
        | nil =>
          simp only [List.nil_append, List.cons.injEq] at h
          obtain ⟨rfl, -⟩ := h
          simpa [completesAt, rxAfter] using hd
        | cons y ys =>
          simp only [List.cons_append, List.cons.injEq] at h
          obtain ⟨rfl, h⟩ := h
          rw [completesAt_cons]
          exact hno ys b2 post2 h
      · right
        refine ⟨h1, ?_, h2, by simpa [rxAfter] using h3, by simpa [rxAfter] using h4⟩
        intro pre2 b2 post2 h
        cases pre2 with
        | nil =>
          simp only [List.nil_append, List.cons.injEq] at h
          obtain ⟨rfl, -⟩ := h
          simpa [completesAt, rxAfter] using hd
        | cons y ys =>
          simp only [List.cons_append, List.cons.injEq] at h
          obtain ⟨rfl, h⟩ := h
          rw [completesAt_cons]
          exact hno ys b2 post2 h
    · left
      have e : MIDIUART_readMessage port msg (x :: rest) =
          { done := true, port := (readMessage_body port msg (x % 256)).1,
            msg := (readMessage_body port msg (x % 256)).2.1, rx := rest } := by
        rw [readMessage_cons]; simp [hd]
      rw [e]
      refine ⟨rfl, [], x, rest, rfl, ?_, by simpa [completesAt, rxAfter] using hd, rfl,
        by simp [rxAfter], by simp [rxAfter]⟩
      intro pre2 b2 post2 h
      simp at h

/-- Claim C7: on an empty buffer the call returns false and changes nothing;
it returns true exactly when some available byte completes a packet, and then
the bytes before the completing byte completed nothing, the port and the
message buffer are those after the completing byte, and the bytes behind it
are left unread; it returns false exactly when the whole buffer was consumed
and no byte completed a packet, and then port and buffer are those after the
last byte. -/
theorem readMessage_return_value (port : midiport_t) (msg : USBMIDI_Message_t) (rx : List Nat) :
    MIDIUART_readMessage port msg [] = { done := false, port := port, msg := msg, rx := [] } ∧
    ((MIDIUART_readMessage port msg rx).done = true ↔
      ∃ pre b post, rx = pre ++ b :: post ∧ completesAt port msg pre b = true) ∧
    ((MIDIUART_readMessage port msg rx).done = true →
      ∃ pre b post, rx = pre ++ b :: post ∧
        (∀ pre2 b2 post2, pre = pre2 ++ b2 :: post2 → completesAt port msg pre2 b2 = false) ∧
        completesAt port msg pre b = true ∧
        (MIDIUART_readMessage port msg rx).rx = post ∧
        (MIDIUART_readMessage port msg rx).port = (rxAfter port msg (pre ++ [b])).1 ∧
        (MIDIUART_readMessage port msg rx).msg = (rxAfter port msg (pre ++ [b])).2) ∧
    ((MIDIUART_readMessage port msg rx).done = false ↔
      (MIDIUART_readMessage port msg rx).rx = [] ∧
      ∀ pre b post, rx = pre ++ b :: post → completesAt port msg pre b = false) ∧
    ((MIDIUART_readMessage port msg rx).done = false →
      (MIDIUART_readMessage port msg rx).port = (rxAfter port msg rx).1 ∧
      (MIDIUART_readMessage port msg rx).msg = (rxAfter port msg rx).2) := by
  have hs := readMessage_shape rx port msg
  refine ⟨readMessage_nil port msg, ⟨?_, ?_⟩, ?_, ⟨?_, ?_⟩, ?_⟩
  · intro h
    rcases hs with ⟨_, pre, b, post, hrx, _, hc, _⟩ | ⟨h1, _⟩
    · exact ⟨pre, b, post, hrx, hc⟩
    · rw [h] at h1; cases h1
  · rintro ⟨pre, b, post, hrx, hc⟩
    rcases hs with ⟨h1, _⟩ | ⟨_, hno, _⟩
    · exact h1
    · rw [hno pre b post hrx] at hc; cases hc
  · intro h
    rcases hs with ⟨_, hh⟩ | ⟨h1, _⟩
    · exact hh
    · rw [h] at h1; cases h1
  · intro h
    rcases hs with ⟨h1, _⟩ | ⟨_, hno, h2, _⟩
    · rw [h] at h1; cases h1
    · exact ⟨h2, hno⟩
  · rintro ⟨_, hno⟩
    rcases hs with ⟨_, pre, b, post, hrx, _, hc, _⟩ | ⟨h1, _⟩
    · rw [hno pre b post hrx] at hc; cases hc
    · exact h1
  · intro h
    rcases hs with ⟨h1, _⟩ | ⟨_, _, _, h3, h4⟩
    · rw [h] at h1; cases h1
    · exact ⟨h3, h4⟩

/-- Claim C6 as amended: when the call returns false nothing is left unread;
when it returns true it has read the available bytes up to and including the
first one that completes a packet, none of the bytes before it having
completed one, and no further: the bytes behind that byte are all still in the
receive buffer, and the port and the message buffer are those after that
byte; and polling until the call returns false leaves the receive buffer
empty. -/
theorem readMessage_stops_at_first_packet (port : midiport_t) (msg : USBMIDI_Message_t)
    (rx : List Nat) :
    (∃ consumed, rx = consumed ++ (MIDIUART_readMessage port msg rx).rx) ∧
    ((MIDIUART_readMessage port msg rx).done = false →
      (MIDIUART_readMessage port msg rx).rx = []) ∧
    ((MIDIUART_readMessage port msg rx).done = true →
      (MIDIUART_readMessage port msg rx).rx.length < rx.length ∧
      ∃ pre b post, rx = pre ++ b :: post ∧
        (∀ pre2 b2 post2, pre = pre2 ++ b2 :: post2 → completesAt port msg pre2 b2 = false) ∧
        completesAt port msg pre b = true ∧
        (MIDIUART_readMessage port msg rx).rx = post ∧
        (MIDIUART_readMessage port msg rx).port = (rxAfter port msg (pre ++ [b])).1 ∧
        (MIDIUART_readMessage port msg rx).msg = (rxAfter port msg (pre ++ [b])).2) ∧
    (∃ q, pollUntilFalse port msg rx = some q ∧ q.rx = []) := by
  have hs := readMessage_shape rx port msg
  refine ⟨?_, ?_, ?_, ⟨_, pollUntilFalse_eq port msg rx, rxTrace_rx rx port msg⟩⟩
  · rcases hs with ⟨_, pre, b, post, hrx, _, _, h2, _⟩ | ⟨_, _, h2, _⟩
    · exact ⟨pre ++ [b], by rw [h2, hrx]; simp⟩
    · exact ⟨rx, by rw [h2]; simp⟩
  · intro h
    rcases hs with ⟨h1, _⟩ | ⟨_, _, h2, _⟩
    · rw [h] at h1; cases h1
    · exact h2
  · intro h
    rcases hs with ⟨_, pre, b, post, hrx, hno, hc, h2, h3, h4⟩ | ⟨h1, _⟩
    · refine ⟨?_, pre, b, post, hrx, hno, hc, h2, h3, h4⟩
      rw [h2, hrx]; simp; omega
    · rw [h] at h1; cases h1

theorem body_port_indep (port : midiport_t) (m1 m2 : USBMIDI_Message_t) (b : Nat) :
    (readMessage_body port m1 b).1 = (readMessage_body port m2 b).1 ∧
    (readMessage_body port m1 b).2.2 = (readMessage_body port m2 b).2.2 := by
  unfold readMessage_body
  cases port.rxstate <;> simp <;> split_ifs <;> simp

theorem body_idle_status_msg (port : midiport_t) (m1 m2 : USBMIDI_Message_t) (b : Nat)
    (hidle : port.rxstate = MU_IDLE) (hb : 0x80 ≤ b) (hne : b ≠ 0xF0) :
    (readMessage_body port m1 b).2.1 = (readMessage_body port m2 b).2.1 := by
  have hB : ¬ b < 0x80 := by omega
  unfold readMessage_body
  simp [hidle, hB, MIDI_MSG_SOX, hne]

theorem readMessage_sox_msg (port : midiport_t) (m1 m2 : USBMIDI_Message_t) (rest : List Nat)
    (hidle : port.rxstate = MU_IDLE)
    (hdone : (MIDIUART_readMessage port m1 (0xF0 :: rest)).done = true) :
    (MIDIUART_readMessage port m1 (0xF0 :: rest)).msg =
      (MIDIUART_readMessage port m2 (0xF0 :: rest)).msg := by
  cases rest with
  | nil => simp [readMessage_cons, readMessage_nil, readMessage_body, hidle, MIDI_MSG_SOX] at hdone
  | cons c rest2 =>
    by_cases hc : c % 256 = 0xF7
    · simp [readMessage_cons, readMessage_body, hidle, MIDI_MSG_SOX, MIDI_MSG_EOX, hc]
    · cases rest2 with
      | nil =>
        simp [readMessage_cons, readMessage_nil, readMessage_body, hidle, MIDI_MSG_SOX,
          MIDI_MSG_EOX, hc] at hdone
      | cons d rest3 =>
        by_cases hd : d % 256 = 0xF7 <;>
          simp [readMessage_cons, readMessage_body, hidle, MIDI_MSG_SOX, MIDI_MSG_EOX, hc, hd]

/-- Claim C8 as amended: two runs from the same port state on the same bytes
with different message buffers agree on the return value, on the port they
leave and on the unread bytes; they also agree on the returned packet when
the run starts in `MU_IDLE` with a status byte and returns true. -/
theorem readMessage_port_independent_of_msg (port : midiport_t)
    (msg1 msg2 : USBMIDI_Message_t) (rx : List Nat) :
    (MIDIUART_readMessage port msg1 rx).done = (MIDIUART_readMessage port msg2 rx).done ∧
    (MIDIUART_readMessage port msg1 rx).port = (MIDIUART_readMessage port msg2 rx).port ∧
    (MIDIUART_readMessage port msg1 rx).rx = (MIDIUART_readMessage port msg2 rx).rx ∧
    (port.rxstate = MU_IDLE → (∃ b rest, rx = b :: rest ∧ 0x80 ≤ b % 256) →
      (MIDIUART_readMessage port msg1 rx).done = true →
      (MIDIUART_readMessage port msg1 rx).msg = (MIDIUART_readMessage port msg2 rx).msg) := by
  have key : ∀ (rx : List Nat) (port : midiport_t) (m1 m2 : USBMIDI_Message_t),
      (MIDIUART_readMessage port m1 rx).done = (MIDIUART_readMessage port m2 rx).done ∧
      (MIDIUART_readMessage port m1 rx).port = (MIDIUART_readMessage port m2 rx).port ∧
      (MIDIUART_readMessage port m1 rx).rx = (MIDIUART_readMessage port m2 rx).rx := by
    intro rx
    induction rx with
    | nil => intro port m1 m2; simp [readMessage_nil]
    | cons b rest ih =>
      intro port m1 m2
      obtain ⟨hp, hd⟩ := body_port_indep port m1 m2 (b % 256)
      rw [readMessage_cons, readMessage_cons, ← hp, ← hd]
      cases (readMessage_body port m1 (b % 256)).2.2
      · simpa using ih _ _ _
      · simp
  refine ⟨(key rx port msg1 msg2).1, (key rx port msg1 msg2).2.1,
    (key rx port msg1 msg2).2.2, ?_⟩
  rintro hidle ⟨b, rest, rfl, hb⟩ hdone
  by_cases hsox : b % 256 = 0xF0
  · have e : ∀ m, MIDIUART_readMessage port m (b :: rest) =
        MIDIUART_readMessage port m (0xF0 :: rest) := by
      intro m; rw [readMessage_cons, readMessage_cons, hsox]
    rw [e] at hdone ⊢
    rw [e]
    exact readMessage_sox_msg port msg1 msg2 rest hidle hdone
  · obtain ⟨hp, hd⟩ := body_port_indep port msg1 msg2 (b % 256)
    have hm := body_idle_status_msg port msg1 msg2 (b % 256) hidle hb hsox
    rw [readMessage_cons, readMessage_cons, ← hp, ← hd, ← hm]

/-- Claim C8 fails as stated: after the call that consumed the status byte 0x90,
the call that receives the two data bytes returns the packet
(0x19, 0x90, 0x40, 0x7F) in the buffer of the first call, but
(0, 0, 0x40, 0x7F) in a fresh buffer. -/
theorem packet_depends_on_msg_buffer :
    (MIDIUART_readMessage (MIDIUART_Init mpuart7_static 0 0 1) ⟨0, 0, 0, 0⟩
        [0x90]).done = false ∧
    (MIDIUART_readMessage
        (MIDIUART_readMessage (MIDIUART_Init mpuart7_static 0 0 1) ⟨0, 0, 0, 0⟩ [0x90]).port
        (MIDIUART_readMessage (MIDIUART_Init mpuart7_static 0 0 1) ⟨0, 0, 0, 0⟩ [0x90]).msg
        [0x40, 0x7F]) =
      { done := true, port := { MIDIUART_Init mpuart7_static 0 0 1 with
                                  cin := 9, bytecnt := 1, bytesinpacket := 2 },
        msg := ⟨0x19, 0x90, 0x40, 0x7F⟩, rx := [] } ∧
    (MIDIUART_readMessage
        (MIDIUART_readMessage (MIDIUART_Init mpuart7_static 0 0 1) ⟨0, 0, 0, 0⟩ [0x90]).port
        ⟨0, 0, 0, 0⟩ [0x40, 0x7F]) =
      { done := true, port := { MIDIUART_Init mpuart7_static 0 0 1 with
                                  cin := 9, bytecnt := 1, bytesinpacket := 2 },
        msg := ⟨0, 0, 0x40, 0x7F⟩, rx := [] } := by
  decide

/-- Claim C9, evaluated on the code: from the state left by `MIDIUART_Init`,
the SysEx message F0 01 02 F7 ends in a packet with the SysEx-end-2-bytes code
index number whose byte3 is 0x02, the data byte of the packet before, not
0x00. -/
theorem sysex_end2_stale_byte3 (port0 : midiport_t) (msg0 : USBMIDI_Message_t)
    (uartbase intnum cablenum : Nat) :
    (pollUntilFalse (MIDIUART_Init port0 uartbase intnum cablenum) msg0
        [0xF0, 0x01, 0x02, 0xF7]).map (fun q => q.packets.map (fun m => (cinOf m, m.byte3))) =
      some [(USB_MIDI_CIN_SYSEXSTART, 0x02), (USB_MIDI_CIN_SYSEND2, 0x02)] := by
  have e : (pollUntilFalse (MIDIUART_Init port0 uartbase intnum cablenum) msg0
        [0xF0, 0x01, 0x02, 0xF7]).map (fun q => q.packets) =
      some [{ header := USB_MIDI_HEADER (cablenum % 256) USB_MIDI_CIN_SYSEXSTART,
              byte1 := 0xF0, byte2 := 0x01, byte3 := 0x02 },
            { header := USB_MIDI_HEADER (cablenum % 256) USB_MIDI_CIN_SYSEND2,
              byte1 := 0xF0, byte2 := 0xF7, byte3 := 0x02 }] := rfl
  rw [pollUntilFalse_eq] at e ⊢
  simp only [Option.map_some', Option.some.injEq] at e ⊢
  rw [e]
  simp [cinOf_header, USB_MIDI_CIN_SYSEXSTART, USB_MIDI_CIN_SYSEND2]

/-! ## Basic facts about the transmit ring -/

/-- The enqueue iteration when the ring has room: the byte is stored at the old
head, the head advances modulo 64, the count drops by one, the global
interrupt mask is restored, and the software trigger is issued when `txidle`
is set. -/
theorem writeMessage_iter_room (s : writeState) (hh : s.port.txfifohead < 64)
    (hroom : (s.port.txfifohead + 1) % 64 ≠ s.port.txfifotail) :
    writeMessage_iter s =
      { port := { s.port with
                  txmsgfifo := s.port.txmsgfifo.set s.port.txfifohead (s.msg.headD 0 % 256)
                  txfifohead := (s.port.txfifohead + 1) % 64 },
        hw := { s.hw with swtrig := s.hw.swtrig || decide (s.port.txidle ≠ 0) },
        msg := s.msg.tail,
        msize := (s.msize + 255) % 256 } := by
  have h256 : (s.port.txfifohead + 1) % 256 = s.port.txfifohead + 1 :=
    Nat.mod_eq_of_lt (by omega)
  unfold writeMessage_iter
  simp only [MIDI_TX_FIFO_SIZE, hroom, ne_eq, not_false_eq_true, if_true, h256]
  rcases Nat.lt_or_ge (s.port.txfifohead + 1) 64 with h | h
  · have e1 : (s.port.txfifohead + 1) % 64 = s.port.txfifohead + 1 := Nat.mod_eq_of_lt h
    have e2 : ¬ 64 = s.port.txfifohead + 1 := by omega
    cases hm : s.hw.masterDisabled <;> by_cases hi : s.port.txidle = 0 <;>
      simp [e1, e2, hm, hi]
  · have e0 : s.port.txfifohead + 1 = 64 := by omega
    have e1 : (s.port.txfifohead + 1) % 64 = 0 := by rw [e0]
    cases hm : s.hw.masterDisabled <;> by_cases hi : s.port.txidle = 0 <;>
      simp [e1, e0, hm, hi]

theorem writeMessage_iter_full (s : writeState)
    (hfull : (s.port.txfifohead + 1) % 64 = s.port.txfifotail) :
    writeMessage_iter s = s := by
  unfold writeMessage_iter
  simp [MIDI_TX_FIFO_SIZE, hfull]

theorem IntHandler_nonempty (port : midiport_t) (hw : txhw_t) (ht : port.txfifotail < 64)
    (hne : port.txfifohead ≠ port.txfifotail) :
    MIDIUART7_IntHandler port hw =
      ({ port with txidle := 0, txfifotail := (port.txfifotail + 1) % 64 },
       { hw with txint := false, uartIntEnabled := true,
                 txdata := hw.txdata ++ [port.txmsgfifo.getD port.txfifotail 0] }) := by
  have h256 : (port.txfifotail + 1) % 256 = port.txfifotail + 1 := Nat.mod_eq_of_lt (by omega)
  unfold MIDIUART7_IntHandler
  simp only [MIDI_TX_FIFO_SIZE, hne, if_false, h256]
  rcases Nat.lt_or_ge (port.txfifotail + 1) 64 with h | h
  · have e1 : (port.txfifotail + 1) % 64 = port.txfifotail + 1 := Nat.mod_eq_of_lt h
    have e2 : ¬ 64 = port.txfifotail + 1 := by omega
    cases hm : hw.masterDisabled <;> simp [e1, e2, hm]
  · have e0 : port.txfifotail + 1 = 64 := by omega
    have e1 : (port.txfifotail + 1) % 64 = 0 := by rw [e0]
    cases hm : hw.masterDisabled <;> simp [e1, e0, hm]

theorem ringInv_step (msg0 : List Nat) (msize0 : Nat) (hw0 : txhw_t) (k : Nat) (s : writeState)
    (h1 : 64 ≤ msize0) (h2 : msize0 < 256) (hk : k < 63) (h : ringInv msg0 msize0 hw0 k s) :
    ringInv msg0 msize0 hw0 (k + 1) (writeMessage_iter s) := by
  obtain ⟨a1, a2, a3, a4, a5, a6, a7, a8, a9⟩ := h
  rw [writeMessage_iter_room _ (by rw [a1]; omega) (by rw [a1, a2]; omega)]
  refine ⟨?_, a2, a3, ?_, ?_, ?_, ?_, a8, a9⟩
  · show (s.port.txfifohead + 1) % 64 = k + 1
    rw [a1]; omega
  · show (s.msize + 255) % 256 = msize0 - (k + 1)
    rw [a4]; omega
  · show s.msg.tail = _
    rw [a5, List.tail_drop]
  · show (s.port.txmsgfifo.set _ _).length = 64
    rw [List.length_set, a6]
  · intro i hi
    show (s.port.txmsgfifo.set s.port.txfifohead (s.msg.headD 0 % 256))[i]? = _
    rw [List.getElem?_set, a1, a5, a6]
    by_cases hin : k = i
    · subst hin
      have hk64 : k < 64 := by omega
      simp [hk64]
    · simp only [hin, if_false]
      exact a7 i (by omega)

theorem ringInv_iterate (port0 : midiport_t) (uartbase intnum cablenum : Nat) (hw : txhw_t)
    (msg : List Nat) (msize : Nat) (hlen : port0.txmsgfifo.length = 64)
    (h1 : 64 ≤ msize) (h2 : msize < 256) (k : Nat) (hk : k ≤ 63) :
    ringInv msg msize hw k (writeMessage_iter^[k]
        { port := MIDIUART_Init port0 uartbase intnum cablenum, hw := hw, msg := msg,
          msize := msize }) := by
  induction k with
  | zero => simp [ringInv, MIDIUART_Init, hlen]
  | succ n ih =>
    rw [Function.iterate_succ_apply']
    exact ringInv_step msg msize hw n _ h1 h2 (by omega) (ih (by omega))


/-- Claim C10: from the state left by `MIDIUART_Init`, with no interrupt served,
each of the first 63 enqueue iterations stores its byte at the old head and
advances the head and the count; with 63 bytes queued the room test fails and
the iteration changes nothing; one handler run transmits the oldest byte and
moves the tail to 1, after which the next iteration stores the 64th byte and
wraps the head to 0. -/
theorem byte_ring_capacity (port0 : midiport_t) (uartbase intnum cablenum : Nat) (hw : txhw_t)
    (msg : List Nat) (msize : Nat) (hlen : port0.txmsgfifo.length = MIDI_TX_FIFO_SIZE)
    (h1 : 64 ≤ msize) (h2 : msize < 256) :
    let s0 : writeState :=
      { port := MIDIUART_Init port0 uartbase intnum cablenum, hw := hw, msg := msg,
        msize := msize }
    let s63 := writeMessage_iter^[63] s0
    let r := MIDIUART7_IntHandler s63.port s63.hw
    let s64 := writeMessage_iter { s63 with port := r.1, hw := r.2 }
    (∀ k, k < 63 →
      (writeMessage_iter^[k] s0).port.txfifohead = k ∧
      (writeMessage_iter^[k] s0).msize = msize - k ∧
      (writeMessage_iter^[k + 1] s0).port.txfifohead = k + 1 ∧
      (writeMessage_iter^[k + 1] s0).msize = msize - k - 1 ∧
      (writeMessage_iter^[k + 1] s0).port.txmsgfifo[k]? = some (msg.getD k 0 % 256)) ∧
    (s63.port.txfifohead = 63 ∧ s63.port.txfifotail = 0 ∧
      (∀ i, i < 63 → s63.port.txmsgfifo[i]? = some (msg.getD i 0 % 256)) ∧
      s63.hw.txdata = hw.txdata ∧
      (s63.port.txfifohead + 1) % MIDI_TX_FIFO_SIZE = s63.port.txfifotail ∧
      writeMessage_iter s63 = s63) ∧
    (r.1.txfifotail = 1 ∧ r.2.txdata = hw.txdata ++ [msg.getD 0 0 % 256] ∧
      s64.port.txfifohead = 0 ∧ s64.msize = msize - 64 ∧
      s64.port.txmsgfifo[63]? = some (msg.getD 63 0 % 256)) := by
  intro s0 s63 r s64
  have hinv : ∀ k, k ≤ 63 → ringInv msg msize hw k (writeMessage_iter^[k] s0) :=
    fun k hk => ringInv_iterate port0 uartbase intnum cablenum hw msg msize hlen h1 h2 k hk
  have hinv63 : ringInv msg msize hw 63 s63 := hinv 63 (Nat.le_refl _)
  clear_value s63
  obtain ⟨b1, b2, b3, b4, b5, b6, b7, b8, b9⟩ := hinv63
  refine ⟨?_, ⟨b1, b2, b7, b8, ?_, ?_⟩, ?_⟩
  · intro k hk
    obtain ⟨a1, -, -, a4, -⟩ := hinv k (by omega)
    obtain ⟨c1, -, -, c4, -, -, c7, -⟩ := hinv (k + 1) (by omega)
    exact ⟨a1, a4, c1, by rw [c4]; omega, c7 k (Nat.lt_succ_self k)⟩
  · show (s63.port.txfifohead + 1) % MIDI_TX_FIFO_SIZE = s63.port.txfifotail
    rw [b1, b2]; rfl
  · exact writeMessage_iter_full s63 (by rw [b1, b2])
  · have hne : ¬ s63.port.txfifohead = s63.port.txfifotail := by omega
    have e0 : s63.port.txmsgfifo.getD 0 0 = msg.getD 0 0 % 256 := by
      rw [List.getD_eq_getElem?_getD, b7 0 (by omega)]; rfl
    have hr : r = MIDIUART7_IntHandler s63.port s63.hw := rfl
    rw [IntHandler_nonempty _ _ (by omega) hne] at hr
    have hr1 : r.1 = { s63.port with txidle := 0, txfifotail := 1 } := by
      rw [hr, b2]
    have hr2 : r.2.txdata = hw.txdata ++ [msg.getD 0 0 % 256] := by
      rw [hr]
      show s63.hw.txdata ++ [s63.port.txmsgfifo.getD s63.port.txfifotail 0] = _
      rw [b2, b8, e0]
    have hs64 : s64 = writeMessage_iter { s63 with port := r.1, hw := r.2 } := rfl
    rw [writeMessage_iter_room _ (by rw [hr1]; show s63.port.txfifohead < 64; omega)
      (by rw [hr1]; show (s63.port.txfifohead + 1) % 64 ≠ 1; omega)] at hs64
    refine ⟨by rw [hr1], hr2, ?_, ?_, ?_⟩
    · rw [hs64, hr1]; show (s63.port.txfifohead + 1) % 64 = 0; rw [b1]
    · rw [hs64]; show (s63.msize + 255) % 256 = msize - 64; rw [b4]; omega
    · rw [hs64, hr1]
      show (s63.port.txmsgfifo.set s63.port.txfifohead (s63.msg.headD 0 % 256))[63]? = _
      rw [List.getElem?_set, b1, b5, b6]
      simp

/-! ## Basic facts about rings -/

/-- The successor of an index below `n`, wrapped at `n`. -/
theorem mod_succ_cases (n x : Nat) (hx : x < n) :
    (x + 1) % n = if x + 1 = n then 0 else x + 1 := by
  split_ifs with h
  · rw [h]; exact Nat.mod_self n
  · exact Nat.mod_eq_of_lt (by omega)

/-- The number of queued elements without the remainder: the distance from
`tail` up to `head`, around the end of the buffer when `head` is behind. -/
theorem ringCount_cases (n head tail : Nat) (hh : head < n) (ht : tail < n) :
    ringCount n head tail = if tail ≤ head then head - tail else head + n - tail := by
  unfold ringCount
  split_ifs with h
  · have e : head + n - tail = (head - tail) + n := by omega
    rw [e, Nat.add_mod_right]
    exact Nat.mod_eq_of_lt (by omega)
  · exact Nat.mod_eq_of_lt (by omega)

theorem ringCount_self (n t : Nat) (ht : t < n) : ringCount n t t = 0 := by
  rw [ringCount_cases n t t ht ht]; simp

theorem ringCount_lt (n head tail : Nat) (hh : head < n) (ht : tail < n) :
    ringCount n head tail < n := by
  rw [ringCount_cases n head tail hh ht]; split_ifs <;> omega

theorem ringCount_eq_zero (n head tail : Nat) (hh : head < n) (ht : tail < n) :
    ringCount n head tail = 0 ↔ head = tail := by
  rw [ringCount_cases n head tail hh ht]; split_ifs <;> omega

theorem ringCount_pop (n head tail : Nat) (hh : head < n) (ht : tail < n) (hne : head ≠ tail) :
    ringCount n head tail = ringCount n head ((tail + 1) % n) + 1 := by
  have h1 : (tail + 1) % n < n := Nat.mod_lt _ (by omega)
  rw [ringCount_cases n head tail hh ht, ringCount_cases n head _ hh h1,
    mod_succ_cases n tail ht]
  split_ifs <;> omega

theorem ringCount_push (n head tail : Nat) (hh : head < n) (ht : tail < n)
    (hroom : (head + 1) % n ≠ tail) :
    ringCount n ((head + 1) % n) tail = ringCount n head tail + 1 := by
  have h1 : (head + 1) % n < n := Nat.mod_lt _ (by omega)
  rw [mod_succ_cases n head hh] at hroom
  rw [ringCount_cases n head tail hh ht, ringCount_cases n _ tail h1 ht,
    mod_succ_cases n head hh]
  split_ifs at hroom ⊢ <;> omega

theorem ringCount_full (n head tail : Nat) (hh : head < n) (ht : tail < n) :
    (head + 1) % n = tail ↔ ringCount n head tail + 1 = n := by
  rw [ringCount_cases n head tail hh ht, mod_succ_cases n head hh]
  split_ifs <;> omega

/-- Storing at the slot behind the queued elements does not change them and
adds the stored element at the end. -/
theorem ringFrom_set {α : Type} (d : α) (buf : List α) (x : α) (c : Nat) :
    ∀ t, t < buf.length → c + 1 ≤ buf.length → 
      ringFrom d (buf.set ((t + c) % buf.length) x) t (c + 1) = ringFrom d buf t c ++ [x] := by
  induction c with
  | zero =>
    intro t ht hc
    simp [ringFrom, Nat.mod_eq_of_lt ht, ht]
  | succ c ih =>
    intro t ht hc
    have h1 : (t + 1) % buf.length < buf.length := Nat.mod_lt _ (by omega)
    have e : (t + (c + 1)) % buf.length = ((t + 1) % buf.length + c) % buf.length := by
      rw [Nat.mod_add_mod]; congr 1; omega
    have hne : (t + (c + 1)) % buf.length ≠ t := by
      rcases Nat.lt_or_ge (t + (c + 1)) buf.length with h | h
      · rw [Nat.mod_eq_of_lt h]; omega
      · rw [Nat.mod_eq_sub_mod h, Nat.mod_eq_of_lt (by omega)]; omega
    have hlen : (buf.set ((t + (c + 1)) % buf.length) x).length = buf.length := List.length_set ..
    rw [ringFrom, hlen]
    conv_rhs => rw [ringFrom]
    rw [List.cons_append, ← ih _ h1 (by omega), e]
    congr 1
    rw [← e, List.getD_eq_getElem?_getD, List.getD_eq_getElem?_getD, List.getElem?_set_ne hne]

theorem ringCount_head (n head tail : Nat) (hh : head < n) (ht : tail < n) :
    (tail + ringCount n head tail) % n = head := by
  rw [ringCount_cases n head tail hh ht]
  split_ifs with h
  · rw [Nat.mod_eq_of_lt (by omega)]; omega
  · have e : tail + (head + n - tail) = head + n := by omega
    rw [e, Nat.add_mod_right]; exact Nat.mod_eq_of_lt hh

theorem ringContents_empty {α : Type} (d : α) (buf : List α) (t : Nat) (ht : t < buf.length) :
    ringContents d buf t t = [] := by
  simp [ringContents, ringCount_self _ _ ht, ringFrom]

/-- Reading at `tail` and advancing `tail` takes the oldest queued element. -/
theorem ringContents_pop {α : Type} (d : α) (buf : List α) (head tail : Nat)
    (hh : head < buf.length) (ht : tail < buf.length) (hne : head ≠ tail) :
    ringContents d buf head tail =
      buf.getD tail d :: ringContents d buf head ((tail + 1) % buf.length) := by
  unfold ringContents
  rw [ringCount_pop _ _ _ hh ht hne, ringFrom]

/-- Writing at `head` and advancing `head`, when that does not reach `tail`,
appends the element to the queued ones. -/
theorem ringContents_push {α : Type} (d : α) (buf : List α) (head tail : Nat) (x : α)
    (hh : head < buf.length) (ht : tail < buf.length)
    (hroom : (head + 1) % buf.length ≠ tail) :
    ringContents d (buf.set head x) ((head + 1) % buf.length) tail =
      ringContents d buf head tail ++ [x] := by
  unfold ringContents
  rw [List.length_set, ringCount_push _ _ _ hh ht hroom]
  have h1 := ringCount_head _ _ _ hh ht
  have h2 := ringCount_lt _ _ _ hh ht
  have h3 := ringFrom_set d buf x (ringCount buf.length head tail) tail ht (by omega)
  rw [h1] at h3
  exact h3

theorem ringContents_length {α : Type} (d : α) (buf : List α) (head tail : Nat) :
    (ringContents d buf head tail).length = ringCount buf.length head tail := by
  unfold ringContents
  generalize ringCount buf.length head tail = c
  induction c generalizing tail with
  | zero => rfl
  | succ c ih => simp [ringFrom, ih]

/-! ## The byte ring between `MIDIUART_writeMessage` and the interrupt handler -/

/-- The handler on an empty ring only sets `txidle`. -/
theorem IntHandler_empty (port : midiport_t) (hw : txhw_t)
    (he : port.txfifohead = port.txfifotail) :
    MIDIUART7_IntHandler port hw =
      ({ port with txidle := 1 }, { hw with txint := false, uartIntEnabled := true }) := by
  unfold MIDIUART7_IntHandler
  simp [he]

/-- One step of the transmit side: the bytes transmitted by the step followed
by the ring afterwards are the ring before followed by the byte enqueued. -/
theorem txStep_inv (s : midiport_t × txhw_t) (ev : txEvent)
    (hh : s.1.txfifohead < 64) (ht : s.1.txfifotail < 64) (hl : s.1.txmsgfifo.length = 64) :
    (txStep s ev).1.txfifohead < 64 ∧ (txStep s ev).1.txfifotail < 64 ∧
    (txStep s ev).1.txmsgfifo.length = 64 ∧
    ∃ sent, (txStep s ev).2.txdata = s.2.txdata ++ sent ∧
      txRing s.1 ++ txEnqueued s [ev] = sent ++ txRing (txStep s ev).1 := by
  cases ev with
  | enqueue b =>
    by_cases hroom : (s.1.txfifohead + 1) % 64 = s.1.txfifotail
    · have h := writeMessage_iter_full { port := s.1, hw := s.2, msg := [b], msize := 1 } hroom
      simp only [txStep, txEnqueued, h]
      exact ⟨hh, ht, hl, [], by simp, by simp⟩
    · have h := writeMessage_iter_room { port := s.1, hw := s.2, msg := [b], msize := 1 } hh hroom
      simp only [txStep, txEnqueued, h, List.length_set]
      refine ⟨Nat.mod_lt _ (by decide), ht, hl, [], by simp, ?_⟩
      have hp := ringContents_push (0 : Nat) s.1.txmsgfifo s.1.txfifohead s.1.txfifotail (b % 256)
        (by rw [hl]; exact hh) (by rw [hl]; exact ht) (by rw [hl]; exact hroom)
      rw [hl] at hp
      simp only [txRing, List.headD_cons, List.nil_append, hp]
      simp
  | isr =>
    by_cases he : s.1.txfifohead = s.1.txfifotail
    · simp only [txStep, txEnqueued, IntHandler_empty _ _ he]
      exact ⟨hh, ht, hl, [], by simp, by simp [txRing]⟩
    · simp only [txStep, txEnqueued, IntHandler_nonempty _ _ ht he]
      refine ⟨hh, Nat.mod_lt _ (by decide), hl, [s.1.txmsgfifo.getD s.1.txfifotail 0], rfl, ?_⟩
      have hp := ringContents_pop (0 : Nat) s.1.txmsgfifo s.1.txfifohead s.1.txfifotail
        (by rw [hl]; exact hh) (by rw [hl]; exact ht) he
      rw [hl] at hp
      simp only [txRing, hp]
      simp

theorem txEnqueued_cons (s : midiport_t × txhw_t) (ev : txEvent) (evs : List txEvent) :
    txEnqueued s (ev :: evs) = txEnqueued s [ev] ++ txEnqueued (txStep s ev) evs := by
  cases ev <;> simp [txEnqueued]

/-- Along any sequence of steps the bytes transmitted, followed by the ring at
the end, are the ring at the start followed by the bytes enqueued. -/
theorem txRun_inv (evs : List txEvent) : ∀ (s : midiport_t × txhw_t),
    s.1.txfifohead < 64 → s.1.txfifotail < 64 → s.1.txmsgfifo.length = 64 →
    ∃ sent, (txRun s evs).2.txdata = s.2.txdata ++ sent ∧
      txRing s.1 ++ txEnqueued s evs = sent ++ txRing (txRun s evs).1 := by
  induction evs with
  | nil => intro s _ _ _; exact ⟨[], by simp [txRun], by simp [txRun, txEnqueued]⟩
  | cons ev evs ih =>
    intro s hh ht hl
    obtain ⟨a1, a2, a3, sent1, a4, a5⟩ := txStep_inv s ev hh ht hl
    obtain ⟨sent2, b1, b2⟩ := ih (txStep s ev) a1 a2 a3
    refine ⟨sent1 ++ sent2, ?_, ?_⟩
    · show (txRun (txStep s ev) evs).2.txdata = _
      rw [b1, a4]; simp
    · show _ = _ ++ txRing (txRun (txStep s ev) evs).1
      rw [txEnqueued_cons, ← List.append_assoc, a5, List.append_assoc, b2]; simp

theorem IntHandler_runs_idle (n : Nat) : ∀ (port : midiport_t) (hw : txhw_t),
    port.txfifohead = port.txfifotail → port.txidle = 1 → hw.txint = false →
    hw.uartIntEnabled = true → MIDIUART7_IntHandler_runs n (port, hw) = (port, hw) := by
  induction n with
  | zero => intro port hw _ _ _ _; rfl
  | succ n ih =>
    intro port hw he hi h1 h2
    have e : MIDIUART7_IntHandler port hw = (port, hw) := by
      rw [IntHandler_empty port hw he]
      cases port; cases hw; simp_all
    rw [MIDIUART7_IntHandler_runs, e]
    exact ih port hw he hi h1 h2

theorem IntHandler_runs_add (m : Nat) : ∀ (n : Nat) (s : midiport_t × txhw_t),
    MIDIUART7_IntHandler_runs (m + n) s =
      MIDIUART7_IntHandler_runs n (MIDIUART7_IntHandler_runs m s) := by
  induction m with
  | zero => intro n s; simp [MIDIUART7_IntHandler_runs]
  | succ m ih =>
    intro n s
    rw [show m + 1 + n = (m + n) + 1 by omega, MIDIUART7_IntHandler_runs, ih,
      MIDIUART7_IntHandler_runs]

theorem IntHandler_runs_succ (n : Nat) (s : midiport_t × txhw_t) :
    MIDIUART7_IntHandler_runs (n + 1) s =
      MIDIUART7_IntHandler (MIDIUART7_IntHandler_runs n s).1 (MIDIUART7_IntHandler_runs n s).2 := by
  rw [IntHandler_runs_add n 1 s]; rfl

theorem IntHandler_pop_facts (port : midiport_t) (hw : txhw_t) (ht : port.txfifotail < 63)
    (hne : port.txfifohead ≠ port.txfifotail) :
    (MIDIUART7_IntHandler port hw).1.txfifohead = port.txfifohead ∧
    (MIDIUART7_IntHandler port hw).1.txfifotail = port.txfifotail + 1 ∧
    (MIDIUART7_IntHandler port hw).1.txmsgfifo = port.txmsgfifo ∧
    (MIDIUART7_IntHandler port hw).2.txdata =
      hw.txdata ++ [port.txmsgfifo.getD port.txfifotail 0] := by
  rw [IntHandler_nonempty port hw (by omega) hne]
  exact ⟨rfl, Nat.mod_eq_of_lt (by omega), rfl, rfl⟩

/-- Handler runs on a ring holding three bytes: run `k` of the first three
transmits byte `k`, the fourth finds the ring empty and sets `txidle`, and
later runs change nothing. -/
theorem IntHandler_runs_three (port : midiport_t) (hw : txhw_t) (x0 x1 x2 : Nat)
    (hh : port.txfifohead = 3) (ht : port.txfifotail = 0)
    (g0 : port.txmsgfifo.getD 0 0 = x0) (g1 : port.txmsgfifo.getD 1 0 = x1)
    (g2 : port.txmsgfifo.getD 2 0 = x2) :
    (∀ k, k ≤ 3 →
      (MIDIUART7_IntHandler_runs k (port, hw)).2.txdata = hw.txdata ++ [x0, x1, x2].take k) ∧
    (∀ n, 4 ≤ n →
      (MIDIUART7_IntHandler_runs n (port, hw)).2.txdata = hw.txdata ++ [x0, x1, x2] ∧
      (MIDIUART7_IntHandler_runs n (port, hw)).1.txidle = 1 ∧
      (MIDIUART7_IntHandler_runs n (port, hw)).1.txfifohead =
        (MIDIUART7_IntHandler_runs n (port, hw)).1.txfifotail) := by
  have p0 : (MIDIUART7_IntHandler_runs 0 (port, hw)).1.txfifohead = 3 ∧
      (MIDIUART7_IntHandler_runs 0 (port, hw)).1.txfifotail = 0 ∧
      (MIDIUART7_IntHandler_runs 0 (port, hw)).1.txmsgfifo = port.txmsgfifo ∧
      (MIDIUART7_IntHandler_runs 0 (port, hw)).2.txdata = hw.txdata := ⟨hh, ht, rfl, rfl⟩
  have p1 : (MIDIUART7_IntHandler_runs 1 (port, hw)).1.txfifohead = 3 ∧
      (MIDIUART7_IntHandler_runs 1 (port, hw)).1.txfifotail = 1 ∧
      (MIDIUART7_IntHandler_runs 1 (port, hw)).1.txmsgfifo = port.txmsgfifo ∧
      (MIDIUART7_IntHandler_runs 1 (port, hw)).2.txdata = hw.txdata ++ [x0] := by
    obtain ⟨a1, a2, a3, a4⟩ := p0
    obtain ⟨c1, c2, c3, c4⟩ := IntHandler_pop_facts (MIDIUART7_IntHandler_runs 0 (port, hw)).1
      (MIDIUART7_IntHandler_runs 0 (port, hw)).2 (by omega) (by omega)
    rw [IntHandler_runs_succ]
    exact ⟨by rw [c1, a1], by rw [c2, a2], by rw [c3, a3], by rw [c4, a4, a3, a2, g0]⟩
  have p2 : (MIDIUART7_IntHandler_runs 2 (port, hw)).1.txfifohead = 3 ∧
      (MIDIUART7_IntHandler_runs 2 (port, hw)).1.txfifotail = 2 ∧
      (MIDIUART7_IntHandler_runs 2 (port, hw)).1.txmsgfifo = port.txmsgfifo ∧
      (MIDIUART7_IntHandler_runs 2 (port, hw)).2.txdata = hw.txdata ++ [x0, x1] := by
    obtain ⟨a1, a2, a3, a4⟩ := p1
    obtain ⟨c1, c2, c3, c4⟩ := IntHandler_pop_facts (MIDIUART7_IntHandler_runs 1 (port, hw)).1
      (MIDIUART7_IntHandler_runs 1 (port, hw)).2 (by omega) (by omega)
    rw [IntHandler_runs_succ]
    exact ⟨by rw [c1, a1], by rw [c2, a2], by rw [c3, a3], by rw [c4, a4, a3, a2, g1]; simp⟩
  have p3 : (MIDIUART7_IntHandler_runs 3 (port, hw)).1.txfifohead = 3 ∧
      (MIDIUART7_IntHandler_runs 3 (port, hw)).1.txfifotail = 3 ∧
      (MIDIUART7_IntHandler_runs 3 (port, hw)).1.txmsgfifo = port.txmsgfifo ∧
      (MIDIUART7_IntHandler_runs 3 (port, hw)).2.txdata = hw.txdata ++ [x0, x1, x2] := by
    obtain ⟨a1, a2, a3, a4⟩ := p2
    obtain ⟨c1, c2, c3, c4⟩ := IntHandler_pop_facts (MIDIUART7_IntHandler_runs 2 (port, hw)).1
      (MIDIUART7_IntHandler_runs 2 (port, hw)).2 (by omega) (by omega)
    rw [IntHandler_runs_succ]
    exact ⟨by rw [c1, a1], by rw [c2, a2], by rw [c3, a3], by rw [c4, a4, a3, a2, g2]; simp⟩
  constructor
  · intro k hk
    interval_cases k
    · simpa using p0.2.2.2
    · simpa using p1.2.2.2
    · simpa using p2.2.2.2
    · simpa using p3.2.2.2
  · intro n hn
    obtain ⟨m, rfl⟩ : ∃ m, n = 4 + m := ⟨n - 4, by omega⟩
    obtain ⟨a1, a2, a3, a4⟩ := p3
    have e4 := IntHandler_empty (MIDIUART7_IntHandler_runs 3 (port, hw)).1
      (MIDIUART7_IntHandler_runs 3 (port, hw)).2 (by rw [a1, a2])
    rw [← IntHandler_runs_succ] at e4
    rw [IntHandler_runs_add, e4, IntHandler_runs_idle m _ _ (by show _ = _; rw [a1, a2]) rfl rfl rfl]
    exact ⟨a4, rfl, by show _ = _; rw [a1, a2]⟩

/-- Claim C13: `MIDIUART7_IntHandler` on an empty ring sets `txidle` to 1,
transmits nothing and leaves the tail where it is; otherwise it clears
`txidle`, writes the byte at the tail to the UART and advances the tail modulo
64; in both cases the UART interrupt line is enabled on return. -/
theorem int_handler_step (port : midiport_t) (hw : txhw_t) (ht : port.txfifotail < MIDI_TX_FIFO_SIZE) :
    (port.txfifohead = port.txfifotail →
      MIDIUART7_IntHandler port hw =
        ({ port with txidle := 1 }, { hw with txint := false, uartIntEnabled := true })) ∧
    (port.txfifohead ≠ port.txfifotail →
      MIDIUART7_IntHandler port hw =
        ({ port with txidle := 0,
                     txfifotail := (port.txfifotail + 1) % MIDI_TX_FIFO_SIZE },
         { hw with txint := false, uartIntEnabled := true,
                   txdata := hw.txdata ++ [port.txmsgfifo.getD port.txfifotail 0] })) ∧
    (MIDIUART7_IntHandler port hw).2.uartIntEnabled = true :=
  ⟨IntHandler_empty port hw, IntHandler_nonempty port hw ht, rfl⟩

/-- Claim C14: one iteration of the loop of `MIDIUART_writeMessage`: with room
in the ring it stores the next message byte at the old head, advances the head
modulo 64, decrements the remaining count, and issues the software trigger
exactly when `txidle` is set; with the ring full it changes nothing. -/
theorem enqueue_step (s : writeState) (hh : s.port.txfifohead < MIDI_TX_FIFO_SIZE)
    (hm1 : 0 < s.msize) (hm2 : s.msize < 256) :
    ((s.port.txfifohead + 1) % MIDI_TX_FIFO_SIZE ≠ s.port.txfifotail →
      writeMessage_iter s =
        { port := { s.port with
                    txmsgfifo := s.port.txmsgfifo.set s.port.txfifohead (s.msg.headD 0 % 256)
                    txfifohead := (s.port.txfifohead + 1) % MIDI_TX_FIFO_SIZE },
          hw := { s.hw with swtrig := s.hw.swtrig || decide (s.port.txidle ≠ 0) },
          msg := s.msg.tail,
          msize := s.msize - 1 } ∧
      (s.hw.swtrig = false →
        ((writeMessage_iter s).hw.swtrig = true ↔ s.port.txidle ≠ 0))) ∧
    ((s.port.txfifohead + 1) % MIDI_TX_FIFO_SIZE = s.port.txfifotail →
      writeMessage_iter s = s) := by
  have em : (s.msize + 255) % 256 = s.msize - 1 := by omega
  refine ⟨fun hroom => ?_, writeMessage_iter_full s⟩
  have h := writeMessage_iter_room s hh hroom
  rw [em] at h
  refine ⟨h, fun h0 => ?_⟩
  rw [h]
  simp [h0]

/-- Claim C11: for every interleaving of enqueue iterations and handler runs
from the state left by `MIDIUART_Init`, the bytes written to the UART transmit
register since then are a first part `sent` of the bytes enqueued, and the
bytes in the ring from tail to head are exactly the rest, in order. -/
theorem transmit_fifo_order (port0 : midiport_t) (uartbase intnum cablenum : Nat) (hw : txhw_t)
    (evs : List txEvent) (hlen : port0.txmsgfifo.length = MIDI_TX_FIFO_SIZE) :
    ∃ sent,
      (txRun (MIDIUART_Init port0 uartbase intnum cablenum, hw) evs).2.txdata =
        hw.txdata ++ sent ∧
      txEnqueued (MIDIUART_Init port0 uartbase intnum cablenum, hw) evs =
        sent ++ txRing (txRun (MIDIUART_Init port0 uartbase intnum cablenum, hw) evs).1 := by
  obtain ⟨sent, h1, h2⟩ := txRun_inv evs (MIDIUART_Init port0 uartbase intnum cablenum, hw)
    (by simp [MIDIUART_Init]) (by simp [MIDIUART_Init]) (by simpa [MIDIUART_Init] using hlen)
  refine ⟨sent, h1, ?_⟩
  rw [← h2]
  have : txRing (MIDIUART_Init port0 uartbase intnum cablenum) = [] := by
    simp [txRing, MIDIUART_Init, ringContents, ringCount, hlen, MIDI_TX_FIFO_SIZE, ringFrom]
  simp [this]

/-- Claim C12: from the state left by `MIDIUART_Init` (`txidle` = 1),
`MIDIUART_writeMessage` with a three-byte message returns after three
iterations having issued the software trigger and transmitted nothing; the
first three handler runs then write `b0`, `b1`, `b2` to the UART in this
order, and after four or more runs exactly these three bytes have been
written, `txidle` is 1 again and the ring is empty. -/
theorem end_to_end_transmit (port0 : midiport_t) (uartbase intnum cablenum : Nat) (hw : txhw_t)
    (b0 b1 b2 : Nat) (h0 : b0 < 256) (h1 : b1 < 256) (h2 : b2 < 256)
    (hlen : port0.txmsgfifo.length = MIDI_TX_FIFO_SIZE) :
    (MIDIUART_Init port0 uartbase intnum cablenum).txidle = 1 ∧
    ∃ s, MIDIUART_writeMessage_fuel 3
        { port := MIDIUART_Init port0 uartbase intnum cablenum, hw := hw,
          msg := [b0, b1, b2], msize := 3 } = some s ∧
      s.msize = 0 ∧ s.hw.txdata = hw.txdata ∧ s.hw.swtrig = true ∧ s.port.txidle = 1 ∧
      (∀ k, k ≤ 3 →
        (MIDIUART7_IntHandler_runs k (s.port, s.hw)).2.txdata =
          hw.txdata ++ [b0, b1, b2].take k) ∧
      (∀ n, 4 ≤ n →
        (MIDIUART7_IntHandler_runs n (s.port, s.hw)).2.txdata = hw.txdata ++ [b0, b1, b2] ∧
        (MIDIUART7_IntHandler_runs n (s.port, s.hw)).1.txidle = 1 ∧
        (MIDIUART7_IntHandler_runs n (s.port, s.hw)).1.txfifohead =
          (MIDIUART7_IntHandler_runs n (s.port, s.hw)).1.txfifotail) := by
  have hl : port0.txmsgfifo.length = 64 := hlen
  have e0 : b0 % 256 = b0 := Nat.mod_eq_of_lt h0
  have e1 : b1 % 256 = b1 := Nat.mod_eq_of_lt h1
  have e2 : b2 % 256 = b2 := Nat.mod_eq_of_lt h2
  have hs : MIDIUART_writeMessage_fuel 3
        { port := MIDIUART_Init port0 uartbase intnum cablenum, hw := hw,
          msg := [b0, b1, b2], msize := 3 } =
      some { port := { MIDIUART_Init port0 uartbase intnum cablenum with
                       txmsgfifo := ((port0.txmsgfifo.set 0 b0).set 1 b1).set 2 b2,
                       txfifohead := 3 },
             hw := { hw with swtrig := true }, msg := [], msize := 0 } := by
    cases hm : hw.masterDisabled <;>
      simp [MIDIUART_writeMessage_fuel, writeMessage_iter, MIDIUART_Init, MIDI_TX_FIFO_SIZE, hm,
        e0, e1, e2]
  have g0 : (((port0.txmsgfifo.set 0 b0).set 1 b1).set 2 b2).getD 0 0 = b0 := by
    simp [List.getD_eq_getElem?_getD, List.getElem?_set, hl]
  have g1 : (((port0.txmsgfifo.set 0 b0).set 1 b1).set 2 b2).getD 1 0 = b1 := by
    simp [List.getD_eq_getElem?_getD, List.getElem?_set, hl]
  have g2 : (((port0.txmsgfifo.set 0 b0).set 1 b1).set 2 b2).getD 2 0 = b2 := by
    simp [List.getD_eq_getElem?_getD, List.getElem?_set, hl]
  obtain ⟨q1, q2⟩ := IntHandler_runs_three
    { MIDIUART_Init port0 uartbase intnum cablenum with
        txmsgfifo := ((port0.txmsgfifo.set 0 b0).set 1 b1).set 2 b2, txfifohead := 3 }
    { hw with swtrig := true } b0 b1 b2 rfl rfl g0 g1 g2
  exact ⟨rfl, _, hs, rfl, rfl, rfl, rfl, q1, q2⟩

/-! ## The packet rings and the USB callbacks -/

theorem fifo_pop_empty (f : USBMIDIFIFO_t) (h : f.head = f.tail) : USBMIDIFIFO_Pop f = none := by
  simp [USBMIDIFIFO_Pop, h]

theorem fifo_pop_nonempty (f : USBMIDIFIFO_t) (hw : fifoWf f) (h : f.head ≠ f.tail) :
    ∃ m f2, USBMIDIFIFO_Pop f = some (f2, m) ∧ fifoContents f = m :: fifoContents f2 ∧
      fifoWf f2 ∧ f2.head = f.head ∧ f2.fifo = f.fifo ∧
      ringCount f.fifo.length f.head f.tail = ringCount f2.fifo.length f2.head f2.tail + 1 := by
  obtain ⟨hh, ht⟩ := hw
  refine ⟨f.fifo.getD f.tail ⟨0, 0, 0, 0⟩, { f with tail := (f.tail + 1) % f.fifo.length }, ?_, ?_,
    ⟨hh, Nat.mod_lt _ (by omega)⟩, rfl, rfl, ?_⟩
  · simp [USBMIDIFIFO_Pop, h]
  · exact ringContents_pop _ _ _ _ hh ht h
  · exact ringCount_pop _ _ _ hh ht h

theorem fifo_push (f : USBMIDIFIFO_t) (m : USBMIDI_Message_t) (hw : fifoWf f)
    (hroom : (f.head + 1) % f.fifo.length ≠ f.tail) :
    fifoContents (USBMIDIFIFO_Push f m) = fifoContents f ++ [m] ∧
    fifoWf (USBMIDIFIFO_Push f m) ∧
    (USBMIDIFIFO_Push f m).fifo.length = f.fifo.length := by
  obtain ⟨hh, ht⟩ := hw
  refine ⟨?_, ⟨?_, ?_⟩, ?_⟩
  · have := ringContents_push (⟨0, 0, 0, 0⟩ : USBMIDI_Message_t) f.fifo f.head f.tail m hh ht hroom
    simpa [fifoContents, USBMIDIFIFO_Push] using this
  · simp only [USBMIDIFIFO_Push, List.length_set]; exact Nat.mod_lt _ (by omega)
  · simpa [USBMIDIFIFO_Push] using ht
  · simp [USBMIDIFIFO_Push]

theorem fifoContents_empty (f : USBMIDIFIFO_t) (hw : fifoWf f) (h : f.head = f.tail) :
    fifoContents f = [] := by
  unfold fifoContents
  rw [h]
  exact ringContents_empty _ _ _ hw.2

theorem fifoContents_length (f : USBMIDIFIFO_t) :
    (fifoContents f).length = ringCount f.fifo.length f.head f.tail :=
  ringContents_length _ _ _ _

/-- When the queued packets fit the array from `epb` on, the copy loop of the
transmit callback pops every one of them, stores them in order from `epb` on
and counts four bytes for each. -/
theorem TxXfer_loop_spec (c : Nat) : ∀ (f : USBMIDIFIFO_t) (buf : List USBMIDI_Message_t)
    (epb bytecnt fuel : Nat), fifoWf f → ringCount f.fifo.length f.head f.tail = c →
    bytecnt < 2 ^ 32 → c < fuel → epb + c ≤ buf.length →
    TxXfer_loop fuel f buf epb bytecnt =
      txLoopOutcome.done
        { fifo := { f with tail := f.head },
          InEpBuf := storeList buf epb (fifoContents f),
          epb := epb + c,
          bytecnt := (bytecnt + 4 * c) % 2 ^ 32 } := by
  induction c with
  | zero =>
    intro f buf epb bytecnt fuel hw hc hb hf _
    obtain ⟨n, rfl⟩ : ∃ n, fuel = n + 1 := ⟨fuel - 1, by omega⟩
    have he : f.head = f.tail := (ringCount_eq_zero _ _ _ hw.1 hw.2).1 hc
    rw [TxXfer_loop, fifo_pop_empty f he, fifoContents_empty f hw he]
    simp only [storeList, Nat.add_zero, Nat.mul_zero, Nat.mod_eq_of_lt hb]
    congr 2
    cases f; simp_all
  | succ c ih =>
    intro f buf epb bytecnt fuel hw hc hb hf hfit
    obtain ⟨n, rfl⟩ : ∃ n, fuel = n + 1 := ⟨fuel - 1, by omega⟩
    have hne : f.head ≠ f.tail := by
      intro he
      rw [(ringCount_eq_zero _ _ _ hw.1 hw.2).2 he] at hc
      omega
    have hin : epb < buf.length := by omega
    obtain ⟨m, f2, hp, hcont, hw2, hh2, hb2, hc2⟩ := fifo_pop_nonempty f hw hne
    rw [TxXfer_loop, hp]
    simp only [hin, if_true]
    rw [ih f2 _ _ _ n hw2 (by omega) (Nat.mod_lt _ (by decide)) (by omega)
      (by rw [List.length_set]; omega), hcont, hh2]
    simp only [storeList]
    congr 2
    · cases f; cases f2; simp_all
    · omega
    · omega

/-- With more packets queued than the array has room for from `epb` on, the
loop reaches a store at the index just past the end of the array, with the
first packet that does not fit. -/
theorem TxXfer_loop_overrun (k : Nat) : ∀ (f : USBMIDIFIFO_t) (buf : List USBMIDI_Message_t)
    (epb bytecnt fuel : Nat), fifoWf f → epb + k = buf.length →
    k < ringCount f.fifo.length f.head f.tail → k < fuel →
    TxXfer_loop fuel f buf epb bytecnt =
      txLoopOutcome.overrun buf.length ((fifoContents f).getD k ⟨0, 0, 0, 0⟩) := by
  induction k with
  | zero =>
    intro f buf epb bytecnt fuel hw he hc hf
    obtain ⟨n, rfl⟩ : ∃ n, fuel = n + 1 := ⟨fuel - 1, by omega⟩
    have hne : f.head ≠ f.tail := by
      intro h
      rw [(ringCount_eq_zero _ _ _ hw.1 hw.2).2 h] at hc
      omega
    have hin : ¬ epb < buf.length := by omega
    obtain ⟨m, f2, hp, hcont, _, _, _, _⟩ := fifo_pop_nonempty f hw hne
    rw [TxXfer_loop, hp]
    simp only [hin, if_false, hcont]
    have e : epb = buf.length := by omega
    rw [e]
    rfl
  | succ k ih =>
    intro f buf epb bytecnt fuel hw he hc hf
    obtain ⟨n, rfl⟩ : ∃ n, fuel = n + 1 := ⟨fuel - 1, by omega⟩
    have hne : f.head ≠ f.tail := by
      intro h
      rw [(ringCount_eq_zero _ _ _ hw.1 hw.2).2 h] at hc
      omega
    have hin : epb < buf.length := by omega
    obtain ⟨m, f2, hp, hcont, hw2, _, _, hc2⟩ := fifo_pop_nonempty f hw hne
    rw [TxXfer_loop, hp]
    simp only [hin, if_true]
    rw [ih f2 _ _ _ n hw2 (by rw [List.length_set]; omega) (by omega) (by omega), hcont,
      List.length_set]
    rfl

/-- With more packets queued than the array has room for, the loop is never
`done`, whatever the number of iterations allowed. -/
theorem TxXfer_loop_not_done (fuel : Nat) : ∀ (f : USBMIDIFIFO_t)
    (buf : List USBMIDI_Message_t) (epb bytecnt : Nat) (r : txLoopResult), fifoWf f →
    epb ≤ buf.length → buf.length < epb + ringCount f.fifo.length f.head f.tail →
    TxXfer_loop fuel f buf epb bytecnt ≠ txLoopOutcome.done r := by
  induction fuel with
  | zero =>
    intro f buf epb bytecnt r _ _ _
    rw [TxXfer_loop]
    exact fun h => txLoopOutcome.noConfusion h
  | succ n ih =>
    intro f buf epb bytecnt r hw he hc
    have hne : f.head ≠ f.tail := by
      intro h
      rw [(ringCount_eq_zero _ _ _ hw.1 hw.2).2 h] at hc
      omega
    obtain ⟨m, f2, hp, _, hw2, _, _, hc2⟩ := fifo_pop_nonempty f hw hne
    rw [TxXfer_loop, hp]
    by_cases hin : epb < buf.length
    · simp only [hin, if_true]
      exact ih f2 _ _ _ r hw2 (by rw [List.length_set]; omega)
        (by rw [List.length_set]; omega)
    · simp only [hin, if_false]
      exact fun h => txLoopOutcome.noConfusion h

theorem storeList_length (l : List USBMIDI_Message_t) : ∀ (buf : List USBMIDI_Message_t) (i : Nat),
    (storeList buf i l).length = buf.length := by
  induction l with
  | nil => intro buf i; rfl
  | cons m ms ih => intro buf i; simp [storeList, ih]

theorem storeList_take (l : List USBMIDI_Message_t) : ∀ (buf : List USBMIDI_Message_t) (i : Nat),
    i + l.length ≤ buf.length → (storeList buf i l).take (i + l.length) = buf.take i ++ l := by
  induction l with
  | nil => intro buf i _; simp [storeList]
  | cons m ms ih =>
    intro buf i h
    simp only [List.length_cons] at h
    have h1 : i + (ms.length + 1) = (i + 1) + ms.length := by omega
    have hi : i < buf.length := by omega
    simp only [storeList, List.length_cons]
    rw [h1, ih _ _ (by rw [List.length_set]; omega)]
    have e : buf.set i m = (buf.take i ++ [m]) ++ buf.drop (i + 1) := by
      rw [List.set_eq_take_append_cons_drop, if_pos hi]; simp
    have e2 : (buf.set i m).take (i + 1) = buf.take i ++ [m] := by
      rw [e]
      exact List.take_left' (by simp; omega)
    rw [e2]; simp

theorem storeList_take_zero (l buf : List USBMIDI_Message_t) (h : l.length ≤ buf.length) :
    (storeList buf 0 l).take l.length = l := by
  have := storeList_take l buf 0 (by omega)
  simpa using this

/-- The copy loop of the receive callback, entered with `4 * k` bytes, pushes
the `k` packets from `epb` on, in order. -/
theorem RxXfer_loop_spec (k : Nat) : ∀ (f : USBMIDIFIFO_t) (buf : List USBMIDI_Message_t)
    (epb fuel : Nat), epb + k ≤ buf.length → 4 * k < 2 ^ 32 → k ≤ fuel →
    RxXfer_loop fuel f buf epb (4 * k) =
      some (((buf.drop epb).take k).foldl USBMIDIFIFO_Push f) := by
  induction k with
  | zero => intro f buf epb fuel _ _ _; cases fuel <;> simp [RxXfer_loop]
  | succ k ih =>
    intro f buf epb fuel h1 h2 h3
    obtain ⟨n, rfl⟩ : ∃ n, fuel = n + 1 := ⟨fuel - 1, by omega⟩
    have hx : ¬ 4 * (k + 1) = 0 := by omega
    have hs : (4 * (k + 1) + 2 ^ 32 - 4) % 2 ^ 32 = 4 * k := by omega
    have hd : buf.drop epb = buf.getD epb ⟨0, 0, 0, 0⟩ :: buf.drop (epb + 1) := by
      have hlt : epb < buf.length := by omega
      rw [List.drop_eq_getElem_cons hlt, List.getD_eq_getElem?_getD,
        List.getElem?_eq_getElem hlt]
      rfl
    rw [RxXfer_loop]
    simp only [hx, if_false, hs]
    rw [ih _ _ _ _ (by omega) (by omega) (by omega), hd]
    simp

/-- Pushing a list of packets into a ring with room for them appends them to
the queued packets. -/
theorem fifo_push_list (l : List USBMIDI_Message_t) : ∀ (f : USBMIDIFIFO_t), fifoWf f →
    ringCount f.fifo.length f.head f.tail + l.length < f.fifo.length →
    fifoContents (l.foldl USBMIDIFIFO_Push f) = fifoContents f ++ l ∧
    fifoWf (l.foldl USBMIDIFIFO_Push f) ∧
    (l.foldl USBMIDIFIFO_Push f).fifo.length = f.fifo.length := by
  induction l with
  | nil => intro f hw _; simp [hw]
  | cons m ms ih =>
    intro f hw hc
    simp only [List.length_cons] at hc
    have hroom : (f.head + 1) % f.fifo.length ≠ f.tail := by
      intro h
      have := (ringCount_full _ _ _ hw.1 hw.2).1 h
      omega
    obtain ⟨p1, p2, p3⟩ := fifo_push f m hw hroom
    have hcnt : ringCount (USBMIDIFIFO_Push f m).fifo.length (USBMIDIFIFO_Push f m).head
        (USBMIDIFIFO_Push f m).tail = ringCount f.fifo.length f.head f.tail + 1 := by
      rw [← fifoContents_length, p1, List.length_append, fifoContents_length]; rfl
    obtain ⟨q1, q2, q3⟩ := ih (USBMIDIFIFO_Push f m) p2 (by rw [hcnt, p3]; omega)
    simp only [List.foldl_cons]
    exact ⟨by rw [q1, p1]; simp, q2, by rw [q3, p3]⟩

/-- The transmit callback with status OK in closed form. -/
theorem TxXferCompleteCb_spec (st : usbmidi_t) (fuel xferred remaining : Nat)
    (hw : fifoWf st.txmsgfifo) (hN : st.txmsgfifo.fifo.length < 2 ^ 30)
    (hf : (fifoContents st.txmsgfifo).length < fuel)
    (hfit : (fifoContents st.txmsgfifo).length ≤ st.InEpBuf.length) :
    USBMIDI_TxXferCompleteCb fuel st USB_STATUS_OK xferred remaining =
      some ({ st with
              txmsgfifo := { st.txmsgfifo with tail := st.txmsgfifo.head },
              InEpBuf := storeList st.InEpBuf 0 (fifoContents st.txmsgfifo),
              usbd :=
                if (fifoContents st.txmsgfifo).length ≠ 0 then
                  USBD_Write st.usbd (storeList st.InEpBuf 0 (fifoContents st.txmsgfifo))
                    (4 * (fifoContents st.txmsgfifo).length) usbCallback.TxXferCompleteCb
                else st.usbd },
            USB_STATUS_OK) := by
  rw [fifoContents_length] at hf hfit ⊢
  have hc := ringCount_lt _ _ _ hw.1 hw.2
  have h := TxXfer_loop_spec _ st.txmsgfifo st.InEpBuf 0 0 fuel hw rfl (by decide) hf
    (by omega)
  have hm : (0 + 4 * ringCount st.txmsgfifo.fifo.length st.txmsgfifo.head st.txmsgfifo.tail)
      % 2 ^ 32 = 4 * ringCount st.txmsgfifo.fifo.length st.txmsgfifo.head st.txmsgfifo.tail := by
    rw [Nat.zero_add]; exact Nat.mod_eq_of_lt (by omega)
  simp only [USBMIDI_TxXferCompleteCb, if_true, h, hm]
  by_cases hz : ringCount st.txmsgfifo.fifo.length st.txmsgfifo.head st.txmsgfifo.tail = 0
  · simp [hz]
  · have hz4 : ¬ 4 * ringCount st.txmsgfifo.fifo.length st.txmsgfifo.head st.txmsgfifo.tail = 0 := by
      omega
    simp [hz, hz4]

theorem handedPackets_write (u : usbd_t) (buf : List USBMIDI_Message_t) (n : Nat)
    (cb : usbCallback) :
    handedPackets (USBD_Write u buf (4 * n) cb) = handedPackets u ++ buf.take n := by
  simp [handedPackets, USBD_Write, Nat.mul_div_cancel_left _ (by decide : 0 < 4)]

/-- What the transmit callback with status OK does when the queued packets
fit `InEpBuf`: the ring is empty afterwards, the receive side is untouched,
one `USBD_Write` is issued exactly when a packet was queued, and the packets
are at the start of `InEpBuf`. -/
theorem TxXferCompleteCb_drain (st : usbmidi_t) (fuel xferred remaining : Nat)
    (hw : fifoWf st.txmsgfifo) (hN : st.txmsgfifo.fifo.length < 2 ^ 30)
    (hf : (fifoContents st.txmsgfifo).length < fuel)
    (hfit : (fifoContents st.txmsgfifo).length ≤ st.InEpBuf.length) :
    ∃ st2, USBMIDI_TxXferCompleteCb fuel st USB_STATUS_OK xferred remaining =
        some (st2, USB_STATUS_OK) ∧
      fifoWf st2.txmsgfifo ∧ st2.txmsgfifo.fifo.length = st.txmsgfifo.fifo.length ∧
      st2.txmsgfifo.head = st2.txmsgfifo.tail ∧ fifoContents st2.txmsgfifo = [] ∧
      st2.rxmsgfifo = st.rxmsgfifo ∧ st2.OutEpBuf = st.OutEpBuf ∧
      st2.InEpBuf.length = st.InEpBuf.length ∧
      (fifoContents st.txmsgfifo = [] → st2.usbd = st.usbd) ∧
      (fifoContents st.txmsgfifo ≠ [] →
        st2.usbd = USBD_Write st.usbd st2.InEpBuf (4 * (fifoContents st.txmsgfifo).length)
          usbCallback.TxXferCompleteCb) ∧
      ((fifoContents st.txmsgfifo).length ≤ st.InEpBuf.length →
        st2.InEpBuf.take (fifoContents st.txmsgfifo).length = fifoContents st.txmsgfifo) ∧
      ((fifoContents st.txmsgfifo).length ≤ st.InEpBuf.length →
        handedPackets st2.usbd = handedPackets st.usbd ++ fifoContents st.txmsgfifo) := by
  have hu1 : fifoContents st.txmsgfifo = [] →
      (if (fifoContents st.txmsgfifo).length ≠ 0 then
        USBD_Write st.usbd (storeList st.InEpBuf 0 (fifoContents st.txmsgfifo))
          (4 * (fifoContents st.txmsgfifo).length) usbCallback.TxXferCompleteCb
       else st.usbd) = st.usbd := by
    intro h; simp [h]
  have hu2 : fifoContents st.txmsgfifo ≠ [] →
      (if (fifoContents st.txmsgfifo).length ≠ 0 then
        USBD_Write st.usbd (storeList st.InEpBuf 0 (fifoContents st.txmsgfifo))
          (4 * (fifoContents st.txmsgfifo).length) usbCallback.TxXferCompleteCb
       else st.usbd) =
      USBD_Write st.usbd (storeList st.InEpBuf 0 (fifoContents st.txmsgfifo))
          (4 * (fifoContents st.txmsgfifo).length) usbCallback.TxXferCompleteCb := by
    intro h
    have : (fifoContents st.txmsgfifo).length ≠ 0 := fun h0 => h (List.length_eq_zero.1 h0)
    simp [this]
  refine ⟨_, TxXferCompleteCb_spec st fuel xferred remaining hw hN hf hfit, ⟨hw.1, hw.1⟩,
    rfl, rfl,
    fifoContents_empty _ ⟨hw.1, hw.1⟩ rfl, rfl, rfl, storeList_length _ _ _, hu1, hu2,
    fun h => storeList_take_zero _ _ h, ?_⟩
  intro h
  show handedPackets (if _ then _ else _) = _
  by_cases hz : fifoContents st.txmsgfifo = []
  · rw [hu1 hz, hz]; simp
  · rw [hu2 hz, handedPackets_write, storeList_take_zero _ _ h]

/-- With more packets queued than `InEpBuf` holds, the transmit callback with
status OK has no defined result, whatever the number of iterations allowed:
its loop stores past the end of the array. -/
theorem TxXferCompleteCb_overrun (st : usbmidi_t) (fuel xferred remaining : Nat)
    (hw : fifoWf st.txmsgfifo)
    (hover : st.InEpBuf.length < (fifoContents st.txmsgfifo).length) :
    USBMIDI_TxXferCompleteCb fuel st USB_STATUS_OK xferred remaining = none := by
  rw [fifoContents_length] at hover
  have h := fun r => TxXfer_loop_not_done fuel st.txmsgfifo st.InEpBuf 0 0 r hw
    (Nat.zero_le _) (by omega)
  simp only [USBMIDI_TxXferCompleteCb, if_true]
  cases ho : TxXfer_loop fuel st.txmsgfifo st.InEpBuf 0 0 with
  | done r => exact absurd ho (h r)
  | overrun e m => rfl
  | running => rfl

theorem USBMIDI_Write_idle (st : usbmidi_t) (p : USBMIDI_Message_t) (fuel : Nat)
    (hb : st.usbd.inBusy = false) :
    USBMIDI_Write fuel st p =
      (USBMIDI_TxXferCompleteCb fuel { st with txmsgfifo := USBMIDIFIFO_Push st.txmsgfifo p }
        USB_STATUS_OK 0 0).map (fun r => r.1) := by
  simp [USBMIDI_Write, hb]

theorem USBMIDI_Write_busy (st : usbmidi_t) (p : USBMIDI_Message_t) (fuel : Nat)
    (hb : st.usbd.inBusy = true) :
    USBMIDI_Write fuel st p = some { st with txmsgfifo := USBMIDIFIFO_Push st.txmsgfifo p } := by
  simp [USBMIDI_Write, hb]

/-- One bridge call keeps both FIFO orders: packets handed to `USBD_Write`
followed by the queued ones grow by the packet written, and packets popped
followed by the queued ones are the queued ones followed by those pushed. -/
theorem usbStep_inv (st : usbmidi_t) (ev : usbEvent) (hw : usbWf st) (hok : usbEventOk st ev = true) :
    ∃ st2 out, usbStep st ev = some (st2, out) ∧ usbWf st2 ∧
      handedPackets st2.usbd ++ fifoContents st2.txmsgfifo =
        handedPackets st.usbd ++ fifoContents st.txmsgfifo ++ writtenPackets [ev] ∧
      out ++ fifoContents st2.rxmsgfifo = fifoContents st.rxmsgfifo ++ pushedPackets [ev] := by
  obtain ⟨wt, wr, wn⟩ := hw
  cases ev with
  | write p =>
    simp only [usbEventOk, decide_eq_true_eq] at hok
    obtain ⟨hroom, hfit⟩ := hok
    obtain ⟨p1, p2, p3⟩ := fifo_push st.txmsgfifo p wt hroom
    have hcl := fifoContents_length st.txmsgfifo
    have hcn := ringCount_lt _ _ _ wt.1 wt.2
    cases hb : st.usbd.inBusy
    · have hlen : (fifoContents (USBMIDIFIFO_Push st.txmsgfifo p)).length =
          (fifoContents st.txmsgfifo).length + 1 := by rw [p1]; simp
      obtain ⟨st2, h1, h2, h3, _, h5, h6, _, _, _, _, _, h12⟩ :=
        TxXferCompleteCb_drain { st with txmsgfifo := USBMIDIFIFO_Push st.txmsgfifo p }
          (st.txmsgfifo.fifo.length + 1) 0 0 p2 (by rw [p3]; exact wn) (by rw [hlen]; omega)
          (by rw [hlen]; exact hfit hb)
      refine ⟨st2, [], ?_, ⟨h2, by rw [h6]; exact wr, by rw [h3]; exact (p3 ▸ wn)⟩, ?_, ?_⟩
      · simp only [usbStep]
        rw [USBMIDI_Write_idle _ _ _ hb, h1]; rfl
      · have := h12 (by rw [hlen]; exact hfit hb)
        rw [this, h5, p1]
        simp [writtenPackets]
      · rw [h6]; simp [pushedPackets]
    · refine ⟨{ st with txmsgfifo := USBMIDIFIFO_Push st.txmsgfifo p }, [], ?_,
        ⟨p2, wr, by show (USBMIDIFIFO_Push st.txmsgfifo p).fifo.length < _; rw [p3]; exact wn⟩,
        ?_, ?_⟩
      · simp only [usbStep]
        rw [USBMIDI_Write_busy _ _ _ hb]; rfl
      · show handedPackets st.usbd ++ fifoContents (USBMIDIFIFO_Push st.txmsgfifo p) = _
        rw [p1]; simp [writtenPackets]
      · simp [pushedPackets]
  | txComplete =>
    simp only [usbEventOk, decide_eq_true_eq] at hok
    have hcl := fifoContents_length st.txmsgfifo
    have hcn := ringCount_lt _ _ _ wt.1 wt.2
    obtain ⟨st2, h1, h2, h3, _, h5, h6, _, _, _, _, _, h12⟩ :=
      TxXferCompleteCb_drain { st with usbd := USBD_InXferDone st.usbd }
        (st.txmsgfifo.fifo.length + 1) 0 0 wt wn
        (by show (fifoContents st.txmsgfifo).length < _; omega) hok
    refine ⟨st2, [], ?_, ⟨h2, by rw [h6]; exact wr, by rw [h3]; exact wn⟩, ?_, ?_⟩
    · simp only [usbStep]
      rw [h1]; rfl
    · have := h12 hok
      rw [this, h5]
      simp [writtenPackets, handedPackets, USBD_InXferDone]
    · rw [h6]; simp [pushedPackets]
  | rxComplete buf k =>
    simp only [usbEventOk, decide_eq_true_eq] at hok
    obtain ⟨hbl, hk, hroom⟩ := hok
    have hk16 : k ≤ 16 := hk
    have hbl16 : buf.length = 16 := hbl
    have hm : 4 * k % 2 ^ 32 = 4 * k := Nat.mod_eq_of_lt (by omega)
    have h1 := RxXfer_loop_spec k st.rxmsgfifo buf 0 k (by omega) (by omega) (Nat.le_refl _)
    have hl : (buf.take k).length = k := by
      rw [List.length_take, hbl16]; omega
    obtain ⟨q1, q2, q3⟩ := fifo_push_list (buf.take k) st.rxmsgfifo wr (by
      rw [hl, ← fifoContents_length]; exact hroom)
    refine ⟨{ st with OutEpBuf := buf,
                      rxmsgfifo := (buf.take k).foldl USBMIDIFIFO_Push st.rxmsgfifo }, [], ?_,
      ⟨wt, q2, wn⟩, ?_, ?_⟩
    · simp only [usbStep, USBMIDI_RxXferCompleteCb, if_true, hm, h1, List.drop_zero]
      rfl
    · simp [writtenPackets]
    · simp [pushedPackets, q1]
  | rxPop =>
    by_cases he : st.rxmsgfifo.head = st.rxmsgfifo.tail
    · refine ⟨st, [], by simp [usbStep, USBMIDI_RxFifoPop, fifo_pop_empty _ he], ⟨wt, wr, wn⟩,
        ?_, ?_⟩
      · simp [writtenPackets]
      · simp [pushedPackets]
    · obtain ⟨m, f2, hp, hc, hw2, _, _, _⟩ := fifo_pop_nonempty st.rxmsgfifo wr he
      refine ⟨{ st with rxmsgfifo := f2 }, [m], by simp [usbStep, USBMIDI_RxFifoPop, hp],
        ⟨wt, hw2, wn⟩, ?_, ?_⟩
      · simp [writtenPackets]
      · simp [pushedPackets, hc]

theorem writtenPackets_cons (ev : usbEvent) (evs : List usbEvent) :
    writtenPackets (ev :: evs) = writtenPackets [ev] ++ writtenPackets evs := by
  cases ev <;> simp [writtenPackets]

theorem pushedPackets_cons (ev : usbEvent) (evs : List usbEvent) :
    pushedPackets (ev :: evs) = pushedPackets [ev] ++ pushedPackets evs := by
  cases ev <;> simp [pushedPackets]

/-- The FIFO orders along a sequence of bridge calls from any well-formed
state. -/
theorem usbRun_inv (evs : List usbEvent) : ∀ (st : usbmidi_t), usbWf st → usbRunOk st evs = true →
    ∃ st2 popped, usbRun st evs = some (st2, popped) ∧ usbWf st2 ∧
      handedPackets st2.usbd ++ fifoContents st2.txmsgfifo =
        handedPackets st.usbd ++ fifoContents st.txmsgfifo ++ writtenPackets evs ∧
      popped ++ fifoContents st2.rxmsgfifo = fifoContents st.rxmsgfifo ++ pushedPackets evs := by
  induction evs with
  | nil =>
    intro st hw _
    exact ⟨st, [], rfl, hw, by simp [writtenPackets], by simp [pushedPackets]⟩
  | cons ev evs ih =>
    intro st hw hok
    simp only [usbRunOk, Bool.and_eq_true] at hok
    obtain ⟨hev, hrest⟩ := hok
    obtain ⟨st1, out, h1, hw1, a1, a2⟩ := usbStep_inv st ev hw hev
    rw [h1] at hrest
    obtain ⟨st2, popped, h2, hw2, b1, b2⟩ := ih st1 hw1 hrest
    refine ⟨st2, out ++ popped, ?_, hw2, ?_, ?_⟩
    · simp only [usbRun, h1, h2]; rfl
    · rw [b1, a1, writtenPackets_cons ev evs]; simp
    · rw [List.append_assoc, b2, ← List.append_assoc, a2, pushedPackets_cons ev evs]; simp

theorem USBMIDI_Init_wf (st0 : usbmidi_t) (h1 : 0 < st0.txmsgfifo.fifo.length)
    (h2 : 0 < st0.rxmsgfifo.fifo.length) (hN : st0.txmsgfifo.fifo.length < 2 ^ 30) :
    usbWf (USBMIDI_Init st0) ∧ fifoContents (USBMIDI_Init st0).txmsgfifo = [] ∧
    fifoContents (USBMIDI_Init st0).rxmsgfifo = [] ∧ (USBMIDI_Init st0).usbd = st0.usbd :=
  ⟨⟨⟨h1, h1⟩, ⟨h2, h2⟩, hN⟩, fifoContents_empty _ ⟨h1, h1⟩ rfl,
    fifoContents_empty _ ⟨h2, h2⟩ rfl, rfl⟩

/-- While the IN endpoint is busy, a run of `USBMIDI_Write` calls only pushes
the packets. -/
theorem usbRun_writes_busy (ps : List USBMIDI_Message_t) : ∀ (st : usbmidi_t)
    (rest : List usbEvent), st.usbd.inBusy = true →
    usbRun st (ps.map usbEvent.write ++ rest) =
      usbRun { st with txmsgfifo := ps.foldl USBMIDIFIFO_Push st.txmsgfifo } rest := by
  induction ps with
  | nil => intro st rest _; rfl
  | cons p ps ih =>
    intro st rest hb
    have hs : usbStep st (usbEvent.write p) =
        some ({ st with txmsgfifo := USBMIDIFIFO_Push st.txmsgfifo p }, []) := by
      simp only [usbStep]
      rw [USBMIDI_Write_busy _ _ _ hb]; rfl
    show usbRun st (usbEvent.write p :: (ps.map usbEvent.write ++ rest)) = _
    rw [usbRun, hs]
    simp only [List.nil_append]
    rw [ih { st with txmsgfifo := USBMIDIFIFO_Push st.txmsgfifo p } rest hb]
    simp

/-- Claim C15: `USBMIDI_RxXferCompleteCb` with status OK and `xferred = 4 * k`,
`k` not above the capacity of `OutEpBuf`, returns OK after pushing exactly the
first `k` packets of `OutEpBuf`, in buffer order and unmodified, and changes
nothing else; when the ring has room for them they are queued behind the
packets already there. -/
theorem rx_callback_pushes_first_k (st : usbmidi_t) (k fuel remaining : Nat)
    (hcap : st.OutEpBuf.length = USB_FS_BULK_EP_MAXSIZE / 4)
    (hk : k ≤ USB_FS_BULK_EP_MAXSIZE / 4) (hf : k ≤ fuel) :
    USBMIDI_RxXferCompleteCb fuel st USB_STATUS_OK (4 * k) remaining =
      some ({ st with rxmsgfifo := (st.OutEpBuf.take k).foldl USBMIDIFIFO_Push st.rxmsgfifo },
            USB_STATUS_OK) ∧
    (fifoWf st.rxmsgfifo →
      ringCount st.rxmsgfifo.fifo.length st.rxmsgfifo.head st.rxmsgfifo.tail + k
        < st.rxmsgfifo.fifo.length →
      fifoContents ((st.OutEpBuf.take k).foldl USBMIDIFIFO_Push st.rxmsgfifo) =
        fifoContents st.rxmsgfifo ++ st.OutEpBuf.take k) := by
  have hk16 : k ≤ 16 := hk
  have hlen : st.OutEpBuf.length = 16 := hcap
  constructor
  · have hm : 4 * k % 2 ^ 32 = 4 * k := Nat.mod_eq_of_lt (by omega)
    have := RxXfer_loop_spec k st.rxmsgfifo st.OutEpBuf 0 fuel (by omega) (by omega) hf
    simp only [USBMIDI_RxXferCompleteCb, if_true, hm, this, List.drop_zero]
  · intro hw hc
    have hl : (st.OutEpBuf.take k).length = k := by
      rw [List.length_take]; omega
    exact (fifo_push_list _ _ hw (by rw [hl]; exact hc)).1

theorem exampleBurst_length (k : Nat) : (exampleBurst k).length = k := by
  simp [exampleBurst]

/-- A burst of at most 30 writes while the first transfer is in flight is
queued in order. -/
theorem exampleUsbInFlight_burst (ps : List USBMIDI_Message_t) (h : ps.length ≤ 30) :
    fifoContents (ps.foldl USBMIDIFIFO_Push exampleUsbInFlight.txmsgfifo) = ps ∧
    fifoWf (ps.foldl USBMIDIFIFO_Push exampleUsbInFlight.txmsgfifo) ∧
    (ps.foldl USBMIDIFIFO_Push exampleUsbInFlight.txmsgfifo).fifo.length = 32 := by
  have hw : fifoWf exampleUsbInFlight.txmsgfifo := ⟨by decide, by decide⟩
  have hc : ringCount exampleUsbInFlight.txmsgfifo.fifo.length exampleUsbInFlight.txmsgfifo.head
      exampleUsbInFlight.txmsgfifo.tail = 0 := by decide
  have hl : exampleUsbInFlight.txmsgfifo.fifo.length = 32 := by decide
  have he : fifoContents exampleUsbInFlight.txmsgfifo = [] := by decide
  obtain ⟨q1, q2, q3⟩ := fifo_push_list ps exampleUsbInFlight.txmsgfifo hw (by rw [hc, hl]; omega)
  rw [he, List.nil_append] at q1
  exact ⟨q1, q2, by rw [q3, hl]⟩

theorem exampleUsbSeventeen_facts :
    fifoWf exampleUsbSeventeen.txmsgfifo ∧
    fifoContents exampleUsbSeventeen.txmsgfifo = exampleBurst 17 ∧
    exampleUsbSeventeen.InEpBuf.length = 16 := by
  obtain ⟨q1, q2, _⟩ := exampleUsbInFlight_burst (exampleBurst 17)
    (by rw [exampleBurst_length]; omega)
  exact ⟨q2, q1, by decide⟩

/-- Claim C17 fails as stated: eight packets written while a transfer is in
flight on a transmit ring of 8 slots do not go out when the transfer
completes, the unguarded push having wrapped the write index onto the read
index: no `USBD_Write` is issued and the ring is empty; and with 17 packets
queued on a ring of 32 slots the callback has no defined result, its loop
storing past the end of `InEpBuf`. -/
theorem tx_drain_not_one_transfer :
    (exampleUsbBusy.usbd.inBusy = true ∧ fifoContents exampleUsbBusy.txmsgfifo = [] ∧
      exampleUsbBusy.txmsgfifo.fifo.length = 8 ∧
      ∃ st3, usbRun exampleUsbBusy
          ((exampleBurst 8).map usbEvent.write ++ [usbEvent.txComplete]) = some (st3, []) ∧
        st3.usbd.writes = [] ∧ fifoContents st3.txmsgfifo = []) ∧
    ((fifoContents exampleUsbSeventeen.txmsgfifo).length = 17 ∧
      ∀ fuel xferred remaining,
        USBMIDI_TxXferCompleteCb fuel exampleUsbSeventeen USB_STATUS_OK xferred remaining =
          none) := by
  obtain ⟨hw, hc, hl⟩ := exampleUsbSeventeen_facts
  refine ⟨⟨rfl, by decide, rfl, ?_⟩, by rw [hc, exampleBurst_length], ?_⟩
  · rw [usbRun_writes_busy (exampleBurst 8) exampleUsbBusy _ rfl]
    have hf : (exampleBurst 8).foldl USBMIDIFIFO_Push exampleUsbBusy.txmsgfifo =
        { fifo := [examplePacket 6, examplePacket 7, examplePacket 0, examplePacket 1,
                   examplePacket 2, examplePacket 3, examplePacket 4, examplePacket 5],
          head := 2, tail := 2 } := by decide
    rw [hf]
    exact ⟨{ exampleUsbBusy with
              txmsgfifo :=
                { fifo := [examplePacket 6, examplePacket 7, examplePacket 0, examplePacket 1,
                           examplePacket 2, examplePacket 3, examplePacket 4, examplePacket 5],
                  head := 2, tail := 2 },
              usbd := { inBusy := false, writes := [] } },
      by decide, rfl, by decide⟩
  · intro fuel xferred remaining
    exact TxXferCompleteCb_overrun _ fuel xferred remaining hw
      (by rw [hc, hl, exampleBurst_length]; decide)

/-- Claim C17 as amended: with the queued packets not above the capacity of
`InEpBuf`, `USBMIDI_TxXferCompleteCb` with status OK returns with the transmit
ring empty; when packets were queued it has issued exactly one `USBD_Write`,
with `InEpBuf`, four bytes per packet and itself as the completion callback,
the queued packets being at the start of `InEpBuf` in FIFO order; when none was
queued it has issued no transfer.  Hence packets `ps` written on an empty ring
while a transfer is in flight, fewer than the ring has slots and not above the
capacity of `InEpBuf`, go out in one transfer when it completes. -/
theorem tx_drain_coalesces (st stb : usbmidi_t) (fuel xferred remaining : Nat)
    (ps : List USBMIDI_Message_t)
    (hw : fifoWf st.txmsgfifo) (hN : st.txmsgfifo.fifo.length < 2 ^ 30)
    (hcap : st.InEpBuf.length = USB_FS_BULK_EP_MAXSIZE / 4)
    (hfit : (fifoContents st.txmsgfifo).length ≤ USB_FS_BULK_EP_MAXSIZE / 4)
    (hf : (fifoContents st.txmsgfifo).length < fuel)
    (hwb : fifoWf stb.txmsgfifo) (hNb : stb.txmsgfifo.fifo.length < 2 ^ 30)
    (hcapb : stb.InEpBuf.length = USB_FS_BULK_EP_MAXSIZE / 4)
    (hb : stb.usbd.inBusy = true) (he : fifoContents stb.txmsgfifo = []) (hne : ps ≠ [])
    (hroom : ps.length < stb.txmsgfifo.fifo.length)
    (hpfit : ps.length ≤ USB_FS_BULK_EP_MAXSIZE / 4) :
    (∃ st2, USBMIDI_TxXferCompleteCb fuel st USB_STATUS_OK xferred remaining =
        some (st2, USB_STATUS_OK) ∧
      st2.txmsgfifo.head = st2.txmsgfifo.tail ∧ fifoContents st2.txmsgfifo = [] ∧
      (fifoContents st.txmsgfifo = [] → st2.usbd = st.usbd) ∧
      (fifoContents st.txmsgfifo ≠ [] →
        st2.usbd.writes = st.usbd.writes ++
          [{ buffer := st2.InEpBuf, len := 4 * (fifoContents st.txmsgfifo).length,
             callback := usbCallback.TxXferCompleteCb }]) ∧
      st2.InEpBuf.take (fifoContents st.txmsgfifo).length = fifoContents st.txmsgfifo) ∧
    (∃ st3, usbRun stb (ps.map usbEvent.write ++ [usbEvent.txComplete]) = some (st3, []) ∧
      fifoContents st3.txmsgfifo = [] ∧
      st3.usbd.writes = stb.usbd.writes ++
        [{ buffer := st3.InEpBuf, len := 4 * ps.length,
           callback := usbCallback.TxXferCompleteCb }] ∧
      st3.InEpBuf.take ps.length = ps) := by
  have hfit2 : (fifoContents st.txmsgfifo).length ≤ st.InEpBuf.length := by rw [hcap]; exact hfit
  constructor
  · obtain ⟨st2, h1, _, _, h4, h5, _, _, _, h9, h10, h11, _⟩ :=
      TxXferCompleteCb_drain st fuel xferred remaining hw hN hf hfit2
    refine ⟨st2, h1, h4, h5, h9, ?_, h11 hfit2⟩
    intro hne
    rw [h10 hne]; rfl
  · have hc0 : ringCount stb.txmsgfifo.fifo.length stb.txmsgfifo.head stb.txmsgfifo.tail = 0 := by
      rw [← fifoContents_length, he]; rfl
    obtain ⟨q1, q2, q3⟩ := fifo_push_list ps stb.txmsgfifo hwb (by rw [hc0]; omega)
    rw [he, List.nil_append] at q1
    have hpfit2 : (fifoContents (ps.foldl USBMIDIFIFO_Push stb.txmsgfifo)).length ≤
        stb.InEpBuf.length := by rw [q1, hcapb]; exact hpfit
    obtain ⟨st3, h1, _, _, _, h5, _, _, _, _, h10, h11, _⟩ :=
      TxXferCompleteCb_drain
        { stb with txmsgfifo := ps.foldl USBMIDIFIFO_Push stb.txmsgfifo,
                   usbd := USBD_InXferDone stb.usbd }
        (stb.txmsgfifo.fifo.length + 1) 0 0 q2 (by rw [q3]; exact hNb)
        (by show (fifoContents (ps.foldl USBMIDIFIFO_Push stb.txmsgfifo)).length < _
            rw [q1]; omega) hpfit2
    refine ⟨st3, ?_, h5, ?_, ?_⟩
    · rw [usbRun_writes_busy ps stb _ hb]
      simp only [usbRun, usbStep]
      rw [q3, h1]; rfl
    · have := h10 (by show fifoContents (ps.foldl USBMIDIFIFO_Push stb.txmsgfifo) ≠ []
                      rw [q1]; exact hne)
      rw [this]
      show (USBD_Write (USBD_InXferDone stb.usbd) st3.InEpBuf
        (4 * (fifoContents (ps.foldl USBMIDIFIFO_Push stb.txmsgfifo)).length) _).writes = _
      rw [q1]; rfl
    · have := h11 hpfit2
      rw [show (fifoContents
        ({ stb with txmsgfifo := ps.foldl USBMIDIFIFO_Push stb.txmsgfifo,
                    usbd := USBD_InXferDone stb.usbd } : usbmidi_t).txmsgfifo) = ps from q1] at this
      exact this

/-- Claim C18 fails as stated: on a full transmit ring (8 slots, 7 packets
queued) the unguarded push wraps the write index onto the read index, so that
with the endpoint busy the ring is empty after the call, the queued packets
and `p` both gone, and with the endpoint idle the drain finds nothing and no
transfer is issued; and with 16 packets queued on a ring of 32 slots and the
endpoint idle the call has no defined result, the drain of 17 packets storing
past the end of `InEpBuf`. -/
theorem usbmidi_write_full_ring_loses_queue :
    ((fifoContents exampleUsbFull.txmsgfifo).length = 7 ∧
      (exampleUsbFull.txmsgfifo.head + 1) % exampleUsbFull.txmsgfifo.fifo.length =
        exampleUsbFull.txmsgfifo.tail) ∧
    (∃ st2, USBMIDI_Write 9 exampleUsbFull (examplePacket 99) = some st2 ∧
      st2.usbd.writes = [] ∧ fifoContents st2.txmsgfifo = []) ∧
    (∃ st2, USBMIDI_Write 9
        { exampleUsbFull with usbd := { inBusy := false, writes := [] } }
        (examplePacket 99) = some st2 ∧
      st2.usbd.writes = [] ∧ fifoContents st2.txmsgfifo = []) ∧
    ((fifoContents exampleUsbSixteen.txmsgfifo).length = 16 ∧
      (exampleUsbSixteen.txmsgfifo.head + 1) % exampleUsbSixteen.txmsgfifo.fifo.length ≠
        exampleUsbSixteen.txmsgfifo.tail ∧
      ∀ fuel, USBMIDI_Write fuel exampleUsbSixteen (examplePacket 99) = none) := by
  refine ⟨⟨by decide, by decide⟩, ?_, ?_, by decide, by decide, ?_⟩
  · exact ⟨{ exampleUsbFull with
             txmsgfifo := USBMIDIFIFO_Push exampleUsbFull.txmsgfifo (examplePacket 99) },
      by decide, rfl, by decide⟩
  · exact ⟨{ exampleUsbFull with
             txmsgfifo := USBMIDIFIFO_Push exampleUsbFull.txmsgfifo (examplePacket 99),
             usbd := { inBusy := false, writes := [] } },
      by decide, rfl, by decide⟩
  · intro fuel
    rw [USBMIDI_Write_idle _ _ _ rfl]
    rw [TxXferCompleteCb_overrun _ fuel 0 0 ⟨by decide, by decide⟩ (by decide)]
    rfl

/-- Claim C18 as amended: on a transmit ring that is not full `USBMIDI_Write`
pushes `p` behind the packets queued; with the IN endpoint not busy and the
packets then queued not above the capacity of `InEpBuf` it then runs the
drain, so that on return the ring is empty and exactly one transfer has been
issued, whose packets are the queued ones followed by `p`; with the endpoint
busy it issues no transfer and only the ring changes. -/
theorem usbmidi_write_pushes_then_drains (st : usbmidi_t) (p : USBMIDI_Message_t) (fuel : Nat)
    (hw : fifoWf st.txmsgfifo) (hN : st.txmsgfifo.fifo.length < 2 ^ 30)
    (hcap : st.InEpBuf.length = USB_FS_BULK_EP_MAXSIZE / 4)
    (hroom : (st.txmsgfifo.head + 1) % st.txmsgfifo.fifo.length ≠ st.txmsgfifo.tail)
    (hf : (fifoContents st.txmsgfifo).length + 1 < fuel) :
    fifoContents (USBMIDIFIFO_Push st.txmsgfifo p) = fifoContents st.txmsgfifo ++ [p] ∧
    (st.usbd.inBusy = false →
      (fifoContents st.txmsgfifo).length + 1 ≤ USB_FS_BULK_EP_MAXSIZE / 4 →
      ∃ st2, USBMIDI_Write fuel st p = some st2 ∧
        fifoContents st2.txmsgfifo = [] ∧
        st2.usbd.writes = st.usbd.writes ++
          [{ buffer := st2.InEpBuf, len := 4 * ((fifoContents st.txmsgfifo).length + 1),
             callback := usbCallback.TxXferCompleteCb }] ∧
        st2.InEpBuf.take ((fifoContents st.txmsgfifo).length + 1) =
          fifoContents st.txmsgfifo ++ [p]) ∧
    (st.usbd.inBusy = true →
      USBMIDI_Write fuel st p =
        some { st with txmsgfifo := USBMIDIFIFO_Push st.txmsgfifo p }) := by
  obtain ⟨p1, p2, p3⟩ := fifo_push st.txmsgfifo p hw hroom
  refine ⟨p1, ?_, USBMIDI_Write_busy st p fuel⟩
  intro hb hfit
  have hlen : (fifoContents (USBMIDIFIFO_Push st.txmsgfifo p)).length =
      (fifoContents st.txmsgfifo).length + 1 := by rw [p1]; simp
  have hfit2 : (fifoContents (USBMIDIFIFO_Push st.txmsgfifo p)).length ≤ st.InEpBuf.length := by
    rw [hlen, hcap]; exact hfit
  obtain ⟨st2, h1, _, _, _, h5, _, _, _, _, h10, h11, _⟩ :=
    TxXferCompleteCb_drain { st with txmsgfifo := USBMIDIFIFO_Push st.txmsgfifo p } fuel 0 0 p2
      (by rw [p3]; exact hN) (by rw [hlen]; exact hf) hfit2
  refine ⟨st2, ?_, h5, ?_, ?_⟩
  · rw [USBMIDI_Write_idle st p fuel hb, h1]; rfl
  · have := h10 (by show fifoContents (USBMIDIFIFO_Push st.txmsgfifo p) ≠ []
                    rw [p1]; simp)
    rw [this]
    show (USBD_Write st.usbd st2.InEpBuf
      (4 * (fifoContents (USBMIDIFIFO_Push st.txmsgfifo p)).length) _).writes = _
    rw [hlen]; rfl
  · have := h11 hfit2
    rw [show (fifoContents
      ({ st with txmsgfifo := USBMIDIFIFO_Push st.txmsgfifo p } : usbmidi_t).txmsgfifo) =
        fifoContents st.txmsgfifo ++ [p] from p1] at this
    simpa using this

/-- Claim C19: with any status other than `USB_STATUS_OK` both completion
callbacks return `USB_STATUS_OK` and leave the whole state as it was: nothing
is popped from the transmit ring, nothing is stored in `InEpBuf`, no
`USBD_Write` is issued and nothing is pushed onto the receive ring, whatever
`xferred` is. -/
theorem callbacks_ignore_failed_transfer (st : usbmidi_t) (status : Int)
    (fuel xferred remaining : Nat) (hs : status ≠ USB_STATUS_OK) :
    USBMIDI_TxXferCompleteCb fuel st status xferred remaining = some (st, USB_STATUS_OK) ∧
    USBMIDI_RxXferCompleteCb fuel st status xferred remaining = some (st, USB_STATUS_OK) := by
  simp [USBMIDI_TxXferCompleteCb, USBMIDI_RxXferCompleteCb, hs]

/-- From the state left by `USBMIDI_Init`, along every sequence of bridge
calls in which each push finds room in its ring, each drained batch fits
`InEpBuf` and each received transfer fits `OutEpBuf`, the packets handed to
`USBD_Write`, followed by the packets still in the transmit ring, are the
packets written, in order; and the packets returned by `USBMIDI_RxFifoPop`,
followed by those still in the receive ring, are the packets
`USBMIDI_RxXferCompleteCb` pushed, in order. -/
theorem usbRun_fifo_order_from_init (st0 : usbmidi_t) (evs : List usbEvent)
    (h1 : 0 < st0.txmsgfifo.fifo.length) (h2 : 0 < st0.rxmsgfifo.fifo.length)
    (hN : st0.txmsgfifo.fifo.length < 2 ^ 30) (hfresh : st0.usbd.writes = [])
    (hok : usbRunOk (USBMIDI_Init st0) evs = true) :
    ∃ st popped, usbRun (USBMIDI_Init st0) evs = some (st, popped) ∧
      handedPackets st.usbd ++ fifoContents st.txmsgfifo = writtenPackets evs ∧
      popped ++ fifoContents st.rxmsgfifo = pushedPackets evs := by
  obtain ⟨hw, e1, e2, e3⟩ := USBMIDI_Init_wf st0 h1 h2 hN
  obtain ⟨st, popped, r1, _, r2, r3⟩ := usbRun_inv evs (USBMIDI_Init st0) hw hok
  refine ⟨st, popped, r1, ?_, ?_⟩
  · rw [r2, e1, e3]; simp [handedPackets, hfresh]
  · rw [r3, e2]; simp

theorem readMessage_loop_rx_length (rx : List Nat) : ∀ (done : Bool) (port : midiport_t)
    (msg : USBMIDI_Message_t), (readMessage_loop done port msg rx).rx.length ≤ rx.length := by
  induction rx with
  | nil => intro done port msg; simp [readMessage_loop]
  | cons b rest ih =>
    intro done port msg
    cases done
    · simp only [readMessage_loop, Bool.false_eq_true, if_false, List.length_cons]
      exact Nat.le_succ_of_le (ih _ _ _)
    · simp [readMessage_loop_true]

theorem readMessage_counted_eq (rx : List Nat) : ∀ (extra : Nat) (done : Bool) (port : midiport_t)
    (msg : USBMIDI_Message_t) (n : Nat),
    readMessage_counted (rx.length + extra) done port msg rx n =
      readOutcome.returned (readMessage_loop done port msg rx)
        (n + (rx.length - (readMessage_loop done port msg rx).rx.length)) := by
  induction rx with
  | nil =>
    intro extra done port msg n
    unfold readMessage_counted
    simp [UARTCharsAvail, readMessage_loop]
  | cons b rest ih =>
    intro extra done port msg n
    cases done
    · have e : (b :: rest).length + extra = (rest.length + extra) + 1 := by
        simp only [List.length_cons]; omega
      rw [e]
      unfold readMessage_counted
      simp only [UARTCharsAvail, UARTCharGet, readMessage_loop]
      simp only [Bool.not_false, List.isEmpty_cons, Bool.and_self, if_true,
        Bool.false_eq_true, if_false]
      rw [ih]
      have hle : (readMessage_loop (readMessage_body port msg (b % 256)).2.2
          (readMessage_body port msg (b % 256)).1 (readMessage_body port msg (b % 256)).2.1
          rest).rx.length ≤ rest.length := readMessage_loop_rx_length rest _ _ _
      congr 1
      simp only [List.length_cons]
      omega
    · unfold readMessage_counted
      simp [readMessage_loop_true]

theorem readMessage_counted_not_blocked (rx : List Nat) : ∀ (fuel : Nat) (done : Bool)
    (port : midiport_t) (msg : USBMIDI_Message_t) (n : Nat),
    readMessage_counted fuel done port msg rx n ≠ readOutcome.blocked := by
  induction rx with
  | nil =>
    intro fuel done port msg n
    unfold readMessage_counted
    simp [UARTCharsAvail]
  | cons b rest ih =>
    intro fuel done port msg n
    cases done
    · cases fuel with
      | zero =>
        unfold readMessage_counted
        simp [UARTCharsAvail]
      | succ fuel =>
        unfold readMessage_counted
        simp only [UARTCharsAvail, UARTCharGet]
        simp only [Bool.not_false, List.isEmpty_cons, Bool.and_self, if_true]
        exact ih _ _ _ _ _
    · unfold readMessage_counted
      simp

/-- Claim C21: for every port state, message buffer and finite content of the
receive buffer, `MIDIUART_readMessage` returns after at most as many
iterations of its loop as there are bytes available, one for each byte it
takes from the buffer, and with any bound on the iterations it is never stuck
in `MAP_UARTCharGet`: the read is only reached when `MAP_UARTCharsAvail` has
reported a byte. -/
theorem readMessage_never_blocks (port : midiport_t) (msg : USBMIDI_Message_t) (rx : List Nat)
    (extra fuel : Nat) :
    (∃ n, readMessage_counted (rx.length + extra) false port msg rx 0 =
        readOutcome.returned (MIDIUART_readMessage port msg rx) n ∧
      n ≤ rx.length ∧
      n + (MIDIUART_readMessage port msg rx).rx.length = rx.length) ∧
    readMessage_counted fuel false port msg rx 0 ≠ readOutcome.blocked := by
  have hle := readMessage_loop_rx_length rx false port msg
  refine ⟨⟨0 + (rx.length - (readMessage_loop false port msg rx).rx.length), ?_, ?_, ?_⟩,
    readMessage_counted_not_blocked rx fuel false port msg 0⟩
  · rw [readMessage_counted_eq]; rfl
  · omega
  · simp only [MIDIUART_readMessage]
    omega

/-! ## Status switch and SysEx transitions -/

theorem status_high_nibble (B : Nat) (h1 : 0x80 ≤ B) (h2 : B < 256) :
    B &&& 0xF0 = MIDI_MSG_NOTEOFF ∨ B &&& 0xF0 = MIDI_MSG_NOTEON ∨
    B &&& 0xF0 = MIDI_MSG_POLYPRESSURE ∨ B &&& 0xF0 = MIDI_MSG_CTRLCHANGE ∨
    B &&& 0xF0 = MIDI_MSG_PROGCHANGE ∨ B &&& 0xF0 = MIDI_MSG_CHANNELPRESSURE ∨
    B &&& 0xF0 = MIDI_MSG_PITCHBEND ∨ B &&& 0xF0 = MIDI_MSG_SOX := by
  interval_cases B <;> decide

/-- Claim C22: for every status byte `B` (0x80 to 0xFF) other than 0xF0
received in `MU_IDLE`, `B & 0xF0` is one of the eight case labels of the
status switch, so the `default` branch is not taken: the switch assigns `cin`
and `bytesinpacket` from `B` alone, whatever they were before, and the header
of the packet is built from the code index number so assigned. -/
theorem status_switch_default_unreachable (port : midiport_t) (msg : USBMIDI_Message_t)
    (B c n : Nat) (h1 : 0x80 ≤ B) (h2 : B < 256) (h3 : B ≠ 0xF0) :
    (B &&& 0xF0 = MIDI_MSG_NOTEOFF ∨ B &&& 0xF0 = MIDI_MSG_NOTEON ∨
      B &&& 0xF0 = MIDI_MSG_POLYPRESSURE ∨ B &&& 0xF0 = MIDI_MSG_CTRLCHANGE ∨
      B &&& 0xF0 = MIDI_MSG_PROGCHANGE ∨ B &&& 0xF0 = MIDI_MSG_CHANNELPRESSURE ∨
      B &&& 0xF0 = MIDI_MSG_PITCHBEND ∨ B &&& 0xF0 = MIDI_MSG_SOX) ∧
    readMessage_statusSwitch { port with cin := c, bytesinpacket := n } B =
      readMessage_statusSwitch port B ∧
    (readMessage_statusSwitch port B).cin = (statusTable B).1 ∧
    (readMessage_statusSwitch port B).bytesinpacket = (statusTable B).2 ∧
    (readMessage_body { port with rxstate := MU_IDLE, cin := c, bytesinpacket := n } msg B).1.cin =
      (statusTable B).1 ∧
    (readMessage_body { port with rxstate := MU_IDLE, cin := c, bytesinpacket := n }
      msg B).1.bytesinpacket = (statusTable B).2 ∧
    (readMessage_body { port with rxstate := MU_IDLE, cin := c, bytesinpacket := n }
      msg B).2.1.header = USB_MIDI_HEADER port.cablenum (statusTable B).1 := by
  have hB : ¬ B < 0x80 := by omega
  refine ⟨status_high_nibble B h1 h2, ?_, ?_, ?_, ?_, ?_, ?_⟩
  · rw [statusSwitch_eq_table _ B h1 h2, statusSwitch_eq_table _ B h1 h2]
  · rw [statusSwitch_eq_table _ B h1 h2]
  · rw [statusSwitch_eq_table _ B h1 h2]
  · unfold readMessage_body
    simp only [MIDI_MSG_SOX, h3, hB, if_false, statusSwitch_eq_table _ B h1 h2]
    split_ifs <;> rfl
  · unfold readMessage_body
    simp only [MIDI_MSG_SOX, h3, hB, if_false, statusSwitch_eq_table _ B h1 h2]
    split_ifs <;> rfl
  · unfold readMessage_body
    simp only [MIDI_MSG_SOX, h3, hB, if_false, statusSwitch_eq_table _ B h1 h2]
    split_ifs <;> rfl

/-- Claim C23: the SysEx transitions of the loop body.  In `MU_SYSEX1` the
byte goes to `byte2`; 0xF7 emits the packet with code index number SYSEND2 and
returns to `MU_IDLE`, any other byte emits nothing and goes to `MU_SYSEX2`.
In `MU_SYSEX2` the byte goes to `byte3` and a packet is always emitted: with
SYSEND3 and `MU_IDLE` on 0xF7, with SYSEXSTART and `MU_SYSEX1` otherwise.  In
`MU_IDLE` the byte 0xF0 sets `byte1` to 0xF0 (and clears `byte2` and `byte3`),
emits nothing and goes to `MU_SYSEX1`. -/
theorem sysex_state_table (port : midiport_t) (msg : USBMIDI_Message_t) (B : Nat) :
    readMessage_body { port with rxstate := MU_SYSEX1 } msg B =
      (if B = 0xF7 then
        ({ port with rxstate := MU_IDLE },
         { msg with byte2 := B,
                    header := USB_MIDI_HEADER port.cablenum USB_MIDI_CIN_SYSEND2 }, true)
      else
        ({ port with rxstate := MU_SYSEX2 }, { msg with byte2 := B }, false)) ∧
    readMessage_body { port with rxstate := MU_SYSEX2 } msg B =
      (if B = 0xF7 then
        ({ port with rxstate := MU_IDLE },
         { msg with byte3 := B,
                    header := USB_MIDI_HEADER port.cablenum USB_MIDI_CIN_SYSEND3 }, true)
      else
        ({ port with rxstate := MU_SYSEX1 },
         { msg with byte3 := B,
                    header := USB_MIDI_HEADER port.cablenum USB_MIDI_CIN_SYSEXSTART }, true)) ∧
    readMessage_body { port with rxstate := MU_IDLE } msg 0xF0 =
      ({ port with rxstate := MU_SYSEX1 },
       { msg with byte1 := 0xF0, byte2 := 0x00, byte3 := 0x00 }, false) ∧
    cinOf (readMessage_body { port with rxstate := MU_SYSEX1 } msg 0xF7).2.1 =
      USB_MIDI_CIN_SYSEND2 ∧
    cinOf (readMessage_body { port with rxstate := MU_SYSEX2 } msg B).2.1 =
      (if B = 0xF7 then USB_MIDI_CIN_SYSEND3 else USB_MIDI_CIN_SYSEXSTART) := by
  refine ⟨?_, ?_, ?_, ?_, ?_⟩
  · unfold readMessage_body
    by_cases h : B = 0xF7 <;> simp [h, MIDI_MSG_EOX]
  · unfold readMessage_body
    by_cases h : B = 0xF7 <;> simp [h, MIDI_MSG_EOX]
  · unfold readMessage_body
    simp [MIDI_MSG_SOX]
  · unfold readMessage_body
    simp [MIDI_MSG_EOX, cinOf_header, USB_MIDI_CIN_SYSEND2]
  · unfold readMessage_body
    by_cases h : B = 0xF7 <;>
      simp [h, MIDI_MSG_EOX, cinOf_header, USB_MIDI_CIN_SYSEND3, USB_MIDI_CIN_SYSEXSTART]

/-! ## Receive counters -/

theorem statusTable_data_bytes (b : Nat) : (statusTable b).2 ≤ 2 := by
  unfold statusTable
  split_ifs <;> simp

theorem rxCountersInv_body (p : midiport_t) (msg : USBMIDI_Message_t) (b : Nat) (hb : b < 256)
    (h : rxCountersInv p) : rxCountersInv (readMessage_body p msg b).1 := by
  obtain ⟨h1, h2⟩ := h
  unfold readMessage_body
  cases hs : p.rxstate
  · -- MU_IDLE
    simp only
    by_cases hsox : b = MIDI_MSG_SOX
    · simp [hsox, rxCountersInv, h1]
    · by_cases hd : b < 0x80
      · by_cases h2b : p.bytesinpacket = 2
        · simp [hsox, hd, h2b, rxCountersInv]
        · simp [hsox, hd, h2b, rxCountersInv, h1]
      · have hge : 0x80 ≤ b := by omega
        have ht := statusTable_data_bytes b
        simp only [hsox, hd, if_false, statusSwitch_eq_table p b hge hb]
        by_cases hz : 0 = (statusTable b).2
        · simp [rxCountersInv, ← hz]
        · simp only [hz, if_false, rxCountersInv, true_implies]
          refine ⟨ht, ?_, trivial⟩
          omega
  · -- MU_DATABYTE2
    simp only
    split_ifs <;> simp [rxCountersInv, h1]
  · simp [rxCountersInv, h1]
  · simp only
    split_ifs <;> simp [rxCountersInv, h1]
  · simp only
    split_ifs <;> simp [rxCountersInv, h1]

theorem rxCountersInv_rxAfter (bytes : List Nat) : ∀ (p : midiport_t) (msg : USBMIDI_Message_t),
    rxCountersInv p → rxCountersInv (rxAfter p msg bytes).1 := by
  induction bytes with
  | nil => intro p msg h; exact h
  | cons b rest ih =>
    intro p msg h
    simp only [rxAfter]
    exact ih _ _ (rxCountersInv_body p msg (b % 256) (Nat.mod_lt _ (by decide)) h)

theorem rxCountersInv_Init (port0 : midiport_t) (uartbase intnum cablenum : Nat) :
    rxCountersInv (MIDIUART_Init port0 uartbase intnum cablenum) := by
  simp [rxCountersInv, MIDIUART_Init]

/-- Claim C27: in every state reached from the one left by `MIDIUART_Init` by
running the loop body over any byte sequence, `bytesinpacket` is 0, 1 or 2;
when `rxstate` is `MU_DATABYTE2`, `bytecnt` is 1 or 2 and equals
`bytesinpacket`, so that the decrement of the next iteration does not wrap
(it gives `bytecnt - 1`), and that iteration enters `MU_DATABYTE3` exactly when
`bytesinpacket` is 2 and otherwise returns to `MU_IDLE` with a packet. -/
theorem receive_counters_invariant (port0 : midiport_t) (msg0 : USBMIDI_Message_t)
    (uartbase intnum cablenum : Nat) (bytes : List Nat) (msg : USBMIDI_Message_t) (b : Nat) :
    (rxAfter (MIDIUART_Init port0 uartbase intnum cablenum) msg0 bytes).1.bytesinpacket ≤ 2 ∧
    ((rxAfter (MIDIUART_Init port0 uartbase intnum cablenum) msg0 bytes).1.rxstate
        = MU_DATABYTE2 →
      ((rxAfter (MIDIUART_Init port0 uartbase intnum cablenum) msg0 bytes).1.bytecnt = 1 ∨
        (rxAfter (MIDIUART_Init port0 uartbase intnum cablenum) msg0 bytes).1.bytecnt = 2) ∧
      (rxAfter (MIDIUART_Init port0 uartbase intnum cablenum) msg0 bytes).1.bytecnt =
        (rxAfter (MIDIUART_Init port0 uartbase intnum cablenum) msg0 bytes).1.bytesinpacket ∧
      (readMessage_body (rxAfter (MIDIUART_Init port0 uartbase intnum cablenum) msg0 bytes).1
          msg b).1.bytecnt + 1 =
        (rxAfter (MIDIUART_Init port0 uartbase intnum cablenum) msg0 bytes).1.bytecnt ∧
      ((readMessage_body (rxAfter (MIDIUART_Init port0 uartbase intnum cablenum) msg0 bytes).1
          msg b).1.rxstate = MU_DATABYTE3 ↔
        (rxAfter (MIDIUART_Init port0 uartbase intnum cablenum) msg0 bytes).1.bytesinpacket = 2) ∧
      ((readMessage_body (rxAfter (MIDIUART_Init port0 uartbase intnum cablenum) msg0 bytes).1
          msg b).1.rxstate = MU_IDLE ↔
        (rxAfter (MIDIUART_Init port0 uartbase intnum cablenum) msg0 bytes).1.bytesinpacket
          = 1)) := by
  have hinv := rxCountersInv_rxAfter bytes _ msg0
    (rxCountersInv_Init port0 uartbase intnum cablenum)
  generalize (rxAfter (MIDIUART_Init port0 uartbase intnum cablenum) msg0 bytes).1 = p at hinv ⊢
  obtain ⟨h1, h2⟩ := hinv
  refine ⟨h1, ?_⟩
  intro hs
  obtain ⟨h3, h4⟩ := h2 hs
  refine ⟨h3, h4, ?_, ?_, ?_⟩
  · unfold readMessage_body
    rw [hs]
    rcases h3 with h | h <;> simp [h]
  · unfold readMessage_body
    rw [hs, ← h4]
    rcases h3 with h | h <;> simp [h]
  · unfold readMessage_body
    rw [hs, ← h4]
    rcases h3 with h | h <;> simp [h]

/-! ## Ring indices and frame conditions -/

theorem writeMessage_iter_index (s : writeState) (hh : s.port.txfifohead < 64) :
    (writeMessage_iter s).port.txfifohead < 64 ∧
    (writeMessage_iter s).port.txfifotail = s.port.txfifotail ∧
    (writeMessage_iter s).port.txfifohead ≠ (writeMessage_iter s).port.txfifotail ∧
    (writeMessage_iter s).port.txmsgfifo.length = s.port.txmsgfifo.length := by
  by_cases hroom : (s.port.txfifohead + 1) % 64 = s.port.txfifotail
  · rw [writeMessage_iter_full s hroom]
    refine ⟨hh, rfl, ?_, rfl⟩
    omega
  · rw [writeMessage_iter_room s hh hroom]
    exact ⟨Nat.mod_lt _ (by decide), rfl, hroom, by simp⟩

theorem IntHandler_index (port : midiport_t) (hw : txhw_t) (ht : port.txfifotail < 64) :
    (MIDIUART7_IntHandler port hw).1.txfifohead = port.txfifohead ∧
    (MIDIUART7_IntHandler port hw).1.txfifotail < 64 ∧
    (MIDIUART7_IntHandler port hw).1.txmsgfifo = port.txmsgfifo := by
  by_cases he : port.txfifohead = port.txfifotail
  · rw [IntHandler_empty port hw he]
    exact ⟨rfl, ht, rfl⟩
  · rw [IntHandler_nonempty port hw ht he]
    exact ⟨rfl, Nat.mod_lt _ (by decide), rfl⟩

theorem txStep_index (s : midiport_t × txhw_t) (ev : txEvent)
    (hh : s.1.txfifohead < 64) (ht : s.1.txfifotail < 64) :
    (txStep s ev).1.txfifohead < 64 ∧ (txStep s ev).1.txfifotail < 64 ∧
    (txStep s ev).1.txmsgfifo.length = s.1.txmsgfifo.length := by
  cases ev with
  | enqueue b =>
    obtain ⟨a1, a2, _, a4⟩ :=
      writeMessage_iter_index { port := s.1, hw := s.2, msg := [b], msize := 1 } hh
    exact ⟨a1, by simp only [txStep]; rw [a2]; exact ht, a4⟩
  | isr =>
    obtain ⟨a1, a2, a3⟩ := IntHandler_index s.1 s.2 ht
    exact ⟨by simp only [txStep]; rw [a1]; exact hh, a2, by simp only [txStep]; rw [a3]⟩

theorem txRun_index (evs : List txEvent) : ∀ (s : midiport_t × txhw_t),
    s.1.txfifohead < 64 → s.1.txfifotail < 64 →
    (txRun s evs).1.txfifohead < 64 ∧ (txRun s evs).1.txfifotail < 64 ∧
    (txRun s evs).1.txmsgfifo.length = s.1.txmsgfifo.length := by
  induction evs with
  | nil => intro s hh ht; exact ⟨hh, ht, rfl⟩
  | cons ev evs ih =>
    intro s hh ht
    obtain ⟨a1, a2, a3⟩ := txStep_index s ev hh ht
    obtain ⟨b1, b2, b3⟩ := ih (txStep s ev) a1 a2
    exact ⟨b1, b2, b3.trans a3⟩

/-- Claim C24: `MIDIUART_Init` leaves `txfifohead = txfifotail = 0`; along
every sequence of enqueue iterations and handler runs from there both indices
stay below 64 and the buffer keeps its length, so every access
`txmsgfifo[txfifohead]` and `txmsgfifo[txfifotail]` is inside the buffer; and
from any state with both indices below 64 one enqueue iteration or one handler
run keeps them below 64, with `head ≠ tail` after the enqueue iteration: an
enqueue never leaves the ring looking empty. -/
theorem ring_index_invariant (port0 : midiport_t) (uartbase intnum cablenum : Nat) (hw : txhw_t)
    (evs : List txEvent) (s : writeState)
    (hh : s.port.txfifohead < MIDI_TX_FIFO_SIZE) (ht : s.port.txfifotail < MIDI_TX_FIFO_SIZE) :
    ((MIDIUART_Init port0 uartbase intnum cablenum).txfifohead = 0 ∧
      (MIDIUART_Init port0 uartbase intnum cablenum).txfifotail = 0) ∧
    ((txRun (MIDIUART_Init port0 uartbase intnum cablenum, hw) evs).1.txfifohead
        < MIDI_TX_FIFO_SIZE ∧
      (txRun (MIDIUART_Init port0 uartbase intnum cablenum, hw) evs).1.txfifotail
        < MIDI_TX_FIFO_SIZE ∧
      (txRun (MIDIUART_Init port0 uartbase intnum cablenum, hw) evs).1.txmsgfifo.length =
        port0.txmsgfifo.length) ∧
    ((writeMessage_iter s).port.txfifohead < MIDI_TX_FIFO_SIZE ∧
      (writeMessage_iter s).port.txfifotail < MIDI_TX_FIFO_SIZE ∧
      (writeMessage_iter s).port.txfifohead ≠ (writeMessage_iter s).port.txfifotail ∧
      (writeMessage_iter s).port.txmsgfifo.length = s.port.txmsgfifo.length) ∧
    ((MIDIUART7_IntHandler s.port s.hw).1.txfifohead < MIDI_TX_FIFO_SIZE ∧
      (MIDIUART7_IntHandler s.port s.hw).1.txfifotail < MIDI_TX_FIFO_SIZE ∧
      (MIDIUART7_IntHandler s.port s.hw).1.txmsgfifo.length = s.port.txmsgfifo.length) := by
  have hh64 : s.port.txfifohead < 64 := hh
  have ht64 : s.port.txfifotail < 64 := ht
  refine ⟨⟨rfl, rfl⟩, ?_, ?_, ?_⟩
  · exact txRun_index evs (MIDIUART_Init port0 uartbase intnum cablenum, hw)
      (by show 0 < 64; decide) (by show 0 < 64; decide)
  · obtain ⟨a1, a2, a3, a4⟩ := writeMessage_iter_index s hh64
    exact ⟨a1, by rw [a2]; exact ht64, a3, a4⟩
  · obtain ⟨a1, a2, a3⟩ := IntHandler_index s.port s.hw ht64
    exact ⟨by rw [a1]; exact hh64, a2, by rw [a3]⟩

theorem writeMessage_iter_frame (s : writeState) :
    (writeMessage_iter s).port.txfifotail = s.port.txfifotail ∧
    (writeMessage_iter s).port.txidle = s.port.txidle ∧
    ((writeMessage_iter s).port.txmsgfifo = s.port.txmsgfifo ∨
      (writeMessage_iter s).port.txmsgfifo =
        s.port.txmsgfifo.set s.port.txfifohead (s.msg.headD 0 % 256)) ∧
    (writeMessage_iter s).port.rxstate = s.port.rxstate ∧
    (writeMessage_iter s).port.cin = s.port.cin ∧
    (writeMessage_iter s).port.bytecnt = s.port.bytecnt ∧
    (writeMessage_iter s).port.bytesinpacket = s.port.bytesinpacket := by
  unfold writeMessage_iter
  simp only
  split_ifs <;> simp

theorem writeMessage_iterate_frame (n : Nat) : ∀ (s : writeState),
    (writeMessage_iter^[n] s).port.txfifotail = s.port.txfifotail ∧
    (writeMessage_iter^[n] s).port.txidle = s.port.txidle ∧
    (writeMessage_iter^[n] s).port.rxstate = s.port.rxstate ∧
    (writeMessage_iter^[n] s).port.cin = s.port.cin ∧
    (writeMessage_iter^[n] s).port.bytecnt = s.port.bytecnt ∧
    (writeMessage_iter^[n] s).port.bytesinpacket = s.port.bytesinpacket := by
  induction n with
  | zero => intro s; simp
  | succ n ih =>
    intro s
    obtain ⟨a1, a2, _, a4, a5, a6, a7⟩ := writeMessage_iter_frame s
    obtain ⟨b1, b2, b4, b5, b6, b7⟩ := ih (writeMessage_iter s)
    simp only [Function.iterate_succ, Function.comp]
    exact ⟨b1.trans a1, b2.trans a2, b4.trans a4, b5.trans a5, b6.trans a6, b7.trans a7⟩

/-- A call of `MIDIUART_writeMessage` that returns has run some number of
iterations of its loop. -/
theorem writeMessage_fuel_iterate (fuel : Nat) : ∀ (s r : writeState),
    MIDIUART_writeMessage_fuel fuel s = some r →
    ∃ n, n ≤ fuel ∧ r = writeMessage_iter^[n] s := by
  induction fuel with
  | zero =>
    intro s r h
    simp only [MIDIUART_writeMessage_fuel] at h
    split_ifs at h
    exact ⟨0, le_refl _, by simpa using h.symm⟩
  | succ fuel ih =>
    intro s r h
    simp only [MIDIUART_writeMessage_fuel] at h
    split_ifs at h
    · obtain ⟨n, hn, e⟩ := ih _ _ h
      exact ⟨n + 1, by omega, by simpa [Function.iterate_succ] using e⟩
    · exact ⟨0, by omega, by simpa using h.symm⟩

theorem IntHandler_frame (port : midiport_t) (hw : txhw_t) :
    (MIDIUART7_IntHandler port hw).1.txfifohead = port.txfifohead ∧
    (MIDIUART7_IntHandler port hw).1.txmsgfifo = port.txmsgfifo ∧
    (MIDIUART7_IntHandler port hw).1.rxstate = port.rxstate ∧
    (MIDIUART7_IntHandler port hw).1.cin = port.cin ∧
    (MIDIUART7_IntHandler port hw).1.bytecnt = port.bytecnt ∧
    (MIDIUART7_IntHandler port hw).1.bytesinpacket = port.bytesinpacket := by
  unfold MIDIUART7_IntHandler
  simp only
  split_ifs <;> simp

theorem statusSwitch_frame (port : midiport_t) (b : Nat) :
    (readMessage_statusSwitch port b).txmsgfifo = port.txmsgfifo ∧
    (readMessage_statusSwitch port b).txfifohead = port.txfifohead ∧
    (readMessage_statusSwitch port b).txfifotail = port.txfifotail ∧
    (readMessage_statusSwitch port b).txidle = port.txidle := by
  simp only [readMessage_statusSwitch, apply_ite midiport_t.txmsgfifo,
    apply_ite midiport_t.txfifohead, apply_ite midiport_t.txfifotail,
    apply_ite midiport_t.txidle, ite_self, and_self]

theorem readMessage_body_frame (port : midiport_t) (msg : USBMIDI_Message_t) (b : Nat) :
    (readMessage_body port msg b).1.txmsgfifo = port.txmsgfifo ∧
    (readMessage_body port msg b).1.txfifohead = port.txfifohead ∧
    (readMessage_body port msg b).1.txfifotail = port.txfifotail ∧
    (readMessage_body port msg b).1.txidle = port.txidle := by
  obtain ⟨s1, s2, s3, s4⟩ := statusSwitch_frame port b
  unfold readMessage_body
  cases port.rxstate <;> simp only <;> (try split_ifs) <;> simp [s1, s2, s3, s4]

theorem readMessage_loop_frame (rx : List Nat) : ∀ (done : Bool) (port : midiport_t)
    (msg : USBMIDI_Message_t),
    (readMessage_loop done port msg rx).port.txmsgfifo = port.txmsgfifo ∧
    (readMessage_loop done port msg rx).port.txfifohead = port.txfifohead ∧
    (readMessage_loop done port msg rx).port.txfifotail = port.txfifotail ∧
    (readMessage_loop done port msg rx).port.txidle = port.txidle := by
  induction rx with
  | nil => intro done port msg; simp [readMessage_loop]
  | cons b rest ih =>
    intro done port msg
    cases done
    · simp only [readMessage_loop, Bool.false_eq_true, if_false]
      obtain ⟨a1, a2, a3, a4⟩ := readMessage_body_frame port msg (b % 256)
      obtain ⟨b1, b2, b3, b4⟩ := ih (readMessage_body port msg (b % 256)).2.2
        (readMessage_body port msg (b % 256)).1 (readMessage_body port msg (b % 256)).2.1
      exact ⟨b1.trans a1, b2.trans a2, b3.trans a3, b4.trans a4⟩
    · simp [readMessage_loop_true]

/-- Claim C25: an iteration of the loop of `MIDIUART_writeMessage`, and any
number of them, leaves `txfifotail`, `txidle` and the receive-side fields as
they were, and changes `txmsgfifo` at most at index `txfifohead`;
`MIDIUART7_IntHandler` leaves `txfifohead`, every element of `txmsgfifo` and
the receive-side fields as they were; `MIDIUART_readMessage` leaves
`txmsgfifo`, `txfifohead`, `txfifotail` and `txidle` as they were. -/
theorem single_writer_discipline (s : writeState) (n : Nat) (port : midiport_t) (hw : txhw_t)
    (msg : USBMIDI_Message_t) (rx : List Nat) :
    ((writeMessage_iter s).port.txfifotail = s.port.txfifotail ∧
      (writeMessage_iter s).port.txidle = s.port.txidle ∧
      ((writeMessage_iter s).port.txmsgfifo = s.port.txmsgfifo ∨
        (writeMessage_iter s).port.txmsgfifo =
          s.port.txmsgfifo.set s.port.txfifohead (s.msg.headD 0 % 256)) ∧
      (writeMessage_iter s).port.rxstate = s.port.rxstate ∧
      (writeMessage_iter s).port.cin = s.port.cin ∧
      (writeMessage_iter s).port.bytecnt = s.port.bytecnt ∧
      (writeMessage_iter s).port.bytesinpacket = s.port.bytesinpacket) ∧
    ((writeMessage_iter^[n] s).port.txfifotail = s.port.txfifotail ∧
      (writeMessage_iter^[n] s).port.txidle = s.port.txidle ∧
      (writeMessage_iter^[n] s).port.rxstate = s.port.rxstate ∧
      (writeMessage_iter^[n] s).port.cin = s.port.cin ∧
      (writeMessage_iter^[n] s).port.bytecnt = s.port.bytecnt ∧
      (writeMessage_iter^[n] s).port.bytesinpacket = s.port.bytesinpacket) ∧
    ((MIDIUART7_IntHandler port hw).1.txfifohead = port.txfifohead ∧
      (MIDIUART7_IntHandler port hw).1.txmsgfifo = port.txmsgfifo ∧
      (MIDIUART7_IntHandler port hw).1.rxstate = port.rxstate ∧
      (MIDIUART7_IntHandler port hw).1.cin = port.cin ∧
      (MIDIUART7_IntHandler port hw).1.bytecnt = port.bytecnt ∧
      (MIDIUART7_IntHandler port hw).1.bytesinpacket = port.bytesinpacket) ∧
    ((MIDIUART_readMessage port msg rx).port.txmsgfifo = port.txmsgfifo ∧
      (MIDIUART_readMessage port msg rx).port.txfifohead = port.txfifohead ∧
      (MIDIUART_readMessage port msg rx).port.txfifotail = port.txfifotail ∧
      (MIDIUART_readMessage port msg rx).port.txidle = port.txidle) :=
  ⟨writeMessage_iter_frame s, writeMessage_iterate_frame n s, IntHandler_frame port hw,
    readMessage_loop_frame rx false port msg⟩

/-! ## The kick-start hand-off -/

theorem IntHandler_idle_cases (port : midiport_t) (hw : txhw_t) :
    (port.txfifohead = port.txfifotail ∧
      (MIDIUART7_IntHandler port hw).1.txfifohead = (MIDIUART7_IntHandler port hw).1.txfifotail ∧
      (MIDIUART7_IntHandler port hw).1.txidle = 1 ∧
      (MIDIUART7_IntHandler port hw).2.txdata = hw.txdata) ∨
    (port.txfifohead ≠ port.txfifotail ∧
      (MIDIUART7_IntHandler port hw).1.txidle = 0 ∧
      (MIDIUART7_IntHandler port hw).2.txdata =
        hw.txdata ++ [port.txmsgfifo.getD port.txfifotail 0]) := by
  by_cases he : port.txfifohead = port.txfifotail
  · left
    rw [IntHandler_empty port hw he]
    exact ⟨he, he, rfl, rfl⟩
  · right
    unfold MIDIUART7_IntHandler
    simp only [he, if_false]
    refine ⟨he, ?_, ?_⟩
    · split_ifs <;> rfl
    · split_ifs <;> rfl

theorem kickInv_step (s : kickState) (ev : kickEvent) (h : kickInv s) :
    kickInv (kickStep s ev) := by
  obtain ⟨h1, h2, h3, h4⟩ := h
  unfold wakeupLost at h1
  cases ev with
  | producer =>
    unfold kickInv wakeupLost
    simp only [kickStep, writeMessage_stmt]
    cases hpc : s.pc <;> simp only [hpc, kickChecked] at h1 h4 ⊢
    all_goals (try split_ifs)
    all_goals simp_all [interruptPending, MIDI_TX_FIFO_SIZE]
    · have e : (s.port.txfifohead + 1) % 256 = s.port.txfifohead + 1 := by omega
      rw [e]
      refine ⟨fun _ b c d => ?_, by omega⟩
      have he : s.port.txfifohead = s.port.txfifotail := by
        by_contra hne
        have := h1 hne b c
        rw [d] at this
        exact Bool.noConfusion this
      left
      omega
    · refine ⟨fun _ b c d => ?_, by omega⟩
      have := h1 (by omega) b c d
      omega
    · omega
  | isr =>
    unfold kickInv wakeupLost
    simp only [kickStep]
    by_cases hc : handlerCanRun s.hw = true
    · simp only [hc, if_true]
      obtain ⟨i1, i2, _⟩ := IntHandler_index s.port { s.hw with swtrig := false } h3
      rcases IntHandler_idle_cases s.port { s.hw with swtrig := false } with
        ⟨_, a2, a3, _⟩ | ⟨_, b2, b3⟩
      · refine ⟨fun hl => absurd a2 hl.1, ?_, i2, ?_⟩
        · intro h0
          rw [a3] at h0
          exact absurd h0 (by decide)
        · rw [i1]; exact h4
      · refine ⟨fun hl => absurd b2 hl.2.1, ?_, i2, ?_⟩
        · intro _
          left
          rw [b3]
          simp
        · rw [i1]; exact h4
    · simp only [hc, Bool.false_eq_true, if_false]
      exact ⟨h1, h2, h3, h4⟩
  | txDone early =>
    unfold kickInv wakeupLost
    simp only [kickStep]
    by_cases hi : 0 < s.inflight
    · simp only [hi, if_true]
      by_cases hr : s.inflight = 1 ∨ early = true
      · simp only [hr, if_true]
        exact ⟨fun hl => by simp [interruptPending] at hl, fun _ => Or.inr trivial, h3, h4⟩
      · simp only [hr, if_false]
        refine ⟨h1, fun _ => Or.inl ?_, h3, h4⟩
        have : s.inflight ≠ 1 := fun h => hr (Or.inl h)
        omega
    · rw [if_neg hi]
      exact ⟨h1, h2, h3, h4⟩
  | call msg msize =>
    unfold kickInv wakeupLost
    simp only [kickStep]
    by_cases hp : s.pc = writePc.returned
    · simp only [hp, if_true]
      rw [hp] at h1 h4
      refine ⟨h1, h2, h3, ?_⟩
      rcases h4 with h | ⟨h, _⟩
      · exact Or.inl h
      · exact absurd h (by decide)
    · simp only [hp, if_false]
      exact ⟨h1, h2, h3, h4⟩

theorem kickInv_run (evs : List kickEvent) : ∀ (s : kickState), kickInv s →
    kickInv (kickRun s evs) := by
  induction evs with
  | nil => intro s h; exact h
  | cons ev evs ih =>
    intro s h
    exact ih (kickStep s ev) (kickInv_step s ev h)

theorem kickInv_init (port0 : midiport_t) (uartbase intnum cablenum : Nat) (hw : txhw_t)
    (msg : List Nat) (msize : Nat) :
    kickInv (kickInit port0 uartbase intnum cablenum hw msg msize) := by
  refine ⟨fun hl => absurd rfl hl.1, ?_, by show 0 < 64; decide,
    Or.inl (by show 0 < 64; decide)⟩
  intro h0
  have h1 : (kickInit port0 uartbase intnum cablenum hw msg msize).port.txidle = 1 := rfl
  rw [h1] at h0
  exact absurd h0 (by decide)

/-- Claim C26: along every sequence of steps (statements of
`MIDIUART_writeMessage`, whole runs of the interrupt handler whenever it can
be entered, ends of byte transmissions, further calls) from the state left by
`MIDIUART_Init`: whenever the producer has finished the kick-start check of
the bytes it has put in the ring, it is not the case that the ring is
non-empty, `txidle` is 1 and no interrupt is pending; while that check is
still in progress such a state can only hold the one byte just queued; and
whenever `txidle` is 0 a byte is in flight or the transmit interrupt is
pending.  So a queued byte always has a handler run ahead of it. -/
theorem no_lost_wakeup (port0 : midiport_t) (uartbase intnum cablenum : Nat) (hw : txhw_t)
    (msg : List Nat) (msize : Nat) (evs : List kickEvent) :
    (kickChecked (kickRun (kickInit port0 uartbase intnum cablenum hw msg msize) evs).pc = true →
      ¬ ((kickRun (kickInit port0 uartbase intnum cablenum hw msg msize) evs).port.txfifohead ≠
          (kickRun (kickInit port0 uartbase intnum cablenum hw msg msize) evs).port.txfifotail ∧
        (kickRun (kickInit port0 uartbase intnum cablenum hw msg msize) evs).port.txidle = 1 ∧
        (kickRun (kickInit port0 uartbase intnum cablenum hw msg msize) evs).hw.swtrig = false ∧
        (kickRun (kickInit port0 uartbase intnum cablenum hw msg msize) evs).hw.txint = false)) ∧
    (wakeupLost (kickRun (kickInit port0 uartbase intnum cablenum hw msg msize) evs) →
      kickChecked (kickRun (kickInit port0 uartbase intnum cablenum hw msg msize) evs).pc
        = false ∧
      ((kickRun (kickInit port0 uartbase intnum cablenum hw msg msize) evs).port.txfifohead =
          (kickRun (kickInit port0 uartbase intnum cablenum hw msg msize) evs).port.txfifotail
            + 1 ∨
        ((kickRun (kickInit port0 uartbase intnum cablenum hw msg msize) evs).port.txfifohead
            = 0 ∧
          (kickRun (kickInit port0 uartbase intnum cablenum hw msg msize) evs).port.txfifotail
            = 63))) ∧
    ((kickRun (kickInit port0 uartbase intnum cablenum hw msg msize) evs).port.txidle = 0 →
      0 < (kickRun (kickInit port0 uartbase intnum cablenum hw msg msize) evs).inflight ∨
      (kickRun (kickInit port0 uartbase intnum cablenum hw msg msize) evs).hw.txint = true) := by
  obtain ⟨h1, h2, _, _⟩ :=
    kickInv_run evs _ (kickInv_init port0 uartbase intnum cablenum hw msg msize)
  refine ⟨?_, h1, h2⟩
  intro hc ⟨a1, a2, a3, a4⟩
  have := (h1 ⟨a1, by rw [a2]; decide, by simp [interruptPending, a3, a4]⟩).1
  rw [hc] at this
  exact Bool.noConfusion this

/-- Run without interruption from line 137, the statements of one iteration
of the loop of `MIDIUART_writeMessage` come back to the loop test with the
port, the hardware, the message pointer and the count that `writeMessage_iter`
gives. -/
theorem writeMessage_stmt_refines_iter (s : kickState) (hpc : s.pc = writePc.readHead) :
    ∃ n, n ≤ 11 ∧ (writeMessage_stmt^[n] s).pc = writePc.loopTest ∧
      ({ port := (writeMessage_stmt^[n] s).port, hw := (writeMessage_stmt^[n] s).hw,
         msg := (writeMessage_stmt^[n] s).msg, msize := (writeMessage_stmt^[n] s).msize }
        : writeState) =
        writeMessage_iter { port := s.port, hw := s.hw, msg := s.msg, msize := s.msize } := by
  obtain ⟨port, hw, inflight, pc, th, tt, bi, msg, msize⟩ := s
  simp only at hpc
  subst hpc
  by_cases hroom : (port.txfifohead + 1) % MIDI_TX_FIFO_SIZE = port.txfifotail
  · refine ⟨3, by decide, ?_, ?_⟩
    · simp [Function.iterate_succ, writeMessage_stmt, hroom]
    · simp [Function.iterate_succ, writeMessage_stmt, writeMessage_iter, hroom]
  · by_cases hidle : port.txidle = 0
    · refine ⟨10, by decide, ?_, ?_⟩
      · simp [Function.iterate_succ, writeMessage_stmt, hroom, hidle]
        all_goals (try split_ifs) <;> (try simp_all)
      · simp [Function.iterate_succ, writeMessage_stmt, writeMessage_iter, hroom, hidle]
        all_goals (try split_ifs) <;> (try simp_all)
    · refine ⟨11, by decide, ?_, ?_⟩
      · simp [Function.iterate_succ, writeMessage_stmt, hroom, hidle]
        all_goals (try split_ifs) <;> (try simp_all)
      · simp [Function.iterate_succ, writeMessage_stmt, writeMessage_iter, hroom, hidle]
        all_goals (try split_ifs) <;> (try simp_all)

/-! ## Termination of the USB receive copy loop -/

theorem RxXfer_loop_succ (fuel : Nat) (f : USBMIDIFIFO_t) (buf : List USBMIDI_Message_t)
    (epb x : Nat) :
    RxXfer_loop (fuel + 1) f buf epb x =
      if x = 0 then some f
      else RxXfer_loop fuel (USBMIDIFIFO_Push f (buf.getD epb ⟨0, 0, 0, 0⟩)) buf (epb + 1)
        (rxCounterStep x) := by
  rw [RxXfer_loop]
  simp only [rxCounterStep]

theorem RxXfer_loop_terminates (k : Nat) : ∀ (f : USBMIDIFIFO_t) (buf : List USBMIDI_Message_t)
    (epb fuel : Nat), 4 * k < 2 ^ 32 → k ≤ fuel →
    ∃ r, RxXfer_loop fuel f buf epb (4 * k) = some r := by
  induction k with
  | zero =>
    intro f buf epb fuel _ _
    exact ⟨f, by cases fuel <;> simp [RxXfer_loop]⟩
  | succ k ih =>
    intro f buf epb fuel h2 h3
    obtain ⟨n, rfl⟩ : ∃ n, fuel = n + 1 := ⟨fuel - 1, by omega⟩
    have hx : ¬ 4 * (k + 1) = 0 := by omega
    have hs : rxCounterStep (4 * (k + 1)) = 4 * k := by
      unfold rxCounterStep; omega
    rw [RxXfer_loop_succ, if_neg hx, hs]
    exact ih _ _ _ _ (by omega) (by omega)

theorem rxCounterStep_lt (x : Nat) : rxCounterStep x < 2 ^ 32 := by
  unfold rxCounterStep; omega

theorem rxCounterStep_mod4 (x : Nat) (hx : x < 2 ^ 32) : rxCounterStep x % 4 = x % 4 := by
  unfold rxCounterStep; omega

theorem RxXfer_loop_diverges (fuel : Nat) : ∀ (f : USBMIDIFIFO_t)
    (buf : List USBMIDI_Message_t) (epb x : Nat), x < 2 ^ 32 → x % 4 ≠ 0 →
    RxXfer_loop fuel f buf epb x = none := by
  induction fuel with
  | zero =>
    intro f buf epb x _ h4
    have hx : ¬ x = 0 := by omega
    rw [RxXfer_loop]
    simp [hx]
  | succ fuel ih =>
    intro f buf epb x hx h4
    have hx0 : ¬ x = 0 := by omega
    rw [RxXfer_loop_succ, if_neg hx0]
    exact ih _ _ _ _ (rxCounterStep_lt x) (by rw [rxCounterStep_mod4 x hx]; exact h4)

theorem rxCounterStep_iterate (n : Nat) : ∀ (x : Nat), x < 2 ^ 32 →
    rxCounterStep^[n] x < 2 ^ 32 ∧ rxCounterStep^[n] x % 4 = x % 4 := by
  induction n with
  | zero =>
    intro x hx
    rw [Function.iterate_zero, id_eq]
    exact ⟨hx, Eq.refl _⟩
  | succ n ih =>
    intro x hx
    obtain ⟨b1, b2⟩ := ih (rxCounterStep x) (rxCounterStep_lt x)
    rw [Function.iterate_succ, Function.comp_apply]
    exact ⟨b1, b2.trans (rxCounterStep_mod4 x hx)⟩

/-- Claim C29: with status `USB_STATUS_OK` and a 32-bit `xferred`, the copy
loop of `USBMIDI_RxXferCompleteCb` ends, after `xferred / 4` iterations, when
`xferred` is a multiple of 4; when it is not, the call has not returned after
any number of iterations, the counter staying different from zero after every
number of decrements modulo 2^32.  So the call returns if and only if
`xferred` is a multiple of 4. -/
theorem rx_loop_terminates_iff_multiple_of_four (st : usbmidi_t) (xferred remaining : Nat)
    (hx : xferred < 2 ^ 32) :
    (4 ∣ xferred → ∀ fuel, xferred / 4 ≤ fuel →
      ∃ r, USBMIDI_RxXferCompleteCb fuel st USB_STATUS_OK xferred remaining = some r) ∧
    (¬ 4 ∣ xferred →
      (∀ fuel, USBMIDI_RxXferCompleteCb fuel st USB_STATUS_OK xferred remaining = none) ∧
      (∀ n, rxCounterStep^[n] xferred ≠ 0)) ∧
    ((∃ fuel r, USBMIDI_RxXferCompleteCb fuel st USB_STATUS_OK xferred remaining = some r) ↔
      4 ∣ xferred) ∧
    (∀ fuel f buf epb x, RxXfer_loop (fuel + 1) f buf epb x =
      if x = 0 then some f
      else RxXfer_loop fuel (USBMIDIFIFO_Push f (buf.getD epb ⟨0, 0, 0, 0⟩)) buf (epb + 1)
        (rxCounterStep x)) := by
  have hm : xferred % 2 ^ 32 = xferred := Nat.mod_eq_of_lt hx
  have hyes : 4 ∣ xferred → ∀ fuel, xferred / 4 ≤ fuel →
      ∃ r, USBMIDI_RxXferCompleteCb fuel st USB_STATUS_OK xferred remaining = some r := by
    intro hd fuel hf
    obtain ⟨k, rfl⟩ := hd
    have hk : 4 * k / 4 = k := by omega
    rw [hk] at hf
    obtain ⟨r, hr⟩ := RxXfer_loop_terminates k st.rxmsgfifo st.OutEpBuf 0 fuel hx hf
    exact ⟨({ st with rxmsgfifo := r }, USB_STATUS_OK),
      by simp only [USBMIDI_RxXferCompleteCb, if_true, hm, hr]⟩
  have hno : ¬ 4 ∣ xferred →
      ∀ fuel, USBMIDI_RxXferCompleteCb fuel st USB_STATUS_OK xferred remaining = none := by
    intro hd fuel
    have h4 : xferred % 4 ≠ 0 := fun h => hd (Nat.dvd_of_mod_eq_zero h)
    have := RxXfer_loop_diverges fuel st.rxmsgfifo st.OutEpBuf 0 xferred hx h4
    simp only [USBMIDI_RxXferCompleteCb, if_true, hm, this]
  refine ⟨hyes, ?_, ?_, RxXfer_loop_succ⟩
  · intro hd
    refine ⟨hno hd, ?_⟩
    intro n h0
    have h4 : xferred % 4 ≠ 0 := fun h => hd (Nat.dvd_of_mod_eq_zero h)
    obtain ⟨_, a2⟩ := rxCounterStep_iterate n xferred hx
    rw [h0] at a2
    exact h4 a2.symm
  · constructor
    · rintro ⟨fuel, r, hr⟩
      by_contra hd
      rw [hno hd fuel] at hr
      exact Option.noConfusion hr
    · intro hd
      obtain ⟨r, hr⟩ := hyes hd (xferred / 4) (le_refl _)
      exact ⟨_, r, hr⟩

/-! ## Real-time bytes and the button packets -/

/-- Instance of `sysex_first_packet_three_bytes`: port `mpuart7` on cable 1
receiving F0 10 20 30 F7. -/
theorem sysex_first_packet_three_bytes_witness :
    ((0x10 : Nat) < 0x80 ∧ (0x20 : Nat) < 0x80) ∧
    (MIDIUART_readMessage (MIDIUART_Init mpuart7_static 0x40013000 76 1) ⟨0, 0, 0, 0⟩
        (0xF0 :: 0x10 :: 0x20 :: [0x30, 0xF7]) =
      { done := true,
        port := { MIDIUART_Init mpuart7_static 0x40013000 76 1 with rxstate := MU_SYSEX1 },
        msg := { header := USB_MIDI_HEADER (1 % 256) USB_MIDI_CIN_SYSEXSTART,
                 byte1 := 0xF0, byte2 := 0x10, byte3 := 0x20 },
        rx := [0x30, 0xF7] } ∧
    (pollUntilFalse (MIDIUART_Init mpuart7_static 0x40013000 76 1) ⟨0, 0, 0, 0⟩
        [0xF0, 0x01, 0x02, 0x03, 0x04, 0x05, 0xF7]).map
          (fun q => (q.packets.length, q.packets.head?)) =
      some (3, some { header := USB_MIDI_HEADER (1 % 256) USB_MIDI_CIN_SYSEXSTART,
                      byte1 := 0xF0, byte2 := 0x01, byte3 := 0x02 })) :=
  ⟨⟨by decide, by decide⟩,
    sysex_first_packet_three_bytes mpuart7_static ⟨0, 0, 0, 0⟩ 0x40013000 76 1 0x10 0x20
      [0x30, 0xF7] (by decide) (by decide)⟩

/-- Instance of `running_status_two_packets`: note-on 90 40 7F followed by the
running-status data bytes 40 00 yields two packets with the same header and
byte1 = 0x90. -/
theorem running_status_two_packets_witness :
    (((0x80 ≤ (0x90 : Nat) ∧ (0x90 : Nat) ≤ 0xBF) ∨
        (0xE0 ≤ (0x90 : Nat) ∧ (0x90 : Nat) ≤ 0xEF)) ∧
      (0x40 : Nat) < 0x80 ∧ (0x7F : Nat) < 0x80 ∧ (0x40 : Nat) < 0x80 ∧
      (0x00 : Nat) < 0x80) ∧
    (pollUntilFalse (MIDIUART_Init mpuart7_static 0x40013000 76 1) ⟨0, 0, 0, 0⟩
        [0x90, 0x40, 0x7F, 0x40, 0x00]).map (fun q => q.packets) =
      some [{ header := USB_MIDI_HEADER (1 % 256) (0x90 / 16),
              byte1 := 0x90, byte2 := 0x40, byte3 := 0x7F },
            { header := USB_MIDI_HEADER (1 % 256) (0x90 / 16),
              byte1 := 0x90, byte2 := 0x40, byte3 := 0x00 }] :=
  ⟨⟨by decide, by decide, by decide, by decide, by decide⟩,
    running_status_two_packets mpuart7_static ⟨0, 0, 0, 0⟩ 0x40013000 76 1 0x90 0x40 0x7F 0x40
      0x00 (by decide) (by decide) (by decide) (by decide) (by decide)⟩

/-- Instance of `status_classification_table`: the program-change status 0xC5
received by the freshly initialised port. -/
theorem status_classification_table_witness :
    ((MIDIUART_Init mpuart7_static 0x40013000 76 1).rxstate = MU_IDLE ∧
      0x80 ≤ (0xC5 : Nat) ∧ (0xC5 : Nat) < 256 ∧ (0xC5 : Nat) ≠ 0xF0) ∧
    MIDIUART_readMessage (MIDIUART_Init mpuart7_static 0x40013000 76 1) ⟨7, 7, 7, 7⟩ [0xC5] =
      if (statusTable 0xC5).2 = 0 then
        { done := true,
          port := { MIDIUART_Init mpuart7_static 0x40013000 76 1 with
                      cin := (statusTable 0xC5).1, bytesinpacket := (statusTable 0xC5).2,
                      rxstate := MU_IDLE },
          msg := { header := USB_MIDI_HEADER (MIDIUART_Init mpuart7_static 0x40013000 76 1).cablenum
                               (statusTable 0xC5).1,
                   byte1 := 0xC5, byte2 := 0, byte3 := 0 },
          rx := [] }
      else
        { done := false,
          port := { MIDIUART_Init mpuart7_static 0x40013000 76 1 with
                      cin := (statusTable 0xC5).1, bytesinpacket := (statusTable 0xC5).2,
                      bytecnt := (statusTable 0xC5).2, rxstate := MU_DATABYTE2 },
          msg := { header := USB_MIDI_HEADER (MIDIUART_Init mpuart7_static 0x40013000 76 1).cablenum
                               (statusTable 0xC5).1,
                   byte1 := 0xC5, byte2 := 0, byte3 := 0 },
          rx := [] } :=
  ⟨⟨rfl, by decide, by decide, by decide⟩,
    status_classification_table (MIDIUART_Init mpuart7_static 0x40013000 76 1) ⟨7, 7, 7, 7⟩ 0xC5
      rfl (by decide) (by decide) (by decide)⟩

/-- Instance of `byte_ring_capacity`: port `mpuart7`, a 64-byte message
0, 1, ..., 63 and an idle transmitter. -/
theorem byte_ring_capacity_witness :
    (mpuart7_static.txmsgfifo.length = MIDI_TX_FIFO_SIZE ∧ 64 ≤ (64 : Nat) ∧
      (64 : Nat) < 256) ∧
    (let s0 : writeState :=
      { port := MIDIUART_Init mpuart7_static 0x40013000 76 1,
        hw := { txdata := [], txint := false, uartIntEnabled := true, masterDisabled := false,
                swtrig := false },
        msg := List.range 64, msize := 64 }
    let s63 := writeMessage_iter^[63] s0
    let r := MIDIUART7_IntHandler s63.port s63.hw
    let s64 := writeMessage_iter { s63 with port := r.1, hw := r.2 }
    (∀ k, k < 63 →
      (writeMessage_iter^[k] s0).port.txfifohead = k ∧
      (writeMessage_iter^[k] s0).msize = 64 - k ∧
      (writeMessage_iter^[k + 1] s0).port.txfifohead = k + 1 ∧
      (writeMessage_iter^[k + 1] s0).msize = 64 - k - 1 ∧
      (writeMessage_iter^[k + 1] s0).port.txmsgfifo[k]? = some ((List.range 64).getD k 0 % 256)) ∧
    (s63.port.txfifohead = 63 ∧ s63.port.txfifotail = 0 ∧
      (∀ i, i < 63 → s63.port.txmsgfifo[i]? = some ((List.range 64).getD i 0 % 256)) ∧
      s63.hw.txdata = [] ∧
      (s63.port.txfifohead + 1) % MIDI_TX_FIFO_SIZE = s63.port.txfifotail ∧
      writeMessage_iter s63 = s63) ∧
    (r.1.txfifotail = 1 ∧ r.2.txdata = [] ++ [(List.range 64).getD 0 0 % 256] ∧
      s64.port.txfifohead = 0 ∧ s64.msize = 64 - 64 ∧
      s64.port.txmsgfifo[63]? = some ((List.range 64).getD 63 0 % 256))) :=
  ⟨⟨by decide, by decide, by decide⟩,
    byte_ring_capacity mpuart7_static 0x40013000 76 1
      { txdata := [], txint := false, uartIntEnabled := true, masterDisabled := false,
        swtrig := false }
      (List.range 64) 64 (by decide) (by decide) (by decide)⟩

/-- Instance of `transmit_fifo_order`: port `mpuart7`, three bytes enqueued
with two handler runs in between. -/
theorem transmit_fifo_order_witness :
    mpuart7_static.txmsgfifo.length = MIDI_TX_FIFO_SIZE ∧
    ∃ sent,
      (txRun (MIDIUART_Init mpuart7_static 0x40013000 76 1, exampleHw)
        [txEvent.enqueue 0x90, txEvent.enqueue 0x3C, txEvent.isr, txEvent.enqueue 0x40,
         txEvent.isr]).2.txdata = exampleHw.txdata ++ sent ∧
      txEnqueued (MIDIUART_Init mpuart7_static 0x40013000 76 1, exampleHw)
        [txEvent.enqueue 0x90, txEvent.enqueue 0x3C, txEvent.isr, txEvent.enqueue 0x40,
         txEvent.isr] =
        sent ++ txRing (txRun (MIDIUART_Init mpuart7_static 0x40013000 76 1, exampleHw)
          [txEvent.enqueue 0x90, txEvent.enqueue 0x3C, txEvent.isr, txEvent.enqueue 0x40,
           txEvent.isr]).1 :=
  ⟨by decide,
    transmit_fifo_order mpuart7_static 0x40013000 76 1 exampleHw
      [txEvent.enqueue 0x90, txEvent.enqueue 0x3C, txEvent.isr, txEvent.enqueue 0x40,
       txEvent.isr] (by decide)⟩

/-- Instance of `end_to_end_transmit`: the note-on 90 3C 40 sent through port
`mpuart7`. -/
theorem end_to_end_transmit_witness :
    ((0x90 : Nat) < 256 ∧ (0x3C : Nat) < 256 ∧ (0x40 : Nat) < 256 ∧
      mpuart7_static.txmsgfifo.length = MIDI_TX_FIFO_SIZE) ∧
    ((MIDIUART_Init mpuart7_static 0x40013000 76 1).txidle = 1 ∧
    ∃ s, MIDIUART_writeMessage_fuel 3
        { port := MIDIUART_Init mpuart7_static 0x40013000 76 1, hw := exampleHw,
          msg := [0x90, 0x3C, 0x40], msize := 3 } = some s ∧
      s.msize = 0 ∧ s.hw.txdata = exampleHw.txdata ∧ s.hw.swtrig = true ∧ s.port.txidle = 1 ∧
      (∀ k, k ≤ 3 →
        (MIDIUART7_IntHandler_runs k (s.port, s.hw)).2.txdata =
          exampleHw.txdata ++ [0x90, 0x3C, 0x40].take k) ∧
      (∀ n, 4 ≤ n →
        (MIDIUART7_IntHandler_runs n (s.port, s.hw)).2.txdata =
          exampleHw.txdata ++ [0x90, 0x3C, 0x40] ∧
        (MIDIUART7_IntHandler_runs n (s.port, s.hw)).1.txidle = 1 ∧
        (MIDIUART7_IntHandler_runs n (s.port, s.hw)).1.txfifohead =
          (MIDIUART7_IntHandler_runs n (s.port, s.hw)).1.txfifotail)) :=
  ⟨⟨by decide, by decide, by decide, by decide⟩,
    end_to_end_transmit mpuart7_static 0x40013000 76 1 exampleHw 0x90 0x3C 0x40
      (by decide) (by decide) (by decide) (by decide)⟩

/-- Instance of `int_handler_step`: the handler on the freshly initialised
port `mpuart7`, whose ring is empty. -/
theorem int_handler_step_witness :
    (MIDIUART_Init mpuart7_static 0x40013000 76 1).txfifotail < MIDI_TX_FIFO_SIZE ∧
    (((MIDIUART_Init mpuart7_static 0x40013000 76 1).txfifohead =
        (MIDIUART_Init mpuart7_static 0x40013000 76 1).txfifotail →
      MIDIUART7_IntHandler (MIDIUART_Init mpuart7_static 0x40013000 76 1) exampleHw =
        ({ MIDIUART_Init mpuart7_static 0x40013000 76 1 with txidle := 1 },
         { exampleHw with txint := false, uartIntEnabled := true })) ∧
    ((MIDIUART_Init mpuart7_static 0x40013000 76 1).txfifohead ≠
        (MIDIUART_Init mpuart7_static 0x40013000 76 1).txfifotail →
      MIDIUART7_IntHandler (MIDIUART_Init mpuart7_static 0x40013000 76 1) exampleHw =
        ({ MIDIUART_Init mpuart7_static 0x40013000 76 1 with
             txidle := 0,
             txfifotail := ((MIDIUART_Init mpuart7_static 0x40013000 76 1).txfifotail + 1)
               % MIDI_TX_FIFO_SIZE },
         { exampleHw with
             txint := false, uartIntEnabled := true,
             txdata := exampleHw.txdata ++
               [(MIDIUART_Init mpuart7_static 0x40013000 76 1).txmsgfifo.getD
                 (MIDIUART_Init mpuart7_static 0x40013000 76 1).txfifotail 0] })) ∧
    (MIDIUART7_IntHandler (MIDIUART_Init mpuart7_static 0x40013000 76 1)
      exampleHw).2.uartIntEnabled = true) :=
  ⟨by decide,
    int_handler_step (MIDIUART_Init mpuart7_static 0x40013000 76 1) exampleHw (by decide)⟩

/-- Instance of `enqueue_step`: the first iteration of a three-byte write on
the freshly initialised port `mpuart7`. -/
theorem enqueue_step_witness :
    ((MIDIUART_Init mpuart7_static 0x40013000 76 1).txfifohead < MIDI_TX_FIFO_SIZE ∧
      0 < (3 : Nat) ∧ (3 : Nat) < 256) ∧
    ((((MIDIUART_Init mpuart7_static 0x40013000 76 1).txfifohead + 1) % MIDI_TX_FIFO_SIZE ≠
        (MIDIUART_Init mpuart7_static 0x40013000 76 1).txfifotail →
      writeMessage_iter
          { port := MIDIUART_Init mpuart7_static 0x40013000 76 1, hw := exampleHw,
            msg := [0x90, 0x3C, 0x40], msize := 3 } =
        { port := { MIDIUART_Init mpuart7_static 0x40013000 76 1 with
                    txmsgfifo := (MIDIUART_Init mpuart7_static 0x40013000 76 1).txmsgfifo.set
                      (MIDIUART_Init mpuart7_static 0x40013000 76 1).txfifohead
                      (([0x90, 0x3C, 0x40] : List Nat).headD 0 % 256)
                    txfifohead :=
                      ((MIDIUART_Init mpuart7_static 0x40013000 76 1).txfifohead + 1)
                        % MIDI_TX_FIFO_SIZE },
          hw := { exampleHw with
                  swtrig := exampleHw.swtrig ||
                    decide ((MIDIUART_Init mpuart7_static 0x40013000 76 1).txidle ≠ 0) },
          msg := ([0x90, 0x3C, 0x40] : List Nat).tail,
          msize := 3 - 1 } ∧
      (exampleHw.swtrig = false →
        ((writeMessage_iter
            { port := MIDIUART_Init mpuart7_static 0x40013000 76 1, hw := exampleHw,
              msg := [0x90, 0x3C, 0x40], msize := 3 }).hw.swtrig = true ↔
          (MIDIUART_Init mpuart7_static 0x40013000 76 1).txidle ≠ 0))) ∧
    (((MIDIUART_Init mpuart7_static 0x40013000 76 1).txfifohead + 1) % MIDI_TX_FIFO_SIZE =
        (MIDIUART_Init mpuart7_static 0x40013000 76 1).txfifotail →
      writeMessage_iter
          { port := MIDIUART_Init mpuart7_static 0x40013000 76 1, hw := exampleHw,
            msg := [0x90, 0x3C, 0x40], msize := 3 } =
        { port := MIDIUART_Init mpuart7_static 0x40013000 76 1, hw := exampleHw,
          msg := [0x90, 0x3C, 0x40], msize := 3 })) :=
  ⟨⟨by decide, by decide, by decide⟩,
    enqueue_step
      { port := MIDIUART_Init mpuart7_static 0x40013000 76 1, hw := exampleHw,
        msg := [0x90, 0x3C, 0x40], msize := 3 } (by decide) (by decide) (by decide)⟩

/-- Instance of `rx_callback_pushes_first_k`: a transfer of two packets. -/
theorem rx_callback_pushes_first_k_witness :
    (exampleUsb.OutEpBuf.length = USB_FS_BULK_EP_MAXSIZE / 4 ∧
      2 ≤ USB_FS_BULK_EP_MAXSIZE / 4 ∧ 2 ≤ 2) ∧
    (USBMIDI_RxXferCompleteCb 2 exampleUsb USB_STATUS_OK (4 * 2) 0 =
      some ({ exampleUsb with
              rxmsgfifo := (exampleUsb.OutEpBuf.take 2).foldl USBMIDIFIFO_Push
                exampleUsb.rxmsgfifo },
            USB_STATUS_OK) ∧
    (fifoWf exampleUsb.rxmsgfifo →
      ringCount exampleUsb.rxmsgfifo.fifo.length exampleUsb.rxmsgfifo.head
          exampleUsb.rxmsgfifo.tail + 2
        < exampleUsb.rxmsgfifo.fifo.length →
      fifoContents ((exampleUsb.OutEpBuf.take 2).foldl USBMIDIFIFO_Push exampleUsb.rxmsgfifo) =
        fifoContents exampleUsb.rxmsgfifo ++ exampleUsb.OutEpBuf.take 2)) :=
  ⟨⟨by decide, by decide, by decide⟩,
    rx_callback_pushes_first_k exampleUsb 2 2 0 (by decide) (by decide) (by decide)⟩

/-- Instance of `tx_drain_coalesces`: the drain of two queued packets, and two
packets written while a transfer is in flight. -/
theorem tx_drain_coalesces_witness :
    (fifoWf exampleUsb.txmsgfifo ∧ exampleUsb.txmsgfifo.fifo.length < 2 ^ 30 ∧
      exampleUsb.InEpBuf.length = USB_FS_BULK_EP_MAXSIZE / 4 ∧
      (fifoContents exampleUsb.txmsgfifo).length ≤ USB_FS_BULK_EP_MAXSIZE / 4 ∧
      (fifoContents exampleUsb.txmsgfifo).length < 3 ∧
      fifoContents exampleUsb.txmsgfifo = [examplePacket 7, examplePacket 7]) ∧
    (fifoWf exampleUsbBusy.txmsgfifo ∧ exampleUsbBusy.txmsgfifo.fifo.length < 2 ^ 30 ∧
      exampleUsbBusy.InEpBuf.length = USB_FS_BULK_EP_MAXSIZE / 4 ∧
      exampleUsbBusy.usbd.inBusy = true ∧ fifoContents exampleUsbBusy.txmsgfifo = [] ∧
      [examplePacket 1, examplePacket 2] ≠ [] ∧
      [examplePacket 1, examplePacket 2].length < exampleUsbBusy.txmsgfifo.fifo.length ∧
      [examplePacket 1, examplePacket 2].length ≤ USB_FS_BULK_EP_MAXSIZE / 4) ∧
    ((∃ st2, USBMIDI_TxXferCompleteCb 3 exampleUsb USB_STATUS_OK 0 0 =
        some (st2, USB_STATUS_OK) ∧
      st2.txmsgfifo.head = st2.txmsgfifo.tail ∧ fifoContents st2.txmsgfifo = [] ∧
      (fifoContents exampleUsb.txmsgfifo = [] → st2.usbd = exampleUsb.usbd) ∧
      (fifoContents exampleUsb.txmsgfifo ≠ [] →
        st2.usbd.writes = exampleUsb.usbd.writes ++
          [{ buffer := st2.InEpBuf, len := 4 * (fifoContents exampleUsb.txmsgfifo).length,
             callback := usbCallback.TxXferCompleteCb }]) ∧
      st2.InEpBuf.take (fifoContents exampleUsb.txmsgfifo).length =
        fifoContents exampleUsb.txmsgfifo) ∧
    (∃ st3, usbRun exampleUsbBusy
        ([examplePacket 1, examplePacket 2].map usbEvent.write ++ [usbEvent.txComplete]) =
          some (st3, []) ∧
      fifoContents st3.txmsgfifo = [] ∧
      st3.usbd.writes = exampleUsbBusy.usbd.writes ++
        [{ buffer := st3.InEpBuf, len := 4 * [examplePacket 1, examplePacket 2].length,
           callback := usbCallback.TxXferCompleteCb }] ∧
      st3.InEpBuf.take [examplePacket 1, examplePacket 2].length =
        [examplePacket 1, examplePacket 2])) :=
  ⟨⟨⟨by decide, by decide⟩, by decide, by decide, by decide, by decide, by decide⟩,
    ⟨⟨by decide, by decide⟩, by decide, by decide, by decide, by decide, by decide, by decide,
      by decide⟩,
    tx_drain_coalesces exampleUsb exampleUsbBusy 3 0 0 [examplePacket 1, examplePacket 2]
      ⟨by decide, by decide⟩ (by decide) (by decide) (by decide) (by decide)
      ⟨by decide, by decide⟩ (by decide) (by decide) (by decide) (by decide) (by decide)
      (by decide) (by decide)⟩

/-- Instance of `usbmidi_write_pushes_then_drains`: a write behind two queued
packets with the IN endpoint idle. -/
theorem usbmidi_write_pushes_then_drains_witness :
    (fifoWf exampleUsb.txmsgfifo ∧ exampleUsb.txmsgfifo.fifo.length < 2 ^ 30 ∧
      exampleUsb.InEpBuf.length = USB_FS_BULK_EP_MAXSIZE / 4 ∧
      (exampleUsb.txmsgfifo.head + 1) % exampleUsb.txmsgfifo.fifo.length ≠
        exampleUsb.txmsgfifo.tail ∧
      (fifoContents exampleUsb.txmsgfifo).length + 1 < 4 ∧
      exampleUsb.usbd.inBusy = false ∧
      (fifoContents exampleUsb.txmsgfifo).length + 1 ≤ USB_FS_BULK_EP_MAXSIZE / 4) ∧
    fifoContents (USBMIDIFIFO_Push exampleUsb.txmsgfifo (examplePacket 1)) =
      fifoContents exampleUsb.txmsgfifo ++ [examplePacket 1] ∧
    (∃ st2, USBMIDI_Write 4 exampleUsb (examplePacket 1) = some st2 ∧
      fifoContents st2.txmsgfifo = [] ∧
      st2.usbd.writes = exampleUsb.usbd.writes ++
        [{ buffer := st2.InEpBuf, len := 4 * ((fifoContents exampleUsb.txmsgfifo).length + 1),
           callback := usbCallback.TxXferCompleteCb }] ∧
      st2.InEpBuf.take ((fifoContents exampleUsb.txmsgfifo).length + 1) =
        fifoContents exampleUsb.txmsgfifo ++ [examplePacket 1]) :=
  ⟨⟨⟨by decide, by decide⟩, by decide, by decide, by decide, by decide, by decide, by decide⟩,
    (usbmidi_write_pushes_then_drains exampleUsb (examplePacket 1) 4 ⟨by decide, by decide⟩
      (by decide) (by decide) (by decide) (by decide)).1,
    (usbmidi_write_pushes_then_drains exampleUsb (examplePacket 1) 4 ⟨by decide, by decide⟩
      (by decide) (by decide) (by decide) (by decide)).2.1 (by decide) (by decide)⟩

/-- Instance of `callbacks_ignore_failed_transfer`: a transfer reported with
status -1. -/
theorem callbacks_ignore_failed_transfer_witness :
    (-1 : Int) ≠ USB_STATUS_OK ∧
    (USBMIDI_TxXferCompleteCb 3 exampleUsb (-1) 8 0 = some (exampleUsb, USB_STATUS_OK) ∧
    USBMIDI_RxXferCompleteCb 3 exampleUsb (-1) 8 0 = some (exampleUsb, USB_STATUS_OK)) :=
  ⟨by decide, callbacks_ignore_failed_transfer exampleUsb (-1) 3 8 0 (by decide)⟩

/-- Instance of `status_switch_default_unreachable`: the status byte 0x90 on a
port whose counters held 5 and 1. -/
theorem status_switch_default_unreachable_witness :
    (0x80 ≤ (0x90 : Nat) ∧ (0x90 : Nat) < 256 ∧ (0x90 : Nat) ≠ 0xF0) ∧
    ((0x90 &&& 0xF0 = MIDI_MSG_NOTEOFF ∨ 0x90 &&& 0xF0 = MIDI_MSG_NOTEON ∨
      0x90 &&& 0xF0 = MIDI_MSG_POLYPRESSURE ∨ 0x90 &&& 0xF0 = MIDI_MSG_CTRLCHANGE ∨
      0x90 &&& 0xF0 = MIDI_MSG_PROGCHANGE ∨ 0x90 &&& 0xF0 = MIDI_MSG_CHANNELPRESSURE ∨
      0x90 &&& 0xF0 = MIDI_MSG_PITCHBEND ∨ 0x90 &&& 0xF0 = MIDI_MSG_SOX) ∧
    readMessage_statusSwitch { mpuart7_static with cin := 5, bytesinpacket := 1 } 0x90 =
      readMessage_statusSwitch mpuart7_static 0x90 ∧
    (readMessage_statusSwitch mpuart7_static 0x90).cin = (statusTable 0x90).1 ∧
    (readMessage_statusSwitch mpuart7_static 0x90).bytesinpacket = (statusTable 0x90).2 ∧
    (readMessage_body { mpuart7_static with rxstate := MU_IDLE, cin := 5, bytesinpacket := 1 }
      ⟨0, 0, 0, 0⟩ 0x90).1.cin = (statusTable 0x90).1 ∧
    (readMessage_body { mpuart7_static with rxstate := MU_IDLE, cin := 5, bytesinpacket := 1 }
      ⟨0, 0, 0, 0⟩ 0x90).1.bytesinpacket = (statusTable 0x90).2 ∧
    (readMessage_body { mpuart7_static with rxstate := MU_IDLE, cin := 5, bytesinpacket := 1 }
      ⟨0, 0, 0, 0⟩ 0x90).2.1.header =
        USB_MIDI_HEADER mpuart7_static.cablenum (statusTable 0x90).1) :=
  ⟨⟨by decide, by decide, by decide⟩,
    status_switch_default_unreachable mpuart7_static ⟨0, 0, 0, 0⟩ 0x90 5 1
      (by decide) (by decide) (by decide)⟩

/-- Instance of `ring_index_invariant`: the freshly initialised port `mpuart7`,
one byte enqueued and one handler run. -/
theorem ring_index_invariant_witness :
    (exampleWrite.port.txfifohead < MIDI_TX_FIFO_SIZE ∧
      exampleWrite.port.txfifotail < MIDI_TX_FIFO_SIZE) ∧
    (((MIDIUART_Init mpuart7_static 0x40013000 76 1).txfifohead = 0 ∧
      (MIDIUART_Init mpuart7_static 0x40013000 76 1).txfifotail = 0) ∧
    ((txRun (MIDIUART_Init mpuart7_static 0x40013000 76 1, exampleHw)
        [txEvent.enqueue 0x90, txEvent.isr]).1.txfifohead < MIDI_TX_FIFO_SIZE ∧
      (txRun (MIDIUART_Init mpuart7_static 0x40013000 76 1, exampleHw)
        [txEvent.enqueue 0x90, txEvent.isr]).1.txfifotail < MIDI_TX_FIFO_SIZE ∧
      (txRun (MIDIUART_Init mpuart7_static 0x40013000 76 1, exampleHw)
        [txEvent.enqueue 0x90, txEvent.isr]).1.txmsgfifo.length =
        mpuart7_static.txmsgfifo.length) ∧
    ((writeMessage_iter exampleWrite).port.txfifohead < MIDI_TX_FIFO_SIZE ∧
      (writeMessage_iter exampleWrite).port.txfifotail < MIDI_TX_FIFO_SIZE ∧
      (writeMessage_iter exampleWrite).port.txfifohead ≠
        (writeMessage_iter exampleWrite).port.txfifotail ∧
      (writeMessage_iter exampleWrite).port.txmsgfifo.length =
        exampleWrite.port.txmsgfifo.length) ∧
    ((MIDIUART7_IntHandler exampleWrite.port exampleWrite.hw).1.txfifohead
        < MIDI_TX_FIFO_SIZE ∧
      (MIDIUART7_IntHandler exampleWrite.port exampleWrite.hw).1.txfifotail
        < MIDI_TX_FIFO_SIZE ∧
      (MIDIUART7_IntHandler exampleWrite.port exampleWrite.hw).1.txmsgfifo.length =
        exampleWrite.port.txmsgfifo.length)) :=
  ⟨⟨by decide, by decide⟩,
    ring_index_invariant mpuart7_static 0x40013000 76 1 exampleHw
      [txEvent.enqueue 0x90, txEvent.isr] exampleWrite (by decide) (by decide)⟩

/-- Instance of `no_lost_wakeup`: the first byte of a note-on is queued and
triggered, and the handler has sent it: the producer is back at the loop test
and `txidle` is 0 with the byte in flight. -/
theorem no_lost_wakeup_witness :
    (kickChecked (kickRun (kickInit mpuart7_static 0x40013000 76 1 exampleHw
        [0x90, 0x3C, 0x40] 3) exampleKickEvents).pc = true ∧
      (kickRun (kickInit mpuart7_static 0x40013000 76 1 exampleHw
        [0x90, 0x3C, 0x40] 3) exampleKickEvents).port.txidle = 0) ∧
    ((kickChecked (kickRun (kickInit mpuart7_static 0x40013000 76 1 exampleHw
        [0x90, 0x3C, 0x40] 3) exampleKickEvents).pc = true →
      ¬ ((kickRun (kickInit mpuart7_static 0x40013000 76 1 exampleHw
            [0x90, 0x3C, 0x40] 3) exampleKickEvents).port.txfifohead ≠
          (kickRun (kickInit mpuart7_static 0x40013000 76 1 exampleHw
            [0x90, 0x3C, 0x40] 3) exampleKickEvents).port.txfifotail ∧
        (kickRun (kickInit mpuart7_static 0x40013000 76 1 exampleHw
          [0x90, 0x3C, 0x40] 3) exampleKickEvents).port.txidle = 1 ∧
        (kickRun (kickInit mpuart7_static 0x40013000 76 1 exampleHw
          [0x90, 0x3C, 0x40] 3) exampleKickEvents).hw.swtrig = false ∧
        (kickRun (kickInit mpuart7_static 0x40013000 76 1 exampleHw
          [0x90, 0x3C, 0x40] 3) exampleKickEvents).hw.txint = false)) ∧
    (wakeupLost (kickRun (kickInit mpuart7_static 0x40013000 76 1 exampleHw
        [0x90, 0x3C, 0x40] 3) exampleKickEvents) →
      kickChecked (kickRun (kickInit mpuart7_static 0x40013000 76 1 exampleHw
        [0x90, 0x3C, 0x40] 3) exampleKickEvents).pc = false ∧
      ((kickRun (kickInit mpuart7_static 0x40013000 76 1 exampleHw
          [0x90, 0x3C, 0x40] 3) exampleKickEvents).port.txfifohead =
          (kickRun (kickInit mpuart7_static 0x40013000 76 1 exampleHw
            [0x90, 0x3C, 0x40] 3) exampleKickEvents).port.txfifotail + 1 ∨
        ((kickRun (kickInit mpuart7_static 0x40013000 76 1 exampleHw
            [0x90, 0x3C, 0x40] 3) exampleKickEvents).port.txfifohead = 0 ∧
          (kickRun (kickInit mpuart7_static 0x40013000 76 1 exampleHw
            [0x90, 0x3C, 0x40] 3) exampleKickEvents).port.txfifotail = 63))) ∧
    ((kickRun (kickInit mpuart7_static 0x40013000 76 1 exampleHw
        [0x90, 0x3C, 0x40] 3) exampleKickEvents).port.txidle = 0 →
      0 < (kickRun (kickInit mpuart7_static 0x40013000 76 1 exampleHw
        [0x90, 0x3C, 0x40] 3) exampleKickEvents).inflight ∨
      (kickRun (kickInit mpuart7_static 0x40013000 76 1 exampleHw
        [0x90, 0x3C, 0x40] 3) exampleKickEvents).hw.txint = true)) :=
  ⟨⟨by decide, by decide⟩,
    no_lost_wakeup mpuart7_static 0x40013000 76 1 exampleHw [0x90, 0x3C, 0x40] 3
      exampleKickEvents⟩

/-- Instance of `receive_counters_invariant`: after the status byte 0x90 the
state machine waits in `MU_DATABYTE2` for the first of two data bytes. -/
theorem receive_counters_invariant_witness :
    (rxAfter (MIDIUART_Init mpuart7_static 0x40013000 76 1) ⟨0, 0, 0, 0⟩ [0x90]).1.rxstate
      = MU_DATABYTE2 ∧
    ((rxAfter (MIDIUART_Init mpuart7_static 0x40013000 76 1) ⟨0, 0, 0, 0⟩
        [0x90]).1.bytesinpacket ≤ 2 ∧
    ((rxAfter (MIDIUART_Init mpuart7_static 0x40013000 76 1) ⟨0, 0, 0, 0⟩ [0x90]).1.rxstate
        = MU_DATABYTE2 →
      ((rxAfter (MIDIUART_Init mpuart7_static 0x40013000 76 1) ⟨0, 0, 0, 0⟩
          [0x90]).1.bytecnt = 1 ∨
        (rxAfter (MIDIUART_Init mpuart7_static 0x40013000 76 1) ⟨0, 0, 0, 0⟩
          [0x90]).1.bytecnt = 2) ∧
      (rxAfter (MIDIUART_Init mpuart7_static 0x40013000 76 1) ⟨0, 0, 0, 0⟩ [0x90]).1.bytecnt =
        (rxAfter (MIDIUART_Init mpuart7_static 0x40013000 76 1) ⟨0, 0, 0, 0⟩
          [0x90]).1.bytesinpacket ∧
      (readMessage_body
          (rxAfter (MIDIUART_Init mpuart7_static 0x40013000 76 1) ⟨0, 0, 0, 0⟩ [0x90]).1
          ⟨0x19, 0x90, 0, 0⟩ 0x3C).1.bytecnt + 1 =
        (rxAfter (MIDIUART_Init mpuart7_static 0x40013000 76 1) ⟨0, 0, 0, 0⟩
          [0x90]).1.bytecnt ∧
      ((readMessage_body
          (rxAfter (MIDIUART_Init mpuart7_static 0x40013000 76 1) ⟨0, 0, 0, 0⟩ [0x90]).1
          ⟨0x19, 0x90, 0, 0⟩ 0x3C).1.rxstate = MU_DATABYTE3 ↔
        (rxAfter (MIDIUART_Init mpuart7_static 0x40013000 76 1) ⟨0, 0, 0, 0⟩
          [0x90]).1.bytesinpacket = 2) ∧
      ((readMessage_body
          (rxAfter (MIDIUART_Init mpuart7_static 0x40013000 76 1) ⟨0, 0, 0, 0⟩ [0x90]).1
          ⟨0x19, 0x90, 0, 0⟩ 0x3C).1.rxstate = MU_IDLE ↔
        (rxAfter (MIDIUART_Init mpuart7_static 0x40013000 76 1) ⟨0, 0, 0, 0⟩
          [0x90]).1.bytesinpacket = 1))) :=
  ⟨by decide,
    receive_counters_invariant mpuart7_static ⟨0, 0, 0, 0⟩ 0x40013000 76 1 [0x90]
      ⟨0x19, 0x90, 0, 0⟩ 0x3C⟩

/-- Instance of `rx_loop_terminates_iff_multiple_of_four`: a transfer reported
with 6 bytes. -/
theorem rx_loop_terminates_iff_multiple_of_four_witness :
    ((6 : Nat) < 2 ^ 32 ∧ ¬ 4 ∣ (6 : Nat)) ∧
    ((4 ∣ 6 → ∀ fuel, 6 / 4 ≤ fuel →
      ∃ r, USBMIDI_RxXferCompleteCb fuel exampleUsb USB_STATUS_OK 6 0 = some r) ∧
    (¬ 4 ∣ 6 →
      (∀ fuel, USBMIDI_RxXferCompleteCb fuel exampleUsb USB_STATUS_OK 6 0 = none) ∧
      (∀ n, rxCounterStep^[n] 6 ≠ 0)) ∧
    ((∃ fuel r, USBMIDI_RxXferCompleteCb fuel exampleUsb USB_STATUS_OK 6 0 = some r) ↔
      4 ∣ 6) ∧
    (∀ fuel f buf epb x, RxXfer_loop (fuel + 1) f buf epb x =
      if x = 0 then some f
      else RxXfer_loop fuel (USBMIDIFIFO_Push f (buf.getD epb ⟨0, 0, 0, 0⟩)) buf (epb + 1)
        (rxCounterStep x))) :=
  ⟨⟨by decide, by decide⟩,
    rx_loop_terminates_iff_multiple_of_four exampleUsb 6 0 (by decide)⟩

end MidiUart
